import Mathlib

/-!
Verification of `settings.go` of pgotune.

A shallow embedding of the memory-quantity parser/formatter, the profile
validator, the recalculation engine and the settings accessors of
`settings.go`, followed by theorems about them.

Conventions of the embedding.

* Go `int` is the 64 bit two's complement integer (the constants `4096 * MB`
  and larger in `recalculate` do not fit a 32 bit `int`).  Values are Lean
  `Int`s; every `*`, `-` and `/` on run-time values goes through `wrap64`,
  constant expressions such as `512 * MB` are exact.
* A run-time panic (integer division by zero in `recalculate`) is the outcome
  `none` of `recalculate` and the error `Err.divideByZero` of its callers.
* Go `string`s are Lean `String`s (sequences of code points).
* `strings.ToLower` maps every rune through `unicode.ToLower`.  Its action on
  ASCII is fixed by the Go library (`A`..`Z` are shifted by 32, every other
  ASCII rune is kept); its action on the other runes is a table of the Go
  library and is a parameter `tbl` of the embedding.
* A Go `map[string]T` is an association list; a lookup of a missing key yields
  the zero value of `T`.
* `(T, error)` results are `Except Err T`.
-/

namespace Pgotune

deriving instance DecidableEq for Except

/-! ## Machine integers -/

/-- Two's complement reduction of an integer to the range of a 64 bit `int`. -/
def wrap64 (x : Int) : Int := (x + 2 ^ 63) % 2 ^ 64 - 2 ^ 63

/-- Go `a * b` on `int`. -/
def mulInt (a b : Int) : Int := wrap64 (a * b)

/-- Go `a - b` on `int`. -/
def subInt (a b : Int) : Int := wrap64 (a - b)

/-- Go `a / b` on `int` (truncation toward zero). -/
def divInt (a b : Int) : Int := wrap64 (Int.tdiv a b)

/-- Go `a % b` on `int` (sign of the dividend). -/
def modInt (a b : Int) : Int := Int.tmod a b

/-- Constant `KB = 1 << 10`. -/
def KB : Int := 1024
/-- Constant `MB = 1 << 20`. -/
def MB : Int := 1048576
/-- Constant `GB = 1 << 30`. -/
def GB : Int := 1073741824

/-! ## Library functions used by the source -/

/-- Function `unicode.ToLower`: fixed on ASCII, table driven elsewhere. -/
def unicodeToLower (tbl : Char → Char) (r : Char) : Char :=
  if r.toNat ≤ 127 then
    if 65 ≤ r.toNat ∧ r.toNat ≤ 90 then Char.ofNat (r.toNat + 32) else r
  else tbl r

/-- Function `strings.ToLower`. -/
def ToLower (tbl : Char → Char) (s : String) : String :=
  ⟨s.data.map (unicodeToLower tbl)⟩

/-- Function `strings.HasPrefix`. -/
def HasPrefix (s pre : String) : Bool := pre.data.isPrefixOf s.data

/-- The byte range `'0'..'9'`. -/
def isDigit (c : Char) : Bool := decide (48 ≤ c.toNat) && decide (c.toNat ≤ 57)

/-- The two error kinds of package `strconv`. -/
inductive NumError where
  | ErrSyntax
  | ErrRange
  deriving DecidableEq, Repr

/-- Digit loop of `strconv.ParseUint(s, 10, 64)`: the accumulated value, or the
first error met scanning from the left (a range error is raised as soon as the
accumulator leaves the `uint64` range, before later bytes are looked at). -/
def parseUintLoop : List Char → Nat → Except NumError Nat
  | [], n => .ok n
  | c :: cs, n =>
    if !isDigit c then .error .ErrSyntax
    else if 1844674407370955162 ≤ n then .error .ErrRange
    else if 18446744073709551615 < n * 10 + (c.toNat - 48) then .error .ErrRange
    else parseUintLoop cs (n * 10 + (c.toNat - 48))

/-- Call `strconv.ParseUint(s, 10, 64)`, with the value returned next to the error. -/
def ParseUint (s : List Char) : Nat × Option NumError :=
  match s with
  | [] => (0, some .ErrSyntax)
  | _ =>
    match parseUintLoop s 0 with
    | .ok n => (n, none)
    | .error .ErrSyntax => (0, some .ErrSyntax)
    | .error .ErrRange => (18446744073709551615, some .ErrRange)

/-- Call `strconv.ParseInt(s, 10, 0)` on a 64 bit platform. -/
def ParseInt (s : List Char) : Int × Option NumError :=
  match s with
  | [] => (0, some .ErrSyntax)
  | c :: cs =>
    let neg : Bool := c = '-'
    let body : List Char := if c = '+' ∨ c = '-' then cs else c :: cs
    match ParseUint body with
    | (_, some .ErrSyntax) => (0, some .ErrSyntax)
    | (un, _) =>
      if !neg && decide (9223372036854775808 ≤ un) then
        (9223372036854775807, some .ErrRange)
      else if neg && decide (9223372036854775808 < un) then
        (-9223372036854775808, some .ErrRange)
      else (if neg then -(un : Int) else (un : Int), none)

/-- Fast-path digit loop of `strconv.Atoi`. -/
def atoiFastLoop : List Char → Int → Option Int
  | [], n => some n
  | c :: cs, n => if !isDigit c then none else atoiFastLoop cs (n * 10 + ((c.toNat : Int) - 48))

/-- Function `strconv.Atoi` on a 64 bit platform: the value and the error, both of which
the callers may look at. -/
def Atoi (s : String) : Int × Option NumError :=
  if 0 < s.utf8ByteSize ∧ s.utf8ByteSize < 19 then
    match s.data with
    | [] => (0, some .ErrSyntax)
    | c :: cs =>
      let body : List Char := if c = '-' ∨ c = '+' then cs else c :: cs
      if body.length < 1 then (0, some .ErrSyntax)
      else
        match atoiFastLoop body 0 with
        | none => (0, some .ErrSyntax)
        | some n => (if c = '-' then -n else n, none)
  else ParseInt s.data

/-- Function `strconv.Itoa`. -/
def Itoa (i : Int) : String :=
  if i < 0 then "-" ++ Nat.repr (-i).toNat else Nat.repr i.toNat

/-! ## Memory quantity -/

/-- Errors returned by the validators. -/
inductive Err where
  | parseMemory (totalMemory : String)
  | invalidType (dbType : String)
  | invalidVersion (dbVersion : String)
  | invalidPlatform (dbPlatform : String)
  | invalidStorage (storage : String)
  | atoi (input : String) (kind : NumError)
  | parseFloat (input : String)
  | divideByZero
  | invalidSetting (name : String)
  deriving DecidableEq, Repr

/-- Type `DbMemory`. -/
structure DbMemory where
  inBytes : Int
  deriving DecidableEq, Repr

/-- Tail `([kmg]?b?)$` of the pattern. -/
def matchUnit : List Char → Bool
  | [] => true
  | [c] => c = 'k' || c = 'm' || c = 'g' || c = 'b'
  | [c, d] => (c = 'k' || c = 'm' || c = 'g') && d = 'b'
  | _ => false

/-- Call `regexp.MustCompile("^([0-9]+)([kmg]?b?)$").FindAllStringSubmatch(s, 1)`:
the two groups of the only possible match.  The first group is greedy and the
second cannot start with a digit, so the first group is the longest run of
digits at the start. -/
def FindSubmatch (s : String) : Option (String × String) :=
  let num := s.data.takeWhile isDigit
  let unit := s.data.dropWhile isDigit
  if num ≠ [] ∧ matchUnit unit = true then some (⟨num⟩, ⟨unit⟩) else none

/-- Function `NewDBMemory`. -/
def NewDBMemory (tbl : Char → Char) (totalMemory : String) : Except Err DbMemory :=
  match FindSubmatch (ToLower tbl totalMemory) with
  | some (g1, unit) =>
    let num := (Atoi g1).1
    if HasPrefix unit "k" then .ok ⟨mulInt num KB⟩
    else if HasPrefix unit "m" then .ok ⟨mulInt num MB⟩
    else if HasPrefix unit "g" then .ok ⟨mulInt num GB⟩
    else if HasPrefix unit "b" then .ok ⟨num⟩
    else .ok ⟨num⟩
  | none => .error (.parseMemory totalMemory)

/-- Method `InBytes`. -/
def DbMemory.InBytes (m : DbMemory) : Int := m.inBytes

/-- Method `Get`. -/
def DbMemory.Get (m : DbMemory) : String :=
  if modInt m.InBytes GB = 0 then Itoa (divInt m.InBytes GB) ++ "GB"
  else if modInt m.InBytes MB = 0 then Itoa (divInt m.InBytes MB) ++ "MB"
  else if modInt m.InBytes KB = 0 then Itoa (divInt m.InBytes KB) ++ "KB"
  else Itoa m.InBytes

/-! ## Maps -/

/-- Type `MemValue`, a `map[string]DbMemory`. -/
abbrev MemValue := List (String × DbMemory)

/-- Type `StrValue`, a `map[string]string`. -/
abbrev StrValue := List (String × String)

/-- Map read `m[k]` with zero value `z` for a missing key. -/
def mapGet {α : Type} (z : α) (m : List (String × α)) (k : String) : α :=
  (m.lookup k).getD z

/-- Map write `m[k] = v`. -/
def mapSet {α : Type} (m : List (String × α)) (k : String) (v : α) : List (String × α) :=
  if m.any (fun kv => kv.1 == k) then m.map (fun kv => if kv.1 == k then (k, v) else kv)
  else m ++ [(k, v)]

/-- Keys of a map. -/
def mapKeys {α : Type} (m : List (String × α)) : List String := m.map (fun kv => kv.1)

/-- Read `m[k]` of a `MemValue`. -/
def memGet (m : MemValue) (k : String) : DbMemory := mapGet ⟨0⟩ m k

/-- Read `m[k]` of a `StrValue`. -/
def strGet (m : StrValue) (k : String) : String := mapGet "" m k

/-! ## Profile -/

/-- Type `PGSettings`.  The `float64` field `dbVersion` only ever holds the
value of a member of `DbVersions`; it is stored as its number of tenths (9.4 is
`94`, 10 is `100`), which preserves every comparison the source makes with the
constants 9.5, 9.6, 10 and 11, and `int(dbVersion)` is `dbVersion / 10`. -/
structure PGSettings where
  dbType : String
  dbVersion : Int
  dbPlatform : String
  dbConnections : Int
  dbStorage : String
  dbCPU : Int
  totalMemory : DbMemory
  memSettings : List (String × MemValue)
  strSettings : List (String × StrValue)
  deriving DecidableEq, Repr

/-- The zero value `&PGSettings{}`. -/
def PGSettings.zero : PGSettings :=
  { dbType := "", dbVersion := 0, dbPlatform := "", dbConnections := 0, dbStorage := "",
    dbCPU := 0, totalMemory := ⟨0⟩, memSettings := [], strSettings := [] }

/-- Variable `DbVersions`. -/
def DbVersions : List String := ["9.4", "9.5", "9.6", "10", "11", "12", "13", "14"]
/-- Variable `DbTypes`. -/
def DbTypes : List String := ["web", "oltp", "dw", "mixed", "desktop"]
/-- Variable `DbPlatforms`. -/
def DbPlatforms : List String := ["linux", "darwin", "windows"]
/-- Variable `DbStorages`. -/
def DbStorages : List String := ["ssd", "hdd", "san"]

/-- Variable `DbDefaultValues`. -/
def DbDefaultValues : List (String × StrValue) :=
  [ ("9.5", [("max_worker_processes", "8")]),
    ("9.6", [("max_worker_processes", "8"), ("max_parallel_workers_per_gather", "0")]),
    ("10", [("max_worker_processes", "8"), ("max_parallel_workers_per_gather", "2"),
            ("max_parallel_workers", "8")]),
    ("11", [("max_worker_processes", "8"), ("max_parallel_workers_per_gather", "2"),
            ("max_parallel_workers", "8")]),
    ("12", [("max_worker_processes", "8"), ("max_parallel_workers_per_gather", "2"),
            ("max_parallel_workers", "8")]),
    ("13", [("max_worker_processes", "8"), ("max_parallel_workers_per_gather", "2"),
            ("max_parallel_workers", "8")]),
    ("14", [("max_worker_processes", "8"), ("max_parallel_workers_per_gather", "2"),
            ("max_parallel_workers", "8")]) ]

/-- Function `strconv.ParseFloat(s, 64)` on the members of `DbVersions`, the only
strings `setDbVersion` passes to it; the value is given in tenths. -/
def ParseFloat (s : String) : Option Int :=
  if s = "9.4" then some 94
  else if s = "9.5" then some 95
  else if s = "9.6" then some 96
  else if s = "10" then some 100
  else if s = "11" then some 110
  else if s = "12" then some 120
  else if s = "13" then some 130
  else if s = "14" then some 140
  else none

/-- Method `setDbType`. -/
def setDbType (tbl : Char → Char) (ps : PGSettings) (dbType : String) : Except Err PGSettings :=
  let dbType := ToLower tbl dbType
  if DbTypes.any (fun t => t == dbType) then .ok { ps with dbType := dbType }
  else .error (.invalidType dbType)

/-- Method `setDbVersion`. -/
def setDbVersion (ps : PGSettings) (dbVersion : String) : Except Err PGSettings :=
  if DbVersions.any (fun v => v == dbVersion) then
    match ParseFloat dbVersion with
    | some ver => .ok { ps with dbVersion := ver }
    | none => .error (.parseFloat dbVersion)
  else .error (.invalidVersion dbVersion)

/-- Method `setDbPlatform`. -/
def setDbPlatform (tbl : Char → Char) (ps : PGSettings) (dbPlatform : String) :
    Except Err PGSettings :=
  let dbPlatform := ToLower tbl dbPlatform
  if DbPlatforms.any (fun p => p == dbPlatform) then .ok { ps with dbPlatform := dbPlatform }
  else .error (.invalidPlatform dbPlatform)

/-- Method `setDBMemory`. -/
def setDBMemory (tbl : Char → Char) (ps : PGSettings) (totalMemory : String) :
    Except Err PGSettings :=
  match NewDBMemory tbl totalMemory with
  | .ok mem => .ok { ps with totalMemory := mem }
  | .error err => .error err

/-- Method `setDBConnections`. -/
def setDBConnections (ps : PGSettings) (connections : String) : Except Err PGSettings :=
  if connections ≠ "" then
    match Atoi connections with
    | (_, some err) => .error (.atoi connections err)
    | (conn, none) => .ok { ps with dbConnections := conn }
  else .ok ps

/-- Method `setDBStorage`. -/
def setDBStorage (tbl : Char → Char) (ps : PGSettings) (storage : String) :
    Except Err PGSettings :=
  let storage := ToLower tbl storage
  if DbStorages.any (fun s => s == storage) then .ok { ps with dbStorage := storage }
  else .error (.invalidStorage storage)

/-- Method `setDBCPU`. -/
def setDBCPU (ps : PGSettings) (cpu : String) : Except Err PGSettings :=
  if cpu ≠ "" then
    match Atoi cpu with
    | (_, some err) => .error (.atoi cpu err)
    | (c, none) => .ok { ps with dbCPU := c }
  else .ok ps

/-! ## Recalculation engine -/

/-- Number of low bits of `n` that do not fit a 53 bit significand, for
`n < 2 ^ 65` (the magnitude of an `int` is at most `2 ^ 63`): `k` when
`2 ^ (52 + k) ≤ n < 2 ^ (53 + k)`; the bounds are written out, from `2 ^ 53` to
`2 ^ 64`. -/
def excessBits (n : Nat) : Nat :=
  if n < 9007199254740992 then 0
  else if n < 18014398509481984 then 1
  else if n < 36028797018963968 then 2
  else if n < 72057594037927936 then 3
  else if n < 144115188075855872 then 4
  else if n < 288230376151711744 then 5
  else if n < 576460752303423488 then 6
  else if n < 1152921504606846976 then 7
  else if n < 2305843009213693952 then 8
  else if n < 4611686018427387904 then 9
  else if n < 9223372036854775808 then 10
  else if n < 18446744073709551616 then 11
  else 12

/-- Conversion `float64(n)` of a non-negative `int`: the nearest number with 53
significant bits, ties to the even significand. -/
def float64OfNat (n : Nat) : Nat :=
  let e := excessBits n
  let q := n / 2 ^ e
  let r := n % 2 ^ e
  if 2 * r < 2 ^ e then q * 2 ^ e
  else if 2 ^ e < 2 * r then (q + 1) * 2 ^ e
  else if q % 2 = 0 then q * 2 ^ e
  else (q + 1) * 2 ^ e

/-- Conversion `float64(n)` of an `int`; the result is an integer. -/
def float64OfInt (n : Int) : Int :=
  if n < 0 then -(float64OfNat (-n).toNat : Int) else (float64OfNat n.toNat : Int)

/-- Expression `math.Ceil(float64(n) / 2)`: halving a `float64` integer is
exact, and the ceiling of a half-integer is an integer. -/
def ceilHalfFloat (n : Int) : Int := (float64OfInt n + 1) / 2

/-- First block of `recalculate`: the `sharedBuffers` table. -/
def sharedBuffers (ps : PGSettings) : MemValue :=
  let base : MemValue :=
    [ ("web", ⟨divInt ps.totalMemory.InBytes 4⟩),
      ("oltp", ⟨divInt ps.totalMemory.InBytes 4⟩),
      ("dw", ⟨divInt ps.totalMemory.InBytes 4⟩),
      ("mixed", ⟨divInt ps.totalMemory.InBytes 4⟩),
      ("desktop", ⟨divInt ps.totalMemory.InBytes 16⟩) ]
  if ps.dbVersion < 100 ∧ ps.dbPlatform = "windows" then
    let winMemoryLimit : Int := 512 * MB
    base.map (fun kv => if kv.2.InBytes > winMemoryLimit then (kv.1, ⟨winMemoryLimit⟩) else kv)
  else base

/-- The `maxConnections` table of `recalculate`. -/
def maxConnections (ps : PGSettings) : StrValue :=
  let base : StrValue :=
    [ ("web", Itoa 200), ("oltp", Itoa 300), ("dw", Itoa 40), ("mixed", Itoa 100),
      ("desktop", Itoa 20) ]
  if ps.dbConnections > 0 then base.map (fun kv => (kv.1, Itoa ps.dbConnections))
  else base

/-- The `effectiveCacheSize` table of `recalculate`. -/
def effectiveCacheSize (ps : PGSettings) : MemValue :=
  [ ("web", ⟨divInt (mulInt ps.totalMemory.InBytes 3) 4⟩),
    ("oltp", ⟨divInt (mulInt ps.totalMemory.InBytes 3) 4⟩),
    ("dw", ⟨divInt (mulInt ps.totalMemory.InBytes 3) 4⟩),
    ("mixed", ⟨divInt (mulInt ps.totalMemory.InBytes 3) 4⟩),
    ("desktop", ⟨divInt ps.totalMemory.InBytes 4⟩) ]

/-- The `maintenanceWorkMem` table of `recalculate`. -/
def maintenanceWorkMem (ps : PGSettings) : MemValue :=
  let base : MemValue :=
    [ ("web", ⟨divInt ps.totalMemory.InBytes 16⟩),
      ("oltp", ⟨divInt ps.totalMemory.InBytes 16⟩),
      ("dw", ⟨divInt ps.totalMemory.InBytes 8⟩),
      ("mixed", ⟨divInt ps.totalMemory.InBytes 16⟩),
      ("desktop", ⟨divInt ps.totalMemory.InBytes 16⟩) ]
  let memoryLimit : Int := 2 * GB
  base.map (fun kv =>
    if kv.2.InBytes > memoryLimit then
      if ps.dbPlatform = "windows" then (kv.1, ⟨memoryLimit - MB⟩) else (kv.1, ⟨memoryLimit⟩)
    else kv)

/-- The `checkpointCompletionTarget` table of `recalculate`. -/
def checkpointCompletionTarget : StrValue :=
  [ ("web", "0.9"), ("oltp", "0.9"), ("dw", "0.9"), ("mixed", "0.9"), ("desktop", "0.9") ]

/-- The `randomPageCost` table of `recalculate`. -/
def randomPageCost : StrValue := [ ("hdd", "4"), ("ssd", "1.1"), ("san", "1.1") ]

/-- Body of the loop over `walBuffers`: three successive tests, each on the
value the previous one left. -/
def walBufferClamp (m : DbMemory) : DbMemory :=
  let maxWalBuffer : Int := 16 * MB
  let walBufferNear : Int := 14 * MB
  let m1 : DbMemory := if m.InBytes > maxWalBuffer then ⟨maxWalBuffer⟩ else m
  let m2 : DbMemory :=
    if m1.InBytes > walBufferNear ∧ m1.InBytes < maxWalBuffer then ⟨maxWalBuffer⟩ else m1
  if m2.InBytes < 32 then ⟨32⟩ else m2

/-- The `walBuffers` table of `recalculate`, computed from the `sharedBuffers`
table. -/
def walBuffers (sb : MemValue) : MemValue :=
  let base : MemValue :=
    [ ("web", ⟨divInt (mulInt 3 (memGet sb "web").InBytes) 100⟩),
      ("oltp", ⟨divInt (mulInt 3 (memGet sb "oltp").InBytes) 100⟩),
      ("dw", ⟨divInt (mulInt 3 (memGet sb "dw").InBytes) 100⟩),
      ("mixed", ⟨divInt (mulInt 3 (memGet sb "mixed").InBytes) 100⟩),
      ("desktop", ⟨divInt (mulInt 3 (memGet sb "desktop").InBytes) 100⟩) ]
  base.map (fun kv => (kv.1, walBufferClamp kv.2))

/-- The `defaultStatisticsTarget` table of `recalculate`. -/
def defaultStatisticsTarget : StrValue :=
  [ ("web", "100"), ("oltp", "100"), ("dw", "500"), ("mixed", "100"), ("desktop", "100") ]

/-- The tables assigned to `ps.memSettings` before the gated blocks. -/
def memSettingsBase (ps : PGSettings) : List (String × MemValue) :=
  [ ("shared_buffers", sharedBuffers ps),
    ("effective_cache_size", effectiveCacheSize ps),
    ("maintenance_work_mem", maintenanceWorkMem ps),
    ("wal_buffers", walBuffers (sharedBuffers ps)) ]

/-- The tables assigned to `ps.strSettings` before the gated blocks. -/
def strSettingsBase (ps : PGSettings) : List (String × StrValue) :=
  [ ("max_connections", maxConnections ps),
    ("checkpoint_completion_target", checkpointCompletionTarget),
    ("default_statistics_target", defaultStatisticsTarget),
    ("random_page_cost", randomPageCost) ]

/-- The block `if ps.dbVersion < 9.5 ... else ...` of `recalculate`. -/
def walSizeBlock (ps : PGSettings) : PGSettings :=
  if ps.dbVersion < 95 then
    let segments : StrValue :=
      [ ("web", Itoa 32), ("oltp", Itoa 64), ("dw", Itoa 128), ("mixed", Itoa 32),
        ("desktop", Itoa 3) ]
    { ps with strSettings := mapSet ps.strSettings "checkpoint_segments" segments }
  else
    let minWal : MemValue :=
      [ ("web", ⟨1024 * MB⟩), ("oltp", ⟨2048 * MB⟩), ("dw", ⟨4096 * MB⟩),
        ("mixed", ⟨1024 * MB⟩), ("desktop", ⟨100 * MB⟩) ]
    let maxWal : MemValue :=
      [ ("web", ⟨4096 * MB⟩), ("oltp", ⟨8192 * MB⟩), ("dw", ⟨16384 * MB⟩),
        ("mixed", ⟨4096 * MB⟩), ("desktop", ⟨2048 * MB⟩) ]
    { ps with memSettings := mapSet (mapSet ps.memSettings "min_wal_size" minWal)
                "max_wal_size" maxWal }

/-- The block `if ps.dbPlatform == "linux"` of `recalculate`. -/
def ioConcurrencyBlock (ps : PGSettings) : PGSettings :=
  if ps.dbPlatform = "linux" then
    let io : StrValue := [ ("hdd", "2"), ("ssd", "200"), ("san", "300") ]
    { ps with strSettings := mapSet ps.strSettings "effective_io_concurrency" io }
  else ps

/-- A loop `for _, dbType := range DbTypes { m[dbType] = f dbType }` over a
fresh `StrValue{}`. -/
def fillTypes (f : String → String) : StrValue :=
  DbTypes.foldl (fun m dbType => mapSet m dbType (f dbType)) []

/-- The block `if ps.dbVersion > 9.5 && ps.dbCPU > 2` of `recalculate`. -/
def parallelBlock (ps : PGSettings) : PGSettings :=
  if ps.dbVersion > 95 ∧ ps.dbCPU > 2 then
    let s1 := mapSet ps.strSettings "max_worker_processes" (fillTypes (fun _ => Itoa ps.dbCPU))
    let s2 :=
      if ps.dbVersion ≥ 96 then
        let workersPerGather := ceilHalfFloat ps.dbCPU
        mapSet s1 "max_parallel_workers_per_gather"
          (fillTypes (fun _ =>
            if ps.dbType ≠ "dw" ∧ workersPerGather > 4 then Itoa 4 else Itoa workersPerGather))
      else s1
    let s3 :=
      if ps.dbVersion ≥ 100 then
        mapSet s2 "max_parallel_workers" (fillTypes (fun _ => Itoa ps.dbCPU))
      else s2
    let s4 :=
      if ps.dbVersion ≥ 110 then
        let parallelMaintenanceWorkers :=
          if ceilHalfFloat ps.dbCPU > 4 then 4 else ceilHalfFloat ps.dbCPU
        mapSet s3 "max_parallel_maintenance_workers"
          (fillTypes (fun _ => Itoa parallelMaintenanceWorkers))
      else s3
    { ps with strSettings := s4 }
  else ps

/-- The initial value of `parallelForWorkMem` in `recalculate`. -/
def parallelForWorkMemDefault (ps : PGSettings) : Int :=
  let d := (Atoi (strGet (mapGet [] DbDefaultValues (Itoa (ps.dbVersion / 10)))
    "max_parallel_workers_per_gather")).1
  if d = 0 then 1 else d

/-- Go `a / b` on `int` with the run-time panic on a zero divisor. -/
def divChecked (a b : Int) : Option Int := if b = 0 then none else some (divInt a b)

/-- The loop `for _, dbType := range DbTypes` of the `work_mem` block: `par` is
the current value of `parallelForWorkMem`, `acc` the `work_mem` table so far;
`none` is the division-by-zero panic. -/
def workMemLoop (ps : PGSettings) : List String → Int → MemValue → Option MemValue
  | [], _, acc => some acc
  | dbType :: rest, par, acc =>
    let gather := strGet (mapGet [] ps.strSettings "max_parallel_workers_per_gather") dbType
    let par1 := if gather ≠ "" then (Atoi gather).1 else par
    let sharedBuffersValue := (memGet (mapGet [] ps.memSettings "shared_buffers") dbType).InBytes
    let maxConnectionsValue := (Atoi (strGet (mapGet [] ps.strSettings "max_connections") dbType)).1
    match divChecked (subInt ps.totalMemory.InBytes sharedBuffersValue)
        (mulInt maxConnectionsValue 3) with
    | none => none
    | some w1 =>
      match divChecked w1 par1 with
      | none => none
      | some workMem =>
        let tbl : MemValue :=
          [ ("web", ⟨mulInt (divInt workMem KB) KB⟩),
            ("oltp", ⟨mulInt (divInt workMem KB) KB⟩),
            ("dw", ⟨mulInt (divInt (divInt workMem 2) KB) KB⟩),
            ("mixed", ⟨mulInt (divInt (divInt workMem 2) KB) KB⟩),
            ("desktop", ⟨mulInt (divInt (divInt workMem 6) KB) KB⟩) ]
        workMemLoop ps rest par1 (mapSet acc dbType (memGet tbl dbType))

/-- The block `if ps.dbVersion > 9.5` at the end of `recalculate`. -/
def workMemBlock (ps : PGSettings) : Option PGSettings :=
  if ps.dbVersion > 95 then
    match workMemLoop ps DbTypes (parallelForWorkMemDefault ps) [] with
    | none => none
    | some wm => some { ps with memSettings := mapSet ps.memSettings "work_mem" wm }
  else some ps

/-- Method `recalculate`; `none` is a run-time panic. -/
def recalculate (ps : PGSettings) : Option PGSettings :=
  workMemBlock (parallelBlock (ioConcurrencyBlock (walSizeBlock
    { ps with memSettings := memSettingsBase ps, strSettings := strSettingsBase ps })))

/-- Function `NewPGSettings`. -/
def NewPGSettings (tbl : Char → Char)
    (dbType dbVersion dbPlatform totalMemory connections storage cpu : String) :
    Except Err PGSettings :=
  match setDbType tbl PGSettings.zero dbType with
  | .error err => .error err
  | .ok p1 =>
  match setDbVersion p1 dbVersion with
  | .error err => .error err
  | .ok p2 =>
  match setDbPlatform tbl p2 dbPlatform with
  | .error err => .error err
  | .ok p3 =>
  match setDBMemory tbl p3 totalMemory with
  | .error err => .error err
  | .ok p4 =>
  match setDBConnections p4 connections with
  | .error err => .error err
  | .ok p5 =>
  match setDBStorage tbl p5 storage with
  | .error err => .error err
  | .ok p6 =>
  match setDBCPU p6 cpu with
  | .error err => .error err
  | .ok p7 =>
  match recalculate p7 with
  | none => .error .divideByZero
  | some p8 => .ok p8

/-- Method `SetDbType`. -/
def SetDbType (tbl : Char → Char) (ps : PGSettings) (dbType : String) : Except Err PGSettings :=
  match setDbType tbl ps dbType with
  | .error err => .error err
  | .ok p1 =>
    match recalculate p1 with
    | none => .error .divideByZero
    | some p2 => .ok p2

/-- Method `SetDbVersion`. -/
def SetDbVersion (ps : PGSettings) (dbVersion : String) : Except Err PGSettings :=
  match setDbVersion ps dbVersion with
  | .error err => .error err
  | .ok p1 =>
    match recalculate p1 with
    | none => .error .divideByZero
    | some p2 => .ok p2

/-- Method `SetDbPlatform`. -/
def SetDbPlatform (tbl : Char → Char) (ps : PGSettings) (dbPlatform : String) :
    Except Err PGSettings :=
  setDbPlatform tbl ps dbPlatform

/-- Method `SetDBMemory`. -/
def SetDBMemory (tbl : Char → Char) (ps : PGSettings) (totalMemory : String) :
    Except Err PGSettings :=
  setDBMemory tbl ps totalMemory

/-- Method `SetDBStorage`. -/
def SetDBStorage (tbl : Char → Char) (ps : PGSettings) (storage : String) :
    Except Err PGSettings :=
  setDBStorage tbl ps storage

/-! ## Settings accessors -/

/-- Method `GetMemSetting`.  The keys of a map are distinct, so the loop body
runs for at most one key. -/
def GetMemSetting (ps : PGSettings) (name : String) : Except Err String :=
  if (mapKeys ps.memSettings).any (fun k => k == name) then
    let typeRelated := (memGet (mapGet [] ps.memSettings name) ps.dbType).Get
    if typeRelated ≠ "" then .ok typeRelated
    else
      let storageRelated := (memGet (mapGet [] ps.memSettings name) ps.dbStorage).Get
      if storageRelated ≠ "" then .ok storageRelated
      else .error (.invalidSetting name)
  else .error (.invalidSetting name)

/-- Method `GetStrSetting`. -/
def GetStrSetting (ps : PGSettings) (name : String) : Except Err String :=
  if (mapKeys ps.strSettings).any (fun k => k == name) then
    let typeRelated := strGet (mapGet [] ps.strSettings name) ps.dbType
    if typeRelated ≠ "" then .ok typeRelated
    else
      let storageRelated := strGet (mapGet [] ps.strSettings name) ps.dbStorage
      if storageRelated ≠ "" then .ok storageRelated
      else .error (.invalidSetting name)
  else .error (.invalidSetting name)

/-- The value `v` of `v, _ := f(k)`: the empty string when `f` fails. -/
def valueOrEmpty (r : Except Err String) : String :=
  match r with
  | .ok v => v
  | .error _ => ""

/-- Method `GetSettings`. -/
def GetSettings (ps : PGSettings) : StrValue :=
  let settings := (mapKeys ps.memSettings).foldl
    (fun m k => mapSet m k (valueOrEmpty (GetMemSetting ps k))) []
  (mapKeys ps.strSettings).foldl
    (fun m k => mapSet m k (valueOrEmpty (GetStrSetting ps k))) settings

/-! ## Notions of the specification -/

/-- Decimal value of a string of digits. -/
def decimalValue (ds : List Char) : Nat := ds.foldl (fun n c => 10 * n + (c.toNat - 48)) 0

/-- The unit multiplier table of the specification: `k/kb` is 1024, `m/mb` is
1024², `g/gb` is 1024³, empty or `b` is 1; other spellings are not units. -/
def unitMultiplier (u : String) : Option Nat :=
  if u = "k" ∨ u = "kb" then some 1024
  else if u = "m" ∨ u = "mb" then some (1024 ^ 2)
  else if u = "g" ∨ u = "gb" then some (1024 ^ 3)
  else if u = "" ∨ u = "b" then some 1
  else none

/-- The string `s` matches `^([0-9]+)([kmg]?b?)$` with digit prefix `num` and
unit `u`: it is a non-empty run of digits followed by one of the eight unit
spellings. -/
def MatchesGrammar (s num u : String) : Prop :=
  s = num ++ u ∧ num ≠ "" ∧ (∀ c ∈ num.data, isDigit c = true) ∧ (unitMultiplier u).isSome = true

/-- Left fold computing a decimal value from an accumulator. -/
def decimalFrom (ds : List Char) (n : Nat) : Nat :=
  ds.foldl (fun n c => 10 * n + (c.toNat - 48)) n

/-- The integer written by a decimal literal: an optional sign `+` or `-`
followed by at least one digit; `none` for any other string. -/
def decimalInt (s : String) : Option Int :=
  match s.data with
  | [] => none
  | c :: cs =>
    let body : List Char := if c = '-' ∨ c = '+' then cs else c :: cs
    if body ≠ [] ∧ (∀ d ∈ body, isDigit d = true) then
      some (if c = '-' then -(decimalValue body : Int) else (decimalValue body : Int))
    else none

/-- The string is a decimal literal of an integer that fits a 64 bit `int`. -/
def IsInt64Literal (s : String) : Prop :=
  ∃ v, decimalInt s = some v ∧ -2 ^ 63 ≤ v ∧ v < 2 ^ 63

/-! ## Auxiliary definitions -/

/-- The profile that the seven validators of `NewPGSettings` leave when each
of them succeeds, as handed to `recalculate`: `ver` is the parsed version and
`mem` the parsed memory. -/
def validatedFields (tbl : Char → Char) (dbType : String) (ver : Int) (dbPlatform : String)
    (mem : DbMemory) (connections storage cpu : String) : PGSettings :=
  { dbType := ToLower tbl dbType, dbVersion := ver, dbPlatform := ToLower tbl dbPlatform,
    dbConnections := if connections = "" then 0 else (Atoi connections).1,
    dbStorage := ToLower tbl storage,
    dbCPU := if cpu = "" then 0 else (Atoi cpu).1,
    totalMemory := mem, memSettings := [], strSettings := [] }

/-- The profile returned by a construction, the zero profile when it fails. -/
def profileOf (r : Except Err PGSettings) : PGSettings :=
  match r with
  | .ok p => p
  | .error _ => PGSettings.zero

/-- Example profile: web, version 13, linux, 16 GB, default connections, ssd,
4 CPUs. -/
def linuxProfile : PGSettings :=
  profileOf (NewPGSettings id "web" "13" "linux" "16GB" "" "ssd" "4")

/-- Example profile: dw, version 9.6, windows, 64 GB, default connections,
hdd, CPU count unspecified. -/
def windowsProfile : PGSettings :=
  profileOf (NewPGSettings id "dw" "9.6" "windows" "64GB" "" "hdd" "")

/-- Example profile: web, version 13, windows, 32 GB. -/
def windows32Profile : PGSettings :=
  profileOf (NewPGSettings id "web" "13" "windows" "32GB" "" "ssd" "")

/-- Example profile with signed counts: connections `-5` and CPU `-3`. -/
def signedProfile : PGSettings :=
  profileOf (NewPGSettings id "web" "13" "linux" "16GB" "-5" "ssd" "-3")

/-- The per-type divisor of the `work_mem` table: 6 for desktop, 2 for dw and
mixed, 1 for web and oltp. -/
def workMemTypeDivisor (t : String) : Int :=
  if t = "desktop" then 6 else if t = "dw" ∨ t = "mixed" then 2 else 1

/-- The parallelism divisor of workload type `t`: the integer value of that
type's `max_parallel_workers_per_gather` entry when it is set, else the
version-keyed default of `recalculate`. -/
def parallelismDivisor (ps : PGSettings) (t : String) : Int :=
  if strGet (mapGet [] ps.strSettings "max_parallel_workers_per_gather") t ≠ "" then
    (Atoi (strGet (mapGet [] ps.strSettings "max_parallel_workers_per_gather") t)).1
  else parallelForWorkMemDefault ps

/-- The integer value of the `max_connections` entry of workload type `t`. -/
def maxConnectionsValue (ps : PGSettings) (t : String) : Int :=
  (Atoi (strGet (mapGet [] ps.strSettings "max_connections") t)).1

/-- The default parallelism divisor looked up under the exact version string,
as the specification recommends: the `max_parallel_workers_per_gather` default
of `DbDefaultValues` for that version, with a missing or zero default mapped to
1. -/
def exactDefaultDivisor (version : String) : Int :=
  let d := (Atoi (strGet (mapGet [] DbDefaultValues version)
    "max_parallel_workers_per_gather")).1
  if d = 0 then 1 else d

/-- Example profile: dw, version 13, linux, 2 GB, all defaults. -/
def dwProfile : PGSettings :=
  profileOf (NewPGSettings id "dw" "13" "linux" "2GB" "" "ssd" "")

/-- Example profile: dw, version 13, linux, 16 GB, `2 ^ 53 + 1` CPUs. -/
def manyCpuProfile : PGSettings :=
  profileOf (NewPGSettings id "dw" "13" "linux" "16GB" "" "ssd" "9007199254740993")

/-- Example profile: web, version 13, linux, 16 GB, 3074457345618258603
connections (three times that count exceeds `2 ^ 63`). -/
def manyConnectionsProfile : PGSettings :=
  profileOf (NewPGSettings id "web" "13" "linux" "16GB" "3074457345618258603" "ssd" "")

/-- Example profile: desktop, version 9.6, windows, 512 MB, hdd. -/
def desktopProfile : PGSettings :=
  profileOf (NewPGSettings id "desktop" "9.6" "windows" "512MB" "" "hdd" "")

/-- The profile `linuxProfile` after `SetDBMemory("32GB")`. -/
def memorySetProfile : PGSettings :=
  profileOf (SetDBMemory id linuxProfile "32GB")

/-- The profile `linuxProfile` after `SetDbPlatform("windows")`. -/
def platformSetProfile : PGSettings :=
  profileOf (SetDbPlatform id linuxProfile "windows")

/-- The profile `linuxProfile` after `SetDBStorage("hdd")`. -/
def storageSetProfile : PGSettings :=
  profileOf (SetDBStorage id linuxProfile "hdd")

/-- The value `workMem` that the `work_mem` loop of `recalculate` computes for
workload type `t`: `(ps.totalMemory.InBytes() - sharedBuffersValue) /
(maxConnectionsValue * 3) / parallelForWorkMem`, in Go `int` arithmetic. -/
def workMemBase (ps : PGSettings) (t : String) : Int :=
  divInt
    (divInt
      (subInt ps.totalMemory.InBytes
        (memGet (mapGet [] ps.memSettings "shared_buffers") t).InBytes)
      (mulInt (maxConnectionsValue ps t) 3))
    (parallelismDivisor ps t)

/-- Example profile: oltp, version 12, darwin, 8 GB, san. -/
def sanProfile : PGSettings :=
  profileOf (NewPGSettings id "oltp" "12" "darwin" "8GB" "" "san" "")

/-! ## Machine integer lemmas -/

theorem wrap64_eq_self (x : Int) (h1 : -9223372036854775808 ≤ x) (h2 : x < 9223372036854775808) :
    wrap64 x = x := by
  unfold wrap64
  omega

theorem wrap64_lower (x : Int) : -9223372036854775808 ≤ wrap64 x := by
  unfold wrap64
  omega

theorem wrap64_upper (x : Int) : wrap64 x < 9223372036854775808 := by
  unfold wrap64
  omega

/-! ## Digit strings -/

theorem decimalValue_eq (ds : List Char) : decimalValue ds = decimalFrom ds 0 := rfl

theorem decimalFrom_cons (c : Char) (cs : List Char) (n : Nat) :
    decimalFrom (c :: cs) n = decimalFrom cs (10 * n + (c.toNat - 48)) := rfl

theorem decimalFrom_ge (ds : List Char) : ∀ n, n ≤ decimalFrom ds n := by
  induction ds with
  | nil => intro n; exact Nat.le_refl n
  | cons c cs ih =>
    intro n
    rw [decimalFrom_cons]
    have := ih (10 * n + (c.toNat - 48))
    omega

theorem decimalValue_append_single (ds : List Char) (c : Char) :
    decimalValue (ds ++ [c]) = 10 * decimalValue ds + (c.toNat - 48) := by
  simp [decimalValue, List.foldl_append]

theorem isDigit_iff (c : Char) : isDigit c = true ↔ 48 ≤ c.toNat ∧ c.toNat ≤ 57 := by
  simp [isDigit]

theorem atoiFastLoop_digits (ds : List Char) (hd : ∀ c ∈ ds, isDigit c = true) :
    ∀ n : Nat, atoiFastLoop ds (n : Int) = some ((decimalFrom ds n : Nat) : Int) := by
  induction ds with
  | nil => intro n; rfl
  | cons c cs ih =>
    intro n
    have hc := (isDigit_iff c).1 (hd c (List.mem_cons_self _ _))
    have hcs : ∀ d ∈ cs, isDigit d = true := fun d hdm => hd d (List.mem_cons_of_mem _ hdm)
    have hstep : (n : Int) * 10 + ((c.toNat : Int) - 48) = ((10 * n + (c.toNat - 48) : Nat) : Int) := by
      omega
    simp only [atoiFastLoop, hd c (List.mem_cons_self _ _), Bool.not_true, Bool.false_eq_true,
      if_false, hstep, decimalFrom_cons]
    exact ih hcs _

theorem parseUintLoop_digits (ds : List Char) (hd : ∀ c ∈ ds, isDigit c = true) :
    ∀ n : Nat, decimalFrom ds n ≤ 18446744073709551615 →
      parseUintLoop ds n = .ok (decimalFrom ds n) := by
  induction ds with
  | nil => intro n _; rfl
  | cons c cs ih =>
    intro n hle
    have hcs : ∀ d ∈ cs, isDigit d = true := fun d hdm => hd d (List.mem_cons_of_mem _ hdm)
    rw [decimalFrom_cons] at hle
    have hge := decimalFrom_ge cs (10 * n + (c.toNat - 48))
    have h1 : ¬ (1844674407370955162 ≤ n) := by omega
    have h2 : ¬ (18446744073709551615 < n * 10 + (c.toNat - 48)) := by omega
    have h3 : n * 10 + (c.toNat - 48) = 10 * n + (c.toNat - 48) := by omega
    simp only [parseUintLoop, hd c (List.mem_cons_self _ _), Bool.not_true, Bool.false_eq_true,
      if_false, h1, h2, decimalFrom_cons]
    rw [h3]
    exact ih hcs _ hle

theorem Atoi_digits (ds : List Char) (hne : ds ≠ []) (hd : ∀ c ∈ ds, isDigit c = true)
    (hr : decimalValue ds < 9223372036854775808) :
    Atoi (String.mk ds) = (((decimalValue ds : Nat) : Int), none) := by
  obtain ⟨c, cs, rfl⟩ := List.exists_cons_of_ne_nil hne
  have hc := (isDigit_iff c).1 (hd c (List.mem_cons_self _ _))
  have hminus : c ≠ '-' := by
    intro h; rw [h] at hc; revert hc; decide
  have hplus : c ≠ '+' := by
    intro h; rw [h] at hc; revert hc; decide
  have hfast := atoiFastLoop_digits (c :: cs) hd 0
  have hslow := parseUintLoop_digits (c :: cs) hd 0 (by rw [← decimalValue_eq]; omega)
  rw [← decimalValue_eq] at hfast hslow
  unfold Atoi
  split
  · simp only [hminus, hplus, or_self, if_false, List.length_cons]
    rw [show ((0 : Nat) : Int) = 0 from rfl] at hfast
    simp [hfast]
  · simp only [ParseInt, ParseUint, hminus, hplus, or_self, if_false, hslow, decide_False]
    have h4 : ¬ (9223372036854775808 ≤ decimalValue (c :: cs)) := by omega
    simp [h4]

/-! ## The pattern -/

theorem takeWhile_digits_append (ds u : List Char) (hd : ∀ c ∈ ds, isDigit c = true)
    (hu : ∀ c, u.head? = some c → isDigit c = false) :
    (ds ++ u).takeWhile isDigit = ds ∧ (ds ++ u).dropWhile isDigit = u := by
  induction ds with
  | nil =>
    cases u with
    | nil => exact ⟨rfl, rfl⟩
    | cons c cs =>
      have hc := hu c rfl
      simp [List.takeWhile, List.dropWhile, hc]
  | cons c cs ih =>
    have hc := hd c (List.mem_cons_self _ _)
    have hcs : ∀ d ∈ cs, isDigit d = true := fun d hdm => hd d (List.mem_cons_of_mem _ hdm)
    obtain ⟨h1, h2⟩ := ih hcs
    simp [List.takeWhile, List.dropWhile, hc, h1, h2]

theorem unitMultiplier_cases (u : String) (h : (unitMultiplier u).isSome = true) :
    u = "k" ∨ u = "kb" ∨ u = "m" ∨ u = "mb" ∨ u = "g" ∨ u = "gb" ∨ u = "" ∨ u = "b" := by
  unfold unitMultiplier at h
  split_ifs at h with h1 h2 h3 h4
  · rcases h1 with h1 | h1 <;> simp [h1]
  · rcases h2 with h2 | h2 <;> simp [h2]
  · rcases h3 with h3 | h3 <;> simp [h3]
  · rcases h4 with h4 | h4 <;> simp [h4]
  · simp at h

theorem unit_head_not_digit (u : String) (h : (unitMultiplier u).isSome = true) :
    ∀ c, u.data.head? = some c → isDigit c = false := by
  rcases unitMultiplier_cases u h with h | h | h | h | h | h | h | h <;> subst h <;> decide

theorem unit_matchUnit (u : String) (h : (unitMultiplier u).isSome = true) :
    matchUnit u.data = true := by
  rcases unitMultiplier_cases u h with h | h | h | h | h | h | h | h <;> subst h <;> decide

theorem FindSubmatch_of_grammar (s num u : String) (h : MatchesGrammar s num u) :
    FindSubmatch s = some (num, u) := by
  obtain ⟨hs, hne, hd, hu⟩ := h
  have hne2 : num.data ≠ [] := by
    intro h0
    apply hne
    exact String.ext h0
  obtain ⟨h1, h2⟩ := takeWhile_digits_append num.data u.data hd (unit_head_not_digit u hu)
  have hm := unit_matchUnit u hu
  subst hs
  simp only [FindSubmatch, String.data_append, h1, h2, hm, ne_eq, hne2, not_false_eq_true,
    and_self, if_true]

theorem matchUnit_isSome (us : List Char) (h : matchUnit us = true) :
    (unitMultiplier (String.mk us)).isSome = true := by
  match us, h with
  | [], _ => decide
  | [c], h =>
    simp only [matchUnit, Bool.or_eq_true, decide_eq_true_eq] at h
    rcases h with ((h | h) | h) | h <;> subst h <;> decide
  | [c, d], h =>
    simp only [matchUnit, Bool.or_eq_true, Bool.and_eq_true, decide_eq_true_eq] at h
    obtain ⟨(h | h) | h, h2⟩ := h <;> subst h <;> subst h2 <;> decide
  | _ :: _ :: _ :: _, h => simp [matchUnit] at h

theorem grammar_of_FindSubmatch (s num u : String) (h : FindSubmatch s = some (num, u)) :
    MatchesGrammar s num u := by
  unfold FindSubmatch at h
  simp only at h
  split_ifs at h with hc
  obtain ⟨hne, hm⟩ := hc
  simp only [Option.some.injEq, Prod.mk.injEq] at h
  obtain ⟨h1, h2⟩ := h
  subst h1
  subst h2
  refine ⟨?_, ?_, ?_, matchUnit_isSome _ hm⟩
  · apply String.ext
    simp [String.data_append, List.takeWhile_append_dropWhile]
  · intro h0
    apply hne
    exact congrArg String.data h0
  · intro c hcm
    exact (List.mem_takeWhile_imp hcm)

/-! ## Memory quantity: parsing -/

theorem NewDBMemory_of_FindSubmatch_none (tbl : Char → Char) (s : String)
    (h : FindSubmatch (ToLower tbl s) = none) :
    NewDBMemory tbl s = .error (.parseMemory s) := by
  simp [NewDBMemory, h]

theorem NewDBMemory_of_FindSubmatch_some (tbl : Char → Char) (s g1 u : String)
    (h : FindSubmatch (ToLower tbl s) = some (g1, u)) :
    ∃ m, NewDBMemory tbl s = .ok m := by
  simp only [NewDBMemory, h]
  split_ifs <;> exact ⟨_, rfl⟩

theorem NewDBMemory_of_grammar (tbl : Char → Char) (s num u : String) (mult : Nat)
    (hm : MatchesGrammar (ToLower tbl s) num u) (hu : unitMultiplier u = some mult)
    (hr : decimalValue num.data * mult < 2 ^ 63) :
    NewDBMemory tbl s = .ok ⟨((decimalValue num.data * mult : Nat) : Int)⟩ := by
  have hfind := FindSubmatch_of_grammar _ _ _ hm
  obtain ⟨_, hne, hd, hsome⟩ := hm
  have hne2 : num.data ≠ [] := fun h0 => hne (String.ext h0)
  have hmult : 1 ≤ mult := by
    unfold unitMultiplier at hu
    split_ifs at hu <;> simp at hu <;> omega
  have hv : decimalValue num.data < 9223372036854775808 := by
    have : decimalValue num.data * 1 ≤ decimalValue num.data * mult :=
      Nat.mul_le_mul_left _ hmult
    omega
  have hatoi := Atoi_digits num.data hne2 hd hv
  have hnum : Atoi num = (((decimalValue num.data : Nat) : Int), none) := hatoi
  simp only [NewDBMemory, hfind, hnum]
  rcases unitMultiplier_cases u hsome with h | h | h | h | h | h | h | h <;> subst h <;>
    simp [unitMultiplier] at hu <;> subst hu <;>
    simp [HasPrefix, List.isPrefixOf, mulInt, KB, MB, GB] <;>
    (try (apply wrap64_eq_self <;> omega))

/-- C1 (amended): when the lower-cased string is a non-empty run of digits
`num` followed by a unit `u` of the table, and the decimal value of `num` times
the multiplier of `u` is below `2 ^ 63`, `NewDBMemory` succeeds with exactly
that product as byte count. -/
theorem NewDBMemory_value (tbl : Char → Char) (s num u : String) (mult : Nat)
    (hm : MatchesGrammar (ToLower tbl s) num u) (hu : unitMultiplier u = some mult)
    (hr : decimalValue num.data * mult < 2 ^ 63) :
    NewDBMemory tbl s = .ok ⟨((decimalValue num.data * mult : Nat) : Int)⟩ :=
  NewDBMemory_of_grammar tbl s num u mult hm hu hr

/-- Instance of `NewDBMemory_value`: `"16GB"` is 16 · 1024³ bytes. -/
theorem NewDBMemory_value_witness :
    NewDBMemory id "16GB" = .ok ⟨((decimalValue "16".data * 1024 ^ 3 : Nat) : Int)⟩ :=
  NewDBMemory_value id "16GB" "16" "gb" (1024 ^ 3)
    (by unfold MatchesGrammar; decide) (by decide) (by decide)

/-- C1 as stated fails: `"8589934592gb"` matches the pattern with digit prefix
8589934592 and multiplier 1024³, the product is `2 ^ 63`, and `NewDBMemory`
yields the byte count `-2 ^ 63`. -/
theorem NewDBMemory_value_counterexample :
    MatchesGrammar (ToLower id "8589934592gb") "8589934592" "gb" ∧
    unitMultiplier "gb" = some (1024 ^ 3) ∧
    decimalValue "8589934592".data * 1024 ^ 3 = 9223372036854775808 ∧
    NewDBMemory id "8589934592gb" = .ok ⟨-9223372036854775808⟩ := by
  refine ⟨?_, ?_, ?_, ?_⟩
  · unfold MatchesGrammar; decide
  · decide
  · decide
  · decide

/-- C2: `NewDBMemory` returns an error exactly when the lower-cased string does
not match `^([0-9]+)([kmg]?b?)$`, a quantity exactly when it does, and it
rejects `"10xb"`, `"-5gb"` and the empty string. -/
theorem NewDBMemory_error_iff (tbl : Char → Char) (s : String) :
    ((∃ e, NewDBMemory tbl s = .error e) ↔ ¬ ∃ num u, MatchesGrammar (ToLower tbl s) num u) ∧
    ((∃ m, NewDBMemory tbl s = .ok m) ↔ ∃ num u, MatchesGrammar (ToLower tbl s) num u) ∧
    NewDBMemory tbl "10xb" = .error (.parseMemory "10xb") ∧
    NewDBMemory tbl "-5gb" = .error (.parseMemory "-5gb") ∧
    NewDBMemory tbl "" = .error (.parseMemory "") := by
  have h1 : ToLower tbl "10xb" = "10xb" := rfl
  have h2 : ToLower tbl "-5gb" = "-5gb" := rfl
  have h3 : ToLower tbl "" = "" := rfl
  refine ⟨?_, ?_, ?_, ?_, ?_⟩
  rotate_left 2
  · simp only [NewDBMemory, h1]; decide
  · simp only [NewDBMemory, h2]; decide
  · simp only [NewDBMemory, h3]; decide
  · cases hf : FindSubmatch (ToLower tbl s) with
    | none =>
      constructor
      · rintro _ ⟨num, u, hm⟩
        rw [FindSubmatch_of_grammar _ _ _ hm] at hf
        exact Option.noConfusion hf
      · intro _
        exact ⟨_, NewDBMemory_of_FindSubmatch_none tbl s hf⟩
    | some gu =>
      obtain ⟨g1, u⟩ := gu
      obtain ⟨m, hm⟩ := NewDBMemory_of_FindSubmatch_some tbl s g1 u hf
      constructor
      · rintro ⟨e, he⟩
        rw [hm] at he
        exact Except.noConfusion he
      · intro hno
        exact absurd ⟨g1, u, grammar_of_FindSubmatch _ _ _ hf⟩ hno
  · cases hf : FindSubmatch (ToLower tbl s) with
    | none =>
      constructor
      · rintro ⟨m, hm⟩
        rw [NewDBMemory_of_FindSubmatch_none tbl s hf] at hm
        exact Except.noConfusion hm
      · rintro ⟨num, u, hm⟩
        rw [FindSubmatch_of_grammar _ _ _ hm] at hf
        exact Option.noConfusion hf
    | some gu =>
      obtain ⟨g1, u⟩ := gu
      constructor
      · intro _
        exact ⟨g1, u, grammar_of_FindSubmatch _ _ _ hf⟩
      · intro _
        exact NewDBMemory_of_FindSubmatch_some tbl s g1 u hf

/-! ## Memory quantity: formatting -/

theorem modInt_of_nonneg (n u : Int) (h0 : 0 ≤ n) (hu : 0 ≤ u) : modInt n u = n % u := by
  unfold modInt
  exact Int.tmod_eq_emod h0 hu

theorem divInt_of_nonneg (n u : Int) (h0 : 0 ≤ n) (h1 : n < 9223372036854775808) (hu : 0 < u) :
    divInt n u = n / u := by
  unfold divInt
  rw [Int.tdiv_eq_ediv h0 (Int.le_of_lt hu)]
  have h2 : 0 ≤ n / u := Int.ediv_nonneg h0 (Int.le_of_lt hu)
  have h3 : n / u ≤ n := Int.ediv_le_self u h0
  apply wrap64_eq_self <;> omega

theorem Itoa_of_nonneg (i : Int) (h : 0 ≤ i) : Itoa i = Nat.repr i.toNat := by
  unfold Itoa
  rw [if_neg (by omega)]

theorem Get_of_nonneg (n : Int) (h0 : 0 ≤ n) (h1 : n < 2 ^ 63) :
    (DbMemory.mk n).Get =
      (if (2 ^ 30 : Int) ∣ n then Nat.repr (n.toNat / 2 ^ 30) ++ "GB"
       else if (2 ^ 20 : Int) ∣ n then Nat.repr (n.toNat / 2 ^ 20) ++ "MB"
       else if (2 ^ 10 : Int) ∣ n then Nat.repr (n.toNat / 2 ^ 10) ++ "KB"
       else Nat.repr n.toNat) := by
  have hg : modInt n GB = n % 1073741824 := modInt_of_nonneg n GB h0 (by decide)
  have hm : modInt n MB = n % 1048576 := modInt_of_nonneg n MB h0 (by decide)
  have hk : modInt n KB = n % 1024 := modInt_of_nonneg n KB h0 (by decide)
  have dg : divInt n GB = n / 1073741824 := divInt_of_nonneg n GB h0 (by omega) (by decide)
  have dm : divInt n MB = n / 1048576 := divInt_of_nonneg n MB h0 (by omega) (by decide)
  have dk : divInt n KB = n / 1024 := divInt_of_nonneg n KB h0 (by omega) (by decide)
  have tg : (n / 1073741824).toNat = n.toNat / 2 ^ 30 := by omega
  have tm : (n / 1048576).toNat = n.toNat / 2 ^ 20 := by omega
  have tk : (n / 1024).toNat = n.toNat / 2 ^ 10 := by omega
  simp only [DbMemory.Get, DbMemory.InBytes, hg, hm, hk, dg, dm, dk]
  rw [Itoa_of_nonneg _ (by omega), Itoa_of_nonneg _ (by omega), Itoa_of_nonneg _ (by omega),
    Itoa_of_nonneg _ h0, tg, tm, tk]
  by_cases c1 : (2 ^ 30 : Int) ∣ n
  · rw [if_pos c1, if_pos (by omega)]
  · rw [if_neg c1, if_neg (by omega)]
    by_cases c2 : (2 ^ 20 : Int) ∣ n
    · rw [if_pos c2, if_pos (by omega)]
    · rw [if_neg c2, if_neg (by omega)]
      by_cases c3 : (2 ^ 10 : Int) ∣ n
      · rw [if_pos c3, if_pos (by omega)]
      · rw [if_neg c3, if_neg (by omega)]

/-- C3: for a byte count `0 ≤ n < 2 ^ 63`, `Get` renders `n / 2^30` with suffix
`GB` when `2^30` divides `n`, else `n / 2^20` with `MB` when `2^20` divides `n`,
else `n / 2^10` with `KB` when `2^10` divides `n`, else the plain decimal of
`n`; in particular `0` is rendered `0GB`. -/
theorem Get_largest_unit (n : Int) (h0 : 0 ≤ n) (h1 : n < 2 ^ 63) :
    (DbMemory.mk n).Get =
      (if (2 ^ 30 : Int) ∣ n then Nat.repr (n.toNat / 2 ^ 30) ++ "GB"
       else if (2 ^ 20 : Int) ∣ n then Nat.repr (n.toNat / 2 ^ 20) ++ "MB"
       else if (2 ^ 10 : Int) ∣ n then Nat.repr (n.toNat / 2 ^ 10) ++ "KB"
       else Nat.repr n.toNat) ∧
    (DbMemory.mk 0).Get = "0GB" :=
  ⟨Get_of_nonneg n h0 h1, by decide⟩

/-- Instance of `Get_largest_unit`: 1536 MiB is rendered `1536MB`. -/
theorem Get_largest_unit_witness :
    (DbMemory.mk 1610612736).Get =
      (if (2 ^ 30 : Int) ∣ 1610612736 then Nat.repr ((1610612736 : Int).toNat / 2 ^ 30) ++ "GB"
       else if (2 ^ 20 : Int) ∣ 1610612736 then
         Nat.repr ((1610612736 : Int).toNat / 2 ^ 20) ++ "MB"
       else if (2 ^ 10 : Int) ∣ 1610612736 then
         Nat.repr ((1610612736 : Int).toNat / 2 ^ 10) ++ "KB"
       else Nat.repr (1610612736 : Int).toNat) ∧
    (DbMemory.mk 0).Get = "0GB" :=
  Get_largest_unit 1610612736 (by decide) (by decide)

/-! ## Decimal rendering -/

theorem digitChar_toNat : ∀ d : Nat, d < 10 → (Nat.digitChar d).toNat = 48 + d := by
  decide

theorem toDigitsCore_append (fuel : Nat) : ∀ (n : Nat) (ds : List Char),
    Nat.toDigitsCore 10 fuel n ds = Nat.toDigitsCore 10 fuel n [] ++ ds := by
  induction fuel with
  | zero => intro n ds; simp [Nat.toDigitsCore]
  | succ f ih =>
    intro n ds
    simp only [Nat.toDigitsCore]
    split_ifs with h
    · simp
    · rw [ih (n / 10) (Nat.digitChar (n % 10) :: ds), ih (n / 10) [Nat.digitChar (n % 10)]]
      simp

theorem toDigitsCore_spec (fuel : Nat) : ∀ n : Nat, n < fuel →
    decimalValue (Nat.toDigitsCore 10 fuel n []) = n ∧
    Nat.toDigitsCore 10 fuel n [] ≠ [] ∧
    ∀ c ∈ Nat.toDigitsCore 10 fuel n [], isDigit c = true := by
  induction fuel with
  | zero => intro n h; omega
  | succ f ih =>
    intro n hn
    have hd := digitChar_toNat (n % 10) (Nat.mod_lt _ (by decide))
    have hdig : isDigit (Nat.digitChar (n % 10)) = true := by
      rw [isDigit_iff]; omega
    simp only [Nat.toDigitsCore]
    split_ifs with h
    · refine ⟨?_, by simp, ?_⟩
      · simp only [decimalValue, List.foldl]
        omega
      · intro c hc
        simp only [List.mem_singleton] at hc
        rw [hc]; exact hdig
    · rw [toDigitsCore_append]
      have hlt : n / 10 < f := by omega
      obtain ⟨h1, h2, h3⟩ := ih (n / 10) hlt
      refine ⟨?_, by simp [h2], ?_⟩
      · rw [decimalValue_append_single, h1]
        omega
      · intro c hc
        rcases List.mem_append.1 hc with hc | hc
        · exact h3 c hc
        · simp only [List.mem_singleton] at hc
          rw [hc]; exact hdig

theorem repr_spec (n : Nat) :
    decimalValue (Nat.repr n).data = n ∧ (Nat.repr n).data ≠ [] ∧
    ∀ c ∈ (Nat.repr n).data, isDigit c = true :=
  toDigitsCore_spec (n + 1) n (Nat.lt_succ_self n)

theorem unicodeToLower_digit (tbl : Char → Char) (c : Char) (h : isDigit c = true) :
    unicodeToLower tbl c = c := by
  rw [isDigit_iff] at h
  unfold unicodeToLower
  rw [if_pos (by omega), if_neg (by omega)]

theorem map_unicodeToLower_digits (tbl : Char → Char) (ds : List Char)
    (h : ∀ c ∈ ds, isDigit c = true) : ds.map (unicodeToLower tbl) = ds := by
  induction ds with
  | nil => rfl
  | cons c cs ih =>
    rw [List.map_cons, unicodeToLower_digit tbl c (h c (List.mem_cons_self _ _)),
      ih (fun d hd => h d (List.mem_cons_of_mem _ hd))]

theorem ToLower_repr_append (tbl : Char → Char) (q : Nat) (u : String) :
    ToLower tbl (Nat.repr q ++ u) = Nat.repr q ++ ToLower tbl u := by
  apply String.ext
  simp only [ToLower, String.data_append, List.map_append]
  rw [map_unicodeToLower_digits tbl _ (repr_spec q).2.2]

/-- Parsing the rendering of `q` followed by a unit spelled in upper case. -/
theorem NewDBMemory_repr (tbl : Char → Char) (q : Nat) (U u : String) (mult : Nat)
    (hU : ToLower tbl U = u) (hu : unitMultiplier u = some mult) (hr : q * mult < 2 ^ 63) :
    NewDBMemory tbl (Nat.repr q ++ U) = .ok ⟨((q * mult : Nat) : Int)⟩ := by
  obtain ⟨h1, h2, h3⟩ := repr_spec q
  have hm : MatchesGrammar (ToLower tbl (Nat.repr q ++ U)) (Nat.repr q) u := by
    refine ⟨?_, ?_, h3, ?_⟩
    · rw [ToLower_repr_append, hU]
    · intro h0
      apply h2
      rw [h0]
    · rw [hu]; rfl
  have := NewDBMemory_of_grammar tbl (Nat.repr q ++ U) (Nat.repr q) u mult hm hu (by rw [h1]; exact hr)
  rw [h1] at this
  exact this

/-! ## Round trip -/

theorem NewDBMemory_Get (tbl : Char → Char) (n : Int) (h0 : 0 ≤ n) (h1 : n < 2 ^ 63)
    (hk : (1024 : Int) ∣ n) : NewDBMemory tbl (DbMemory.mk n).Get = .ok ⟨n⟩ := by
  rw [Get_of_nonneg n h0 h1]
  by_cases c1 : (2 ^ 30 : Int) ∣ n
  · rw [if_pos c1]
    have h := NewDBMemory_repr tbl (n.toNat / 2 ^ 30) "GB" "gb" (1024 ^ 3) rfl (by decide)
      (by omega)
    rw [h]
    congr 2
    omega
  · rw [if_neg c1]
    by_cases c2 : (2 ^ 20 : Int) ∣ n
    · rw [if_pos c2]
      have h := NewDBMemory_repr tbl (n.toNat / 2 ^ 20) "MB" "mb" (1024 ^ 2) rfl (by decide)
        (by omega)
      rw [h]
      congr 2
      omega
    · rw [if_neg c2, if_pos (by omega)]
      have h := NewDBMemory_repr tbl (n.toNat / 2 ^ 10) "KB" "kb" 1024 rfl (by decide)
        (by omega)
      rw [h]
      congr 2
      omega

/-- C4: for a byte count `0 ≤ n < 2 ^ 63` that is a multiple of 1 KiB,
`NewDBMemory (Get n)` succeeds with exactly `n` bytes, and formatting whatever
it returns gives `Get n` again. -/
theorem NewDBMemory_Get_roundtrip (tbl : Char → Char) (n : Int) (h0 : 0 ≤ n) (h1 : n < 2 ^ 63)
    (hk : (1024 : Int) ∣ n) :
    NewDBMemory tbl (DbMemory.mk n).Get = .ok ⟨n⟩ ∧
    ∃ m, NewDBMemory tbl (DbMemory.mk n).Get = .ok m ∧ m.Get = (DbMemory.mk n).Get :=
  ⟨NewDBMemory_Get tbl n h0 h1 hk, ⟨n⟩, NewDBMemory_Get tbl n h0 h1 hk, rfl⟩

/-- Instance of `NewDBMemory_Get_roundtrip` at 1536 MiB. -/
theorem NewDBMemory_Get_roundtrip_witness :
    NewDBMemory id (DbMemory.mk 1610612736).Get = .ok ⟨1610612736⟩ ∧
    ∃ m, NewDBMemory id (DbMemory.mk 1610612736).Get = .ok m ∧
      m.Get = (DbMemory.mk 1610612736).Get :=
  NewDBMemory_Get_roundtrip id 1610612736 (by decide) (by decide) (by decide)

/-! ## `strconv.Atoi` -/

theorem length_le_utf8ByteSize (cs : List Char) : cs.length ≤ String.utf8ByteSize.go cs := by
  induction cs with
  | nil => exact Nat.le_refl 0
  | cons c cs ih =>
    have hc := Char.utf8Size_pos c
    simp only [String.utf8ByteSize.go, List.length_cons]
    omega

theorem decimalFrom_lt (ds : List Char) (hd : ∀ c ∈ ds, isDigit c = true) :
    ∀ n, decimalFrom ds n < (n + 1) * 10 ^ ds.length := by
  induction ds with
  | nil => intro n; simp [decimalFrom]
  | cons c cs ih =>
    intro n
    have hc := (isDigit_iff c).1 (hd c (List.mem_cons_self _ _))
    have h := ih (fun d hdm => hd d (List.mem_cons_of_mem _ hdm)) (10 * n + (c.toNat - 48))
    rw [decimalFrom_cons, List.length_cons, pow_succ]
    have h2 : (10 * n + (c.toNat - 48) + 1) * 10 ^ cs.length ≤ (10 * n + 10) * 10 ^ cs.length :=
      Nat.mul_le_mul_right _ (by omega)
    have h3 : (10 * n + 10) * 10 ^ cs.length = (n + 1) * (10 ^ cs.length * 10) := by ring
    omega

theorem decimalValue_lt_of_length (ds : List Char) (hd : ∀ c ∈ ds, isDigit c = true)
    (hl : ds.length ≤ 18) : decimalValue ds < 1000000000000000000 := by
  have h := decimalFrom_lt ds hd 0
  have h2 : 10 ^ ds.length ≤ 10 ^ 18 := Nat.pow_le_pow_right (by decide) hl
  rw [decimalValue_eq]
  omega

theorem atoiFastLoop_nondigit (ds : List Char) (h : ¬ ∀ c ∈ ds, isDigit c = true) :
    ∀ n, atoiFastLoop ds n = none := by
  induction ds with
  | nil => exact absurd (fun c hc => absurd hc (List.not_mem_nil c)) h
  | cons c cs ih =>
    intro n
    by_cases hc : isDigit c = true
    · have hcs : ¬ ∀ d ∈ cs, isDigit d = true := by
        intro hall
        apply h
        intro d hd
        rcases List.mem_cons.1 hd with hd | hd
        · rw [hd]; exact hc
        · exact hall d hd
      simp only [atoiFastLoop, hc, Bool.not_true, Bool.false_eq_true, if_false]
      exact ih hcs _
    · simp [atoiFastLoop, hc]

theorem parseUintLoop_overflow (ds : List Char) (hd : ∀ c ∈ ds, isDigit c = true) :
    ∀ n : Nat, n ≤ 18446744073709551615 → 18446744073709551615 < decimalFrom ds n →
      parseUintLoop ds n = .error .ErrRange := by
  induction ds with
  | nil =>
    intro n hn h
    simp only [decimalFrom, List.foldl] at h
    omega
  | cons c cs ih =>
    intro n _ hlt
    have hcs : ∀ d ∈ cs, isDigit d = true := fun d hdm => hd d (List.mem_cons_of_mem _ hdm)
    rw [decimalFrom_cons] at hlt
    simp only [parseUintLoop, hd c (List.mem_cons_self _ _), Bool.not_true, Bool.false_eq_true,
      if_false]
    split_ifs with h1 h2
    · rfl
    · rfl
    · have h3 : n * 10 + (c.toNat - 48) = 10 * n + (c.toNat - 48) := by omega
      rw [h3]
      exact ih hcs _ (by omega) hlt

theorem parseUintLoop_nondigit (ds : List Char) (h : ¬ ∀ c ∈ ds, isDigit c = true) :
    ∀ n, ∃ e, parseUintLoop ds n = .error e := by
  induction ds with
  | nil => exact absurd (fun c hc => absurd hc (List.not_mem_nil c)) h
  | cons c cs ih =>
    intro n
    by_cases hc : isDigit c = true
    · have hcs : ¬ ∀ d ∈ cs, isDigit d = true := by
        intro hall
        apply h
        intro d hd
        rcases List.mem_cons.1 hd with hd | hd
        · rw [hd]; exact hc
        · exact hall d hd
      simp only [parseUintLoop, hc, Bool.not_true, Bool.false_eq_true, if_false]
      split_ifs
      · exact ⟨_, rfl⟩
      · exact ⟨_, rfl⟩
      · exact ih hcs _
    · exact ⟨.ErrSyntax, by simp [parseUintLoop, hc]⟩

theorem ParseUint_digits (body : List Char) (hne : body ≠ [])
    (hd : ∀ c ∈ body, isDigit c = true) :
    ParseUint body =
      if decimalValue body ≤ 18446744073709551615 then (decimalValue body, none)
      else (18446744073709551615, some .ErrRange) := by
  obtain ⟨c, cs, rfl⟩ := List.exists_cons_of_ne_nil hne
  unfold ParseUint
  split_ifs with h
  · have := parseUintLoop_digits (c :: cs) hd 0 (by rw [← decimalValue_eq]; exact h)
    rw [← decimalValue_eq] at this
    simp only [this]
  · have := parseUintLoop_overflow (c :: cs) hd 0 (by decide) (by rw [← decimalValue_eq]; omega)
    simp only [this]

theorem ParseUint_bad (body : List Char) (h : ¬ (body ≠ [] ∧ ∀ c ∈ body, isDigit c = true)) :
    ParseUint body = (0, some .ErrSyntax) ∨
    ParseUint body = (18446744073709551615, some .ErrRange) := by
  cases body with
  | nil => exact Or.inl rfl
  | cons c cs =>
    have hnd : ¬ ∀ d ∈ c :: cs, isDigit d = true := fun hall => h ⟨List.cons_ne_nil _ _, hall⟩
    obtain ⟨e, he⟩ := parseUintLoop_nondigit (c :: cs) hnd 0
    unfold ParseUint
    simp only [he]
    cases e
    · exact Or.inl rfl
    · exact Or.inr rfl

theorem ParseInt_cons (c : Char) (cs : List Char) :
    ParseInt (c :: cs) =
      match ParseUint (if c = '+' ∨ c = '-' then cs else c :: cs) with
      | (_, some .ErrSyntax) => (0, some .ErrSyntax)
      | (un, _) =>
        if !(decide (c = '-')) && decide (9223372036854775808 ≤ un) then
          (9223372036854775807, some .ErrRange)
        else if decide (c = '-') && decide (9223372036854775808 < un) then
          (-9223372036854775808, some .ErrRange)
        else (if decide (c = '-') = true then -(un : Int) else (un : Int), none) := rfl

theorem ParseInt_bad (c : Char) (cs : List Char)
    (h : ¬ ((if c = '+' ∨ c = '-' then cs else c :: cs) ≠ [] ∧
      ∀ d ∈ (if c = '+' ∨ c = '-' then cs else c :: cs), isDigit d = true)) :
    ∃ e, (ParseInt (c :: cs)).2 = some e := by
  rw [ParseInt_cons]
  rcases ParseUint_bad _ h with he | he <;> rw [he]
  · exact ⟨_, rfl⟩
  · by_cases hc : c = '-'
    · exact ⟨.ErrRange, by simp [hc]⟩
    · exact ⟨.ErrRange, by simp [hc]⟩

theorem ParseInt_good (c : Char) (cs : List Char)
    (hne : (if c = '+' ∨ c = '-' then cs else c :: cs) ≠ [])
    (hd : ∀ d ∈ (if c = '+' ∨ c = '-' then cs else c :: cs), isDigit d = true) :
    ParseInt (c :: cs) =
      if c = '-' then
        if decimalValue (if c = '+' ∨ c = '-' then cs else c :: cs) ≤ 9223372036854775808 then
          (-(decimalValue (if c = '+' ∨ c = '-' then cs else c :: cs) : Int), none)
        else (-9223372036854775808, some .ErrRange)
      else
        if decimalValue (if c = '+' ∨ c = '-' then cs else c :: cs) < 9223372036854775808 then
          ((decimalValue (if c = '+' ∨ c = '-' then cs else c :: cs) : Int), none)
        else (9223372036854775807, some .ErrRange) := by
  rw [ParseInt_cons, ParseUint_digits _ hne hd]
  generalize decimalValue (if c = '+' ∨ c = '-' then cs else c :: cs) = v
  by_cases hc : c = '-'
  · by_cases h1 : v ≤ 18446744073709551615
    · by_cases h2 : v ≤ 9223372036854775808
      · have h3 : ¬ (9223372036854775808 < v) := by omega
        simp [hc, h1, h2, h3]
      · have h3 : 9223372036854775808 < v := by omega
        simp [hc, h1, h2, h3]
    · have h2 : ¬ (v ≤ 9223372036854775808) := by omega
      simp [hc, h1, h2]
  · by_cases h1 : v ≤ 18446744073709551615
    · by_cases h2 : v < 9223372036854775808
      · have h3 : ¬ (9223372036854775808 ≤ v) := by omega
        simp [hc, h1, h2, h3]
      · have h3 : 9223372036854775808 ≤ v := by omega
        simp [hc, h1, h2, h3]
    · have h2 : ¬ (v < 9223372036854775808) := by omega
      simp [hc, h1, h2]

theorem signBody_comm (c : Char) (cs : List Char) :
    (if c = '+' ∨ c = '-' then cs else c :: cs) = (if c = '-' ∨ c = '+' then cs else c :: cs) := by
  by_cases h1 : c = '-' <;> by_cases h2 : c = '+' <;> simp [h1, h2]

theorem Atoi_bad (s : String) (h : decimalInt s = none) : ∃ e, (Atoi s).2 = some e := by
  obtain ⟨data⟩ := s
  cases data with
  | nil => exact ⟨.ErrSyntax, by decide⟩
  | cons c cs =>
    simp only [decimalInt] at h
    have hslow := ParseInt_bad c cs
    rw [signBody_comm] at hslow
    unfold Atoi
    simp only []
    generalize (if c = '-' ∨ c = '+' then cs else c :: cs) = body at h hslow ⊢
    have hb : ¬ (body ≠ [] ∧ ∀ d ∈ body, isDigit d = true) := by
      intro hb
      rw [if_pos hb] at h
      exact Option.noConfusion h
    split
    · by_cases hl : body.length < 1
      · rw [if_pos hl]
        exact ⟨_, rfl⟩
      · have hnd : ¬ ∀ d ∈ body, isDigit d = true := by
          intro hall
          apply hb
          refine ⟨?_, hall⟩
          intro h0
          rw [h0] at hl
          exact hl (by decide)
        rw [if_neg hl, atoiFastLoop_nondigit _ hnd 0]
        exact ⟨_, rfl⟩
    · exact hslow hb

theorem Atoi_good (s : String) (v : Int) (h : decimalInt s = some v) :
    Atoi s =
      if -9223372036854775808 ≤ v ∧ v < 9223372036854775808 then (v, none)
      else (if v < 0 then -9223372036854775808 else 9223372036854775807, some .ErrRange) := by
  obtain ⟨data⟩ := s
  cases data with
  | nil => simp [decimalInt] at h
  | cons c cs =>
    simp only [decimalInt] at h
    have hslow := ParseInt_good c cs
    rw [signBody_comm] at hslow
    have hlen0 : (if c = '-' ∨ c = '+' then cs else c :: cs).length ≤ (c :: cs).length := by
      split_ifs <;> simp
    unfold Atoi
    simp only []
    generalize (if c = '-' ∨ c = '+' then cs else c :: cs) = body at h hslow hlen0 ⊢
    by_cases hb : body ≠ [] ∧ ∀ d ∈ body, isDigit d = true
    · rw [if_pos hb] at h
      obtain ⟨hne, hd⟩ := hb
      simp only [Option.some.injEq] at h
      split
      next hfast =>
        have hlen : body.length ≤ 18 := by
          have h1 := length_le_utf8ByteSize (c :: cs)
          have h2 : String.utf8ByteSize ⟨c :: cs⟩ = String.utf8ByteSize.go (c :: cs) := rfl
          omega
        have hv := decimalValue_lt_of_length _ hd hlen
        have hl : ¬ body.length < 1 := by
          intro hl
          apply hne
          exact List.length_eq_zero.1 (by omega)
        have hloop := atoiFastLoop_digits _ hd 0
        rw [← decimalValue_eq] at hloop
        rw [show ((0 : Nat) : Int) = 0 from rfl] at hloop
        simp only [hl, if_false, hloop]
        by_cases hc : c = '-'
        · rw [if_pos hc] at h ⊢
          subst h
          rw [if_pos (by omega)]
        · rw [if_neg hc] at h ⊢
          subst h
          rw [if_pos (by omega)]
      next hslowpath =>
        rw [hslow hne hd]
        generalize decimalValue body = V at h ⊢
        by_cases hc : c = '-'
        · rw [if_pos hc] at h ⊢
          subst h
          by_cases hr : V ≤ 9223372036854775808
          · rw [if_pos hr, if_pos (by omega)]
          · rw [if_neg hr, if_neg (by omega), if_pos (by omega)]
        · rw [if_neg hc] at h ⊢
          subst h
          by_cases hr : V < 9223372036854775808
          · rw [if_pos hr, if_pos (by omega)]
          · rw [if_neg hr, if_neg (by omega), if_neg (by omega)]
    · rw [if_neg hb] at h
      exact Option.noConfusion h

theorem Atoi_ok_iff (s : String) : (Atoi s).2 = none ↔ IsInt64Literal s := by
  constructor
  · intro h
    cases hd : decimalInt s with
    | none =>
      obtain ⟨e, he⟩ := Atoi_bad s hd
      rw [he] at h
      exact Option.noConfusion h
    | some v =>
      have hg := Atoi_good s v hd
      by_cases hr : -9223372036854775808 ≤ v ∧ v < 9223372036854775808
      · exact ⟨v, hd, by omega, by omega⟩
      · rw [if_neg hr] at hg
        rw [hg] at h
        exact Option.noConfusion h
  · rintro ⟨v, hd, h1, h2⟩
    rw [Atoi_good s v hd, if_pos (by omega)]

theorem Atoi_ok_range (s : String) (h : (Atoi s).2 = none) :
    -9223372036854775808 ≤ (Atoi s).1 ∧ (Atoi s).1 < 9223372036854775808 ∧
    decimalInt s = some (Atoi s).1 := by
  obtain ⟨v, hd, h1, h2⟩ := (Atoi_ok_iff s).1 h
  have hg := Atoi_good s v hd
  rw [if_pos (by omega)] at hg
  rw [hg]
  exact ⟨by omega, by omega, hd⟩

theorem Atoi_digits_range (ds : List Char) (hne : ds ≠ []) (hd : ∀ c ∈ ds, isDigit c = true) :
    0 ≤ (Atoi (String.mk ds)).1 ∧ (Atoi (String.mk ds)).1 < 9223372036854775808 := by
  obtain ⟨c, cs, rfl⟩ := List.exists_cons_of_ne_nil hne
  have hc := (isDigit_iff c).1 (hd c (List.mem_cons_self _ _))
  have hminus : c ≠ '-' := by
    intro h; rw [h] at hc; revert hc; decide
  have hplus : c ≠ '+' := by
    intro h; rw [h] at hc; revert hc; decide
  have hdi : decimalInt (String.mk (c :: cs)) = some ((decimalValue (c :: cs) : Nat) : Int) := by
    simp only [decimalInt, hminus, hplus, or_self, if_false]
    rw [if_pos ⟨List.cons_ne_nil _ _, hd⟩]
  rw [Atoi_good _ _ hdi]
  split_ifs <;> simp only <;> omega

/-! ## Maps -/

theorem lookup_cons_eq {α : Type} (k a : String) (b : α) (es : List (String × α))
    (h : k = a) : ((a, b) :: es).lookup k = some b := by
  subst h
  simp [List.lookup]

theorem lookup_cons_ne {α : Type} (k a : String) (b : α) (es : List (String × α))
    (h : k ≠ a) : ((a, b) :: es).lookup k = es.lookup k := by
  have hb : (k == a) = false := by simpa using h
  simp [List.lookup, hb]

theorem lookup_map_replace {α : Type} (m : List (String × α)) (k k2 : String) (v : α)
    (h : k2 ≠ k) :
    (m.map (fun kv => if kv.1 == k then (k, v) else kv)).lookup k2 = m.lookup k2 := by
  induction m with
  | nil => rfl
  | cons kv rest ih =>
    obtain ⟨a, b⟩ := kv
    rw [List.map_cons]
    by_cases hak : a = k
    · have h1 : ((a, b).1 == k) = true := by simpa using hak
      rw [if_pos h1, lookup_cons_ne _ _ _ _ h, ih]
      rw [lookup_cons_ne _ _ _ _ (by rw [hak]; exact h)]
    · have h1 : ¬ ((a, b).1 == k) = true := by simpa using hak
      rw [if_neg h1]
      by_cases ha2 : k2 = a
      · rw [lookup_cons_eq _ _ _ _ ha2, lookup_cons_eq _ _ _ _ ha2]
      · rw [lookup_cons_ne _ _ _ _ ha2, lookup_cons_ne _ _ _ _ ha2, ih]

theorem lookup_append_single_ne {α : Type} (m : List (String × α)) (k k2 : String) (v : α)
    (h : k2 ≠ k) : (m ++ [(k, v)]).lookup k2 = m.lookup k2 := by
  induction m with
  | nil =>
    rw [List.nil_append, lookup_cons_ne _ _ _ _ h]
  | cons kv rest ih =>
    obtain ⟨a, b⟩ := kv
    rw [List.cons_append]
    by_cases ha2 : k2 = a
    · rw [lookup_cons_eq _ _ _ _ ha2, lookup_cons_eq _ _ _ _ ha2]
    · rw [lookup_cons_ne _ _ _ _ ha2, lookup_cons_ne _ _ _ _ ha2, ih]

theorem mapGet_mapSet_ne {α : Type} (z : α) (m : List (String × α)) (k k2 : String) (v : α)
    (h : k2 ≠ k) : mapGet z (mapSet m k v) k2 = mapGet z m k2 := by
  unfold mapGet mapSet
  split_ifs
  · rw [lookup_map_replace m k k2 v h]
  · rw [lookup_append_single_ne m k k2 v h]

theorem lookup_map_replace_self {α : Type} (m : List (String × α)) (k : String) (v : α)
    (h : m.any (fun kv => kv.1 == k) = true) :
    (m.map (fun kv => if kv.1 == k then (k, v) else kv)).lookup k = some v := by
  induction m with
  | nil => simp at h
  | cons kv rest ih =>
    obtain ⟨a, b⟩ := kv
    rw [List.map_cons]
    by_cases hak : a = k
    · have h1 : ((a, b).1 == k) = true := by simpa using hak
      rw [if_pos h1, lookup_cons_eq _ _ _ _ rfl]
    · have h1 : ¬ ((a, b).1 == k) = true := by simpa using hak
      have hk : k ≠ a := fun h0 => hak h0.symm
      have h2 : rest.any (fun kv => kv.1 == k) = true := by
        simpa [List.any_cons, hak] using h
      rw [if_neg h1, lookup_cons_ne _ _ _ _ hk, ih h2]

theorem lookup_append_single_self {α : Type} (m : List (String × α)) (k : String) (v : α)
    (h : ¬ m.any (fun kv => kv.1 == k) = true) : (m ++ [(k, v)]).lookup k = some v := by
  induction m with
  | nil => rw [List.nil_append, lookup_cons_eq _ _ _ _ rfl]
  | cons kv rest ih =>
    obtain ⟨a, b⟩ := kv
    have hak : ¬ a = k := by
      intro h0
      apply h
      simp [List.any_cons, h0]
    have hk : k ≠ a := fun h0 => hak h0.symm
    have h2 : ¬ rest.any (fun kv => kv.1 == k) = true := by
      intro h0
      apply h
      simp only [List.any_cons, h0, Bool.or_true]
    rw [List.cons_append, lookup_cons_ne _ _ _ _ hk, ih h2]

theorem mapGet_mapSet_self {α : Type} (z : α) (m : List (String × α)) (k : String) (v : α) :
    mapGet z (mapSet m k v) k = v := by
  unfold mapGet mapSet
  split_ifs with h
  · rw [lookup_map_replace_self m k v h]; rfl
  · rw [lookup_append_single_self m k v h]; rfl

/-! ## The blocks of `recalculate` -/

theorem walSizeBlock_fields (ps : PGSettings) :
    (walSizeBlock ps).dbType = ps.dbType ∧ (walSizeBlock ps).dbVersion = ps.dbVersion ∧
    (walSizeBlock ps).dbPlatform = ps.dbPlatform ∧
    (walSizeBlock ps).dbConnections = ps.dbConnections ∧
    (walSizeBlock ps).dbStorage = ps.dbStorage ∧ (walSizeBlock ps).dbCPU = ps.dbCPU ∧
    (walSizeBlock ps).totalMemory = ps.totalMemory := by
  unfold walSizeBlock
  split_ifs <;> exact ⟨rfl, rfl, rfl, rfl, rfl, rfl, rfl⟩

theorem walSizeBlock_mem (ps : PGSettings) (k : String) (h1 : k ≠ "min_wal_size")
    (h2 : k ≠ "max_wal_size") :
    mapGet [] (walSizeBlock ps).memSettings k = mapGet [] ps.memSettings k := by
  unfold walSizeBlock
  split_ifs
  · rfl
  · simp only []
    rw [mapGet_mapSet_ne _ _ _ _ _ h2, mapGet_mapSet_ne _ _ _ _ _ h1]

theorem walSizeBlock_str (ps : PGSettings) (k : String) (h1 : k ≠ "checkpoint_segments") :
    mapGet [] (walSizeBlock ps).strSettings k = mapGet [] ps.strSettings k := by
  unfold walSizeBlock
  split_ifs
  · simp only []
    rw [mapGet_mapSet_ne _ _ _ _ _ h1]
  · rfl

theorem ioConcurrencyBlock_fields (ps : PGSettings) :
    (ioConcurrencyBlock ps).dbType = ps.dbType ∧
    (ioConcurrencyBlock ps).dbVersion = ps.dbVersion ∧
    (ioConcurrencyBlock ps).dbPlatform = ps.dbPlatform ∧
    (ioConcurrencyBlock ps).dbConnections = ps.dbConnections ∧
    (ioConcurrencyBlock ps).dbStorage = ps.dbStorage ∧
    (ioConcurrencyBlock ps).dbCPU = ps.dbCPU ∧
    (ioConcurrencyBlock ps).totalMemory = ps.totalMemory ∧
    (ioConcurrencyBlock ps).memSettings = ps.memSettings := by
  unfold ioConcurrencyBlock
  split_ifs <;> exact ⟨rfl, rfl, rfl, rfl, rfl, rfl, rfl, rfl⟩

theorem ioConcurrencyBlock_str (ps : PGSettings) (k : String)
    (h1 : k ≠ "effective_io_concurrency") :
    mapGet [] (ioConcurrencyBlock ps).strSettings k = mapGet [] ps.strSettings k := by
  unfold ioConcurrencyBlock
  split_ifs
  · simp only []
    rw [mapGet_mapSet_ne _ _ _ _ _ h1]
  · rfl

theorem parallelBlock_fields (ps : PGSettings) :
    (parallelBlock ps).dbType = ps.dbType ∧
    (parallelBlock ps).dbVersion = ps.dbVersion ∧
    (parallelBlock ps).dbPlatform = ps.dbPlatform ∧
    (parallelBlock ps).dbConnections = ps.dbConnections ∧
    (parallelBlock ps).dbStorage = ps.dbStorage ∧
    (parallelBlock ps).dbCPU = ps.dbCPU ∧
    (parallelBlock ps).totalMemory = ps.totalMemory ∧
    (parallelBlock ps).memSettings = ps.memSettings := by
  unfold parallelBlock
  split_ifs <;> exact ⟨rfl, rfl, rfl, rfl, rfl, rfl, rfl, rfl⟩

theorem workMemBlock_fields (ps qs : PGSettings) (h : workMemBlock ps = some qs) :
    qs.dbType = ps.dbType ∧ qs.dbVersion = ps.dbVersion ∧ qs.dbPlatform = ps.dbPlatform ∧
    qs.dbConnections = ps.dbConnections ∧ qs.dbStorage = ps.dbStorage ∧ qs.dbCPU = ps.dbCPU ∧
    qs.totalMemory = ps.totalMemory ∧ qs.strSettings = ps.strSettings ∧
    ∀ k, k ≠ "work_mem" → mapGet [] qs.memSettings k = mapGet [] ps.memSettings k := by
  unfold workMemBlock at h
  split_ifs at h
  · cases hl : workMemLoop ps DbTypes (parallelForWorkMemDefault ps) [] with
    | none => rw [hl] at h; exact Option.noConfusion h
    | some wm =>
      rw [hl] at h
      simp only [Option.some.injEq] at h
      subst h
      refine ⟨rfl, rfl, rfl, rfl, rfl, rfl, rfl, rfl, ?_⟩
      intro k hk
      exact mapGet_mapSet_ne _ _ _ _ _ hk
  · simp only [Option.some.injEq] at h
    subst h
    exact ⟨rfl, rfl, rfl, rfl, rfl, rfl, rfl, rfl, fun _ _ => rfl⟩

theorem recalculate_fields (ps qs : PGSettings) (h : recalculate ps = some qs) :
    qs.dbType = ps.dbType ∧ qs.dbVersion = ps.dbVersion ∧ qs.dbPlatform = ps.dbPlatform ∧
    qs.dbConnections = ps.dbConnections ∧ qs.dbStorage = ps.dbStorage ∧ qs.dbCPU = ps.dbCPU ∧
    qs.totalMemory = ps.totalMemory := by
  unfold recalculate at h
  obtain ⟨a1, a2, a3, a4, a5, a6, a7, _, _⟩ := workMemBlock_fields _ _ h
  obtain ⟨b1, b2, b3, b4, b5, b6, b7, _⟩ := parallelBlock_fields (ioConcurrencyBlock (walSizeBlock
    { ps with memSettings := memSettingsBase ps, strSettings := strSettingsBase ps }))
  obtain ⟨c1, c2, c3, c4, c5, c6, c7, _⟩ := ioConcurrencyBlock_fields (walSizeBlock
    { ps with memSettings := memSettingsBase ps, strSettings := strSettingsBase ps })
  obtain ⟨d1, d2, d3, d4, d5, d6, d7⟩ := walSizeBlock_fields
    { ps with memSettings := memSettingsBase ps, strSettings := strSettingsBase ps }
  refine ⟨?_, ?_, ?_, ?_, ?_, ?_, ?_⟩
  · rw [a1, b1, c1, d1]
  · rw [a2, b2, c2, d2]
  · rw [a3, b3, c3, d3]
  · rw [a4, b4, c4, d4]
  · rw [a5, b5, c5, d5]
  · rw [a6, b6, c6, d6]
  · rw [a7, b7, c7, d7]

theorem recalculate_mem (ps qs : PGSettings) (h : recalculate ps = some qs) (k : String)
    (h0 : k ≠ "work_mem") (h1 : k ≠ "min_wal_size") (h2 : k ≠ "max_wal_size") :
    mapGet [] qs.memSettings k = mapGet [] (memSettingsBase ps) k := by
  unfold recalculate at h
  obtain ⟨_, _, _, _, _, _, _, _, a⟩ := workMemBlock_fields _ _ h
  obtain ⟨_, _, _, _, _, _, _, b⟩ := parallelBlock_fields (ioConcurrencyBlock (walSizeBlock
    { ps with memSettings := memSettingsBase ps, strSettings := strSettingsBase ps }))
  obtain ⟨_, _, _, _, _, _, _, c⟩ := ioConcurrencyBlock_fields (walSizeBlock
    { ps with memSettings := memSettingsBase ps, strSettings := strSettingsBase ps })
  rw [a k h0, b, c, walSizeBlock_mem _ k h1 h2]

theorem recalculate_shared_buffers (ps qs : PGSettings) (h : recalculate ps = some qs) :
    mapGet [] qs.memSettings "shared_buffers" = sharedBuffers ps := by
  rw [recalculate_mem ps qs h "shared_buffers" (by decide) (by decide) (by decide)]
  rfl

theorem recalculate_maintenance_work_mem (ps qs : PGSettings) (h : recalculate ps = some qs) :
    mapGet [] qs.memSettings "maintenance_work_mem" = maintenanceWorkMem ps := by
  rw [recalculate_mem ps qs h "maintenance_work_mem" (by decide) (by decide) (by decide)]
  rfl

theorem recalculate_wal_buffers (ps qs : PGSettings) (h : recalculate ps = some qs) :
    mapGet [] qs.memSettings "wal_buffers" = walBuffers (sharedBuffers ps) := by
  rw [recalculate_mem ps qs h "wal_buffers" (by decide) (by decide) (by decide)]
  rfl

/-! ## Conversion to `float64` -/

theorem excessBits_spec (n e : Nat) (h : n < 9223372036854775808) (he : excessBits n = e) :
    (e = 0 ∧ n < 9007199254740992) ∨ (1 ≤ e ∧ e ≤ 10 ∧ 9007199254740992 ≤ n) := by
  unfold excessBits at he
  by_cases h0 : n < 9007199254740992
  · rw [if_pos h0] at he
    exact Or.inl ⟨he.symm, h0⟩
  · rw [if_neg h0] at he
    by_cases h1 : n < 18014398509481984
    · rw [if_pos h1] at he
      exact Or.inr (by omega)
    · rw [if_neg h1] at he
      by_cases h2 : n < 36028797018963968
      · rw [if_pos h2] at he
        exact Or.inr (by omega)
      · rw [if_neg h2] at he
        by_cases h3 : n < 72057594037927936
        · rw [if_pos h3] at he
          exact Or.inr (by omega)
        · rw [if_neg h3] at he
          by_cases h4 : n < 144115188075855872
          · rw [if_pos h4] at he
            exact Or.inr (by omega)
          · rw [if_neg h4] at he
            by_cases h5 : n < 288230376151711744
            · rw [if_pos h5] at he
              exact Or.inr (by omega)
            · rw [if_neg h5] at he
              by_cases h6 : n < 576460752303423488
              · rw [if_pos h6] at he
                exact Or.inr (by omega)
              · rw [if_neg h6] at he
                by_cases h7 : n < 1152921504606846976
                · rw [if_pos h7] at he
                  exact Or.inr (by omega)
                · rw [if_neg h7] at he
                  by_cases h8 : n < 2305843009213693952
                  · rw [if_pos h8] at he
                    exact Or.inr (by omega)
                  · rw [if_neg h8] at he
                    by_cases h9 : n < 4611686018427387904
                    · rw [if_pos h9] at he
                      exact Or.inr (by omega)
                    · rw [if_neg h9] at he
                      by_cases h10 : n < 9223372036854775808
                      · rw [if_pos h10] at he
                        exact Or.inr (by omega)
                      · rw [if_neg h10] at he
                        by_cases h11 : n < 18446744073709551616
                        · exact absurd h (by omega)
                        · rw [if_neg h11] at he
                          exact absurd h (by omega)

theorem roundAt (n e : Nat) (h1e : 1 ≤ e) (he : e ≤ 10) (hlo : 9007199254740992 ≤ n)
    (h63 : n < 9223372036854775808) :
    1 ≤ (if 2 * (n % 2 ^ e) < 2 ^ e then n / 2 ^ e * 2 ^ e
      else if 2 ^ e < 2 * (n % 2 ^ e) then (n / 2 ^ e + 1) * 2 ^ e
      else if n / 2 ^ e % 2 = 0 then n / 2 ^ e * 2 ^ e
      else (n / 2 ^ e + 1) * 2 ^ e) ∧
    (if 2 * (n % 2 ^ e) < 2 ^ e then n / 2 ^ e * 2 ^ e
      else if 2 ^ e < 2 * (n % 2 ^ e) then (n / 2 ^ e + 1) * 2 ^ e
      else if n / 2 ^ e % 2 = 0 then n / 2 ^ e * 2 ^ e
      else (n / 2 ^ e + 1) * 2 ^ e) ≤ 9223372036854775808 := by
  interval_cases e <;> simp only [Nat.reducePow] <;> split_ifs <;> omega

theorem float64OfNat_small (n : Nat) (h : n < 9007199254740992) : float64OfNat n = n := by
  have he : excessBits n = 0 := by
    unfold excessBits
    rw [if_pos h]
  unfold float64OfNat
  simp [he, Nat.mod_one]

theorem float64OfNat_bounds (n : Nat) (h1 : 1 ≤ n) (h2 : n < 9223372036854775808) :
    1 ≤ float64OfNat n ∧ float64OfNat n ≤ 9223372036854775808 := by
  rcases excessBits_spec n (excessBits n) h2 rfl with ⟨_, h0⟩ | ⟨ha, hb, hc⟩
  · rw [float64OfNat_small n h0]
    omega
  · exact roundAt n (excessBits n) ha hb hc h2

theorem ceilHalfFloat_bounds (n : Int) (h1 : 2 < n) (h2 : n < 9223372036854775808) :
    1 ≤ ceilHalfFloat n ∧ ceilHalfFloat n < 9223372036854775808 := by
  unfold ceilHalfFloat float64OfInt
  rw [if_neg (by omega)]
  obtain ⟨a, b⟩ := float64OfNat_bounds n.toNat (by omega) (by omega)
  omega

/-! ## The `work_mem` loop never divides by zero -/

theorem Atoi_Itoa (c : Int) (h0 : 0 ≤ c) (h1 : c < 9223372036854775808) :
    Atoi (Itoa c) = (c, none) := by
  rw [Itoa_of_nonneg c h0]
  obtain ⟨hv, hne, hd⟩ := repr_spec c.toNat
  have h := Atoi_digits (Nat.repr c.toNat).data hne hd (by rw [hv]; omega)
  rw [hv] at h
  have h2 : ((c.toNat : Nat) : Int) = c := Int.toNat_of_nonneg h0
  rw [h2] at h
  exact h

theorem fillTypes_eq (f : String → String) :
    fillTypes f =
      [("web", f "web"), ("oltp", f "oltp"), ("dw", f "dw"), ("mixed", f "mixed"),
       ("desktop", f "desktop")] := by
  rfl

theorem strGet_fillTypes (x : String) (t : String) (ht : t ∈ DbTypes) :
    strGet (fillTypes (fun _ => x)) t = x := by
  rw [fillTypes_eq]
  simp only [DbTypes, List.mem_cons, List.mem_singleton, List.not_mem_nil, or_false] at ht
  rcases ht with h | h | h | h | h <;> subst h <;> rfl

theorem parallelBlock_str (ps : PGSettings) (k : String) (h1 : k ≠ "max_worker_processes")
    (h2 : k ≠ "max_parallel_workers_per_gather") (h3 : k ≠ "max_parallel_workers")
    (h4 : k ≠ "max_parallel_maintenance_workers") :
    mapGet [] (parallelBlock ps).strSettings k = mapGet [] ps.strSettings k := by
  unfold parallelBlock
  split_ifs <;> simp only [] <;>
    simp only [mapGet_mapSet_ne _ _ _ _ _ h1, mapGet_mapSet_ne _ _ _ _ _ h2,
      mapGet_mapSet_ne _ _ _ _ _ h3, mapGet_mapSet_ne _ _ _ _ _ h4]

theorem parallelBlock_gather (ps : PGSettings) :
    mapGet [] (parallelBlock ps).strSettings "max_parallel_workers_per_gather" =
      if ps.dbVersion > 95 ∧ ps.dbCPU > 2 ∧ ps.dbVersion ≥ 96 then
        fillTypes (fun _ =>
          if ps.dbType ≠ "dw" ∧ ceilHalfFloat ps.dbCPU > 4 then Itoa 4
          else Itoa (ceilHalfFloat ps.dbCPU))
      else mapGet [] ps.strSettings "max_parallel_workers_per_gather" := by
  have n1 : "max_parallel_workers_per_gather" ≠ "max_worker_processes" := by decide
  have n3 : "max_parallel_workers_per_gather" ≠ "max_parallel_workers" := by decide
  have n4 : "max_parallel_workers_per_gather" ≠ "max_parallel_maintenance_workers" := by decide
  by_cases hc : ps.dbVersion > 95 ∧ ps.dbCPU > 2
  · by_cases h96 : ps.dbVersion ≥ 96
    · have hcc : ps.dbVersion > 95 ∧ ps.dbCPU > 2 ∧ ps.dbVersion ≥ 96 := ⟨hc.1, hc.2, h96⟩
      rw [if_pos hcc]
      unfold parallelBlock
      rw [if_pos hc]
      simp only [if_pos h96]
      split_ifs <;>
        simp only [mapGet_mapSet_ne _ _ _ _ _ n3, mapGet_mapSet_ne _ _ _ _ _ n4,
          mapGet_mapSet_self]
    · have hcc : ¬ (ps.dbVersion > 95 ∧ ps.dbCPU > 2 ∧ ps.dbVersion ≥ 96) := fun h => h96 h.2.2
      rw [if_neg hcc]
      unfold parallelBlock
      rw [if_pos hc]
      simp only [if_neg h96]
      split_ifs <;>
        simp only [mapGet_mapSet_ne _ _ _ _ _ n3, mapGet_mapSet_ne _ _ _ _ _ n4,
          mapGet_mapSet_ne _ _ _ _ _ n1]
  · have hcc : ¬ (ps.dbVersion > 95 ∧ ps.dbCPU > 2 ∧ ps.dbVersion ≥ 96) :=
      fun h => hc ⟨h.1, h.2.1⟩
    rw [if_neg hcc]
    unfold parallelBlock
    rw [if_neg hc]

theorem maxConnections_get (ps : PGSettings) (t : String) (ht : t ∈ DbTypes) :
    ∃ c : Int, 0 < c ∧ (c = ps.dbConnections ∨ c ≤ 300) ∧ strGet (maxConnections ps) t = Itoa c := by
  simp only [DbTypes, List.mem_cons, List.mem_singleton, List.not_mem_nil, or_false] at ht
  unfold maxConnections
  by_cases hc : ps.dbConnections > 0
  · simp only [if_pos hc]
    refine ⟨ps.dbConnections, hc, Or.inl rfl, ?_⟩
    rcases ht with h | h | h | h | h <;> subst h <;> rfl
  · simp only [if_neg hc]
    rcases ht with h | h | h | h | h <;> subst h
    · exact ⟨200, by decide, Or.inr (by decide), rfl⟩
    · exact ⟨300, by decide, Or.inr (by decide), rfl⟩
    · exact ⟨40, by decide, Or.inr (by decide), rfl⟩
    · exact ⟨100, by decide, Or.inr (by decide), rfl⟩
    · exact ⟨20, by decide, Or.inr (by decide), rfl⟩

theorem three_mul_ne_pow (c q : Int) (h0 : 0 < c) (h1 : c < 9223372036854775808)
    (h : 18446744073709551616 * q = c * 3) : False := by
  have hq1 : 0 < q := by
    by_contra hq
    have : q ≤ 0 := by linarith
    nlinarith
  have hq2 : q < 2 := by
    by_contra hq
    have : 2 ≤ q := by linarith
    nlinarith
  have hq : q = 1 := by linarith [Int.lt_iff_add_one_le.1 hq1]
  subst hq
  have h3 : (c * 3) % 3 = 0 := Int.mul_emod_left c 3
  rw [← h] at h3
  revert h3
  decide

theorem mulInt_three_ne_zero (c : Int) (h0 : 0 < c) (h1 : c < 9223372036854775808) :
    mulInt c 3 ≠ 0 := by
  unfold mulInt wrap64
  intro hz
  have h := Int.emod_add_ediv (c * 3 + 2 ^ 63) (2 ^ 64)
  generalize (c * 3 + 2 ^ 63) % 2 ^ 64 = r at h hz
  generalize (c * 3 + 2 ^ 63) / 2 ^ 64 = q at h
  have e1 : (2 : Int) ^ 63 = 9223372036854775808 := by norm_num
  have e2 : (2 : Int) ^ 64 = 18446744073709551616 := by norm_num
  rw [e1] at h hz
  rw [e2] at h
  exact three_mul_ne_pow c q h0 h1 (by linarith)

theorem workMemLoop_some (ps : PGSettings)
    (h1 : ∀ t ∈ DbTypes,
      mulInt (Atoi (strGet (mapGet [] ps.strSettings "max_connections") t)).1 3 ≠ 0)
    (h2 : ∀ t ∈ DbTypes,
      strGet (mapGet [] ps.strSettings "max_parallel_workers_per_gather") t ≠ "" →
      (Atoi (strGet (mapGet [] ps.strSettings "max_parallel_workers_per_gather") t)).1 ≠ 0) :
    ∀ (types : List String), (∀ t ∈ types, t ∈ DbTypes) → ∀ (par : Int) (acc : MemValue),
      par ≠ 0 → ∃ wm, workMemLoop ps types par acc = some wm := by
  intro types
  induction types with
  | nil => intro _ par acc _; exact ⟨acc, rfl⟩
  | cons t rest ih =>
    intro hts par acc hpar
    have ht : t ∈ DbTypes := hts t (List.mem_cons_self _ _)
    have hrest : ∀ u ∈ rest, u ∈ DbTypes := fun u hu => hts u (List.mem_cons_of_mem _ hu)
    have hmc := h1 t ht
    have hg := h2 t ht
    have hpar1 : (if strGet (mapGet [] ps.strSettings "max_parallel_workers_per_gather") t ≠ ""
        then (Atoi (strGet (mapGet [] ps.strSettings "max_parallel_workers_per_gather") t)).1
        else par) ≠ 0 := by
      split_ifs with hne
      · exact hg hne
      · exact hpar
    simp only [workMemLoop, divChecked, if_neg hmc, if_neg hpar1]
    exact ih hrest _ _ hpar1

theorem parallelForWorkMemDefault_ne_zero (ps : PGSettings) : parallelForWorkMemDefault ps ≠ 0 := by
  unfold parallelForWorkMemDefault
  simp only []
  split_ifs with h
  · decide
  · exact h

theorem gather_ne_zero (p1 : PGSettings) (hcpu : p1.dbCPU < 9223372036854775808)
    (hnone : mapGet [] p1.strSettings "max_parallel_workers_per_gather" = [])
    (t : String) (ht : t ∈ DbTypes)
    (hne : strGet (mapGet [] (parallelBlock p1).strSettings "max_parallel_workers_per_gather") t
      ≠ "") :
    (Atoi (strGet (mapGet [] (parallelBlock p1).strSettings
      "max_parallel_workers_per_gather") t)).1 ≠ 0 := by
  rw [parallelBlock_gather] at hne ⊢
  by_cases hg : p1.dbVersion > 95 ∧ p1.dbCPU > 2 ∧ p1.dbVersion ≥ 96
  · rw [if_pos hg, strGet_fillTypes _ t ht]
    obtain ⟨w1, w2⟩ := ceilHalfFloat_bounds p1.dbCPU hg.2.1 hcpu
    split_ifs
    · rw [Atoi_Itoa 4 (by decide) (by decide)]
      decide
    · rw [Atoi_Itoa _ (by omega) w2]
      simp only
      omega
  · rw [if_neg hg, hnone] at hne
    exact absurd rfl hne

theorem recalculate_some (ps : PGSettings)
    (hc : ps.dbConnections < 9223372036854775808) (hcpu : ps.dbCPU < 9223372036854775808) :
    ∃ qs, recalculate ps = some qs := by
  unfold recalculate
  have hio := ioConcurrencyBlock_fields (walSizeBlock
    { ps with memSettings := memSettingsBase ps, strSettings := strSettingsBase ps })
  have hwal := walSizeBlock_fields
    { ps with memSettings := memSettingsBase ps, strSettings := strSettingsBase ps }
  have hnone : mapGet [] (ioConcurrencyBlock (walSizeBlock
      { ps with memSettings := memSettingsBase ps, strSettings := strSettingsBase ps })).strSettings
      "max_parallel_workers_per_gather" = [] := by
    rw [ioConcurrencyBlock_str _ _ (by decide), walSizeBlock_str _ _ (by decide)]
    rfl
  have hmc0 : mapGet [] (ioConcurrencyBlock (walSizeBlock
      { ps with memSettings := memSettingsBase ps, strSettings := strSettingsBase ps })).strSettings
      "max_connections" = maxConnections ps := by
    rw [ioConcurrencyBlock_str _ _ (by decide), walSizeBlock_str _ _ (by decide)]
    rfl
  have hcpu1 : (ioConcurrencyBlock (walSizeBlock
      { ps with memSettings := memSettingsBase ps, strSettings := strSettingsBase ps })).dbCPU
      < 9223372036854775808 := by
    rw [hio.2.2.2.2.2.1, hwal.2.2.2.2.2.1]
    exact hcpu
  generalize ioConcurrencyBlock (walSizeBlock
    { ps with memSettings := memSettingsBase ps, strSettings := strSettingsBase ps }) = p1
    at hnone hmc0 hcpu1 ⊢
  have h1 : ∀ t ∈ DbTypes,
      mulInt (Atoi (strGet (mapGet [] (parallelBlock p1).strSettings "max_connections") t)).1 3
        ≠ 0 := by
    intro t ht
    rw [parallelBlock_str _ _ (by decide) (by decide) (by decide) (by decide), hmc0]
    obtain ⟨c, c0, c1, c2⟩ := maxConnections_get ps t ht
    have cr : c < 9223372036854775808 := by
      rcases c1 with c1 | c1
      · rw [c1]; exact hc
      · omega
    rw [c2, Atoi_Itoa c (by omega) cr]
    exact mulInt_three_ne_zero c c0 cr
  have h2 := gather_ne_zero p1 hcpu1 hnone
  unfold workMemBlock
  split_ifs
  · obtain ⟨wm, hwm⟩ := workMemLoop_some (parallelBlock p1) h1 h2 DbTypes (fun _ h => h)
      (parallelForWorkMemDefault (parallelBlock p1)) []
      (parallelForWorkMemDefault_ne_zero (parallelBlock p1))
    rw [hwm]
    exact ⟨_, rfl⟩
  · exact ⟨_, rfl⟩

/-! ## Validators -/

theorem any_beq_iff_mem (l : List String) (x : String) :
    l.any (fun t => t == x) = true ↔ x ∈ l := by
  induction l with
  | nil => simp
  | cons a rest ih =>
    simp only [List.any_cons, Bool.or_eq_true, beq_iff_eq, List.mem_cons, ih]
    constructor
    · rintro (h | h)
      · exact Or.inl h.symm
      · exact Or.inr h
    · rintro (h | h)
      · exact Or.inl h.symm
      · exact Or.inr h

theorem ParseFloat_of_mem (v : String) (h : v ∈ DbVersions) :
    ∃ ver, ParseFloat v = some ver ∧ 94 ≤ ver ∧ ver ≤ 140 := by
  simp only [DbVersions, List.mem_cons, List.mem_singleton, List.not_mem_nil, or_false] at h
  rcases h with h | h | h | h | h | h | h | h <;> subst h
  · exact ⟨94, by decide, by decide, by decide⟩
  · exact ⟨95, by decide, by decide, by decide⟩
  · exact ⟨96, by decide, by decide, by decide⟩
  · exact ⟨100, by decide, by decide, by decide⟩
  · exact ⟨110, by decide, by decide, by decide⟩
  · exact ⟨120, by decide, by decide, by decide⟩
  · exact ⟨130, by decide, by decide, by decide⟩
  · exact ⟨140, by decide, by decide, by decide⟩

theorem NewDBMemory_range (tbl : Char → Char) (s : String) (m : DbMemory)
    (h : NewDBMemory tbl s = .ok m) :
    -9223372036854775808 ≤ m.inBytes ∧ m.inBytes < 9223372036854775808 := by
  unfold NewDBMemory at h
  cases hf : FindSubmatch (ToLower tbl s) with
  | none => rw [hf] at h; exact Except.noConfusion h
  | some gu =>
    obtain ⟨g1, u⟩ := gu
    obtain ⟨_, hne, hd, _⟩ := grammar_of_FindSubmatch _ _ _ hf
    have hne2 : g1.data ≠ [] := fun h0 => hne (String.ext h0)
    have hr := Atoi_digits_range g1.data hne2 hd
    have hg : String.mk g1.data = g1 := rfl
    rw [hg] at hr
    rw [hf] at h
    simp only at h
    split_ifs at h <;> simp only [Except.ok.injEq] at h <;> subst h <;> simp only [mulInt]
    · exact ⟨wrap64_lower _, wrap64_upper _⟩
    · exact ⟨wrap64_lower _, wrap64_upper _⟩
    · exact ⟨wrap64_lower _, wrap64_upper _⟩
    · omega
    · omega

theorem setDBConnections_eq (ps : PGSettings) (e : String) :
    setDBConnections ps e =
      if e = "" then .ok ps
      else if (Atoi e).2 = none then .ok { ps with dbConnections := (Atoi e).1 }
      else .error (.atoi e ((Atoi e).2.getD .ErrSyntax)) := by
  unfold setDBConnections
  by_cases he : e = ""
  · simp [he]
  · rw [if_pos he, if_neg he]
    rcases hA : Atoi e with ⟨v, _ | err⟩
    · simp
    · simp

theorem setDBCPU_eq (ps : PGSettings) (g : String) :
    setDBCPU ps g =
      if g = "" then .ok ps
      else if (Atoi g).2 = none then .ok { ps with dbCPU := (Atoi g).1 }
      else .error (.atoi g ((Atoi g).2.getD .ErrSyntax)) := by
  unfold setDBCPU
  by_cases he : g = ""
  · simp [he]
  · rw [if_pos he, if_neg he]
    rcases hA : Atoi g with ⟨v, _ | err⟩
    · simp
    · simp

theorem setDbType_eq (tbl : Char → Char) (ps : PGSettings) (a : String) :
    setDbType tbl ps a =
      if ToLower tbl a ∈ DbTypes then .ok { ps with dbType := ToLower tbl a }
      else .error (.invalidType (ToLower tbl a)) := by
  unfold setDbType
  simp only []
  by_cases h : ToLower tbl a ∈ DbTypes
  · rw [if_pos h, if_pos ((any_beq_iff_mem _ _).2 h)]
  · rw [if_neg h, if_neg (fun h2 => h ((any_beq_iff_mem _ _).1 h2))]

theorem setDbPlatform_eq (tbl : Char → Char) (ps : PGSettings) (a : String) :
    setDbPlatform tbl ps a =
      if ToLower tbl a ∈ DbPlatforms then .ok { ps with dbPlatform := ToLower tbl a }
      else .error (.invalidPlatform (ToLower tbl a)) := by
  unfold setDbPlatform
  simp only []
  by_cases h : ToLower tbl a ∈ DbPlatforms
  · rw [if_pos h, if_pos ((any_beq_iff_mem _ _).2 h)]
  · rw [if_neg h, if_neg (fun h2 => h ((any_beq_iff_mem _ _).1 h2))]

theorem setDBStorage_eq (tbl : Char → Char) (ps : PGSettings) (a : String) :
    setDBStorage tbl ps a =
      if ToLower tbl a ∈ DbStorages then .ok { ps with dbStorage := ToLower tbl a }
      else .error (.invalidStorage (ToLower tbl a)) := by
  unfold setDBStorage
  simp only []
  by_cases h : ToLower tbl a ∈ DbStorages
  · rw [if_pos h, if_pos ((any_beq_iff_mem _ _).2 h)]
  · rw [if_neg h, if_neg (fun h2 => h ((any_beq_iff_mem _ _).1 h2))]

theorem setDbVersion_of_mem (ps : PGSettings) (b : String) (ver : Int) (h : b ∈ DbVersions)
    (hv : ParseFloat b = some ver) : setDbVersion ps b = .ok { ps with dbVersion := ver } := by
  unfold setDbVersion
  rw [if_pos ((any_beq_iff_mem _ _).2 h), hv]

theorem setDbVersion_of_not_mem (ps : PGSettings) (b : String) (h : b ∉ DbVersions) :
    setDbVersion ps b = .error (.invalidVersion b) := by
  unfold setDbVersion
  rw [if_neg (fun h2 => h ((any_beq_iff_mem _ _).1 h2))]

theorem setDBMemory_of_ok (tbl : Char → Char) (ps : PGSettings) (d : String) (mem : DbMemory)
    (h : NewDBMemory tbl d = .ok mem) :
    setDBMemory tbl ps d = .ok { ps with totalMemory := mem } := by
  unfold setDBMemory
  rw [h]

theorem setDBMemory_of_error (tbl : Char → Char) (ps : PGSettings) (d : String) (err : Err)
    (h : NewDBMemory tbl d = .error err) : setDBMemory tbl ps d = .error err := by
  unfold setDBMemory
  rw [h]

theorem NewPGSettings_of_valid (tbl : Char → Char) (a b c d e f g : String) (ver : Int)
    (mem : DbMemory) (h1 : ToLower tbl a ∈ DbTypes) (h2 : b ∈ DbVersions)
    (h2v : ParseFloat b = some ver) (h3 : ToLower tbl c ∈ DbPlatforms)
    (h4 : NewDBMemory tbl d = .ok mem) (h5 : e = "" ∨ (Atoi e).2 = none)
    (h6 : ToLower tbl f ∈ DbStorages) (h7 : g = "" ∨ (Atoi g).2 = none) :
    NewPGSettings tbl a b c d e f g =
      match recalculate (validatedFields tbl a ver c mem e f g) with
      | none => .error .divideByZero
      | some p => .ok p := by
  unfold NewPGSettings
  rw [setDbType_eq, if_pos h1]
  simp only []
  rw [setDbVersion_of_mem _ b ver h2 h2v]
  simp only []
  rw [setDbPlatform_eq, if_pos h3]
  simp only []
  rw [setDBMemory_of_ok tbl _ d mem h4]
  simp only []
  rw [setDBConnections_eq]
  by_cases he : e = ""
  · rw [if_pos he]
    simp only []
    rw [setDBStorage_eq, if_pos h6]
    simp only []
    rw [setDBCPU_eq]
    by_cases hg : g = ""
    · rw [if_pos hg]
      simp only [validatedFields, if_pos he, if_pos hg]
      rfl
    · rw [if_neg hg, if_pos (h7.resolve_left hg)]
      simp only [validatedFields, if_pos he, if_neg hg]
      rfl
  · rw [if_neg he, if_pos (h5.resolve_left he)]
    simp only []
    rw [setDBStorage_eq, if_pos h6]
    simp only []
    rw [setDBCPU_eq]
    by_cases hg : g = ""
    · rw [if_pos hg]
      simp only [validatedFields, if_neg he, if_pos hg]
      rfl
    · rw [if_neg hg, if_pos (h7.resolve_left hg)]
      simp only [validatedFields, if_neg he, if_neg hg]
      rfl

theorem NewPGSettings_bad_type (tbl : Char → Char) (a b c d e f g : String)
    (h1 : ToLower tbl a ∉ DbTypes) :
    NewPGSettings tbl a b c d e f g = .error (.invalidType (ToLower tbl a)) := by
  unfold NewPGSettings
  rw [setDbType_eq, if_neg h1]

theorem NewPGSettings_bad_version (tbl : Char → Char) (a b c d e f g : String)
    (h1 : ToLower tbl a ∈ DbTypes) (h2 : b ∉ DbVersions) :
    NewPGSettings tbl a b c d e f g = .error (.invalidVersion b) := by
  unfold NewPGSettings
  rw [setDbType_eq, if_pos h1]
  simp only []
  rw [setDbVersion_of_not_mem _ b h2]

theorem NewPGSettings_bad_platform (tbl : Char → Char) (a b c d e f g : String)
    (h1 : ToLower tbl a ∈ DbTypes) (h2 : b ∈ DbVersions) (h3 : ToLower tbl c ∉ DbPlatforms) :
    NewPGSettings tbl a b c d e f g = .error (.invalidPlatform (ToLower tbl c)) := by
  obtain ⟨ver, h2v, _, _⟩ := ParseFloat_of_mem b h2
  unfold NewPGSettings
  rw [setDbType_eq, if_pos h1]
  simp only []
  rw [setDbVersion_of_mem _ b ver h2 h2v]
  simp only []
  rw [setDbPlatform_eq, if_neg h3]

theorem NewPGSettings_bad_memory (tbl : Char → Char) (a b c d e f g : String) (err : Err)
    (h1 : ToLower tbl a ∈ DbTypes) (h2 : b ∈ DbVersions) (h3 : ToLower tbl c ∈ DbPlatforms)
    (h4 : NewDBMemory tbl d = .error err) :
    NewPGSettings tbl a b c d e f g = .error err := by
  obtain ⟨ver, h2v, _, _⟩ := ParseFloat_of_mem b h2
  unfold NewPGSettings
  rw [setDbType_eq, if_pos h1]
  simp only []
  rw [setDbVersion_of_mem _ b ver h2 h2v]
  simp only []
  rw [setDbPlatform_eq, if_pos h3]
  simp only []
  rw [setDBMemory_of_error tbl _ d err h4]

theorem NewPGSettings_bad_connections (tbl : Char → Char) (a b c d e f g : String)
    (mem : DbMemory) (k : NumError)
    (h1 : ToLower tbl a ∈ DbTypes) (h2 : b ∈ DbVersions) (h3 : ToLower tbl c ∈ DbPlatforms)
    (h4 : NewDBMemory tbl d = .ok mem) (h5 : e ≠ "") (h5k : (Atoi e).2 = some k) :
    NewPGSettings tbl a b c d e f g = .error (.atoi e k) := by
  obtain ⟨ver, h2v, _, _⟩ := ParseFloat_of_mem b h2
  unfold NewPGSettings
  rw [setDbType_eq, if_pos h1]
  simp only []
  rw [setDbVersion_of_mem _ b ver h2 h2v]
  simp only []
  rw [setDbPlatform_eq, if_pos h3]
  simp only []
  rw [setDBMemory_of_ok tbl _ d mem h4]
  simp only []
  rw [setDBConnections_eq, if_neg h5, if_neg (by rw [h5k]; exact Option.noConfusion), h5k]
  rfl

theorem NewPGSettings_bad_storage (tbl : Char → Char) (a b c d e f g : String)
    (mem : DbMemory)
    (h1 : ToLower tbl a ∈ DbTypes) (h2 : b ∈ DbVersions) (h3 : ToLower tbl c ∈ DbPlatforms)
    (h4 : NewDBMemory tbl d = .ok mem) (h5 : e = "" ∨ (Atoi e).2 = none)
    (h6 : ToLower tbl f ∉ DbStorages) :
    NewPGSettings tbl a b c d e f g = .error (.invalidStorage (ToLower tbl f)) := by
  obtain ⟨ver, h2v, _, _⟩ := ParseFloat_of_mem b h2
  unfold NewPGSettings
  rw [setDbType_eq, if_pos h1]
  simp only []
  rw [setDbVersion_of_mem _ b ver h2 h2v]
  simp only []
  rw [setDbPlatform_eq, if_pos h3]
  simp only []
  rw [setDBMemory_of_ok tbl _ d mem h4]
  simp only []
  rw [setDBConnections_eq]
  by_cases he : e = ""
  · rw [if_pos he]
    simp only []
    rw [setDBStorage_eq, if_neg h6]
  · rw [if_neg he, if_pos (h5.resolve_left he)]
    simp only []
    rw [setDBStorage_eq, if_neg h6]

theorem NewPGSettings_bad_cpu (tbl : Char → Char) (a b c d e f g : String)
    (mem : DbMemory) (k : NumError)
    (h1 : ToLower tbl a ∈ DbTypes) (h2 : b ∈ DbVersions) (h3 : ToLower tbl c ∈ DbPlatforms)
    (h4 : NewDBMemory tbl d = .ok mem) (h5 : e = "" ∨ (Atoi e).2 = none)
    (h6 : ToLower tbl f ∈ DbStorages) (h7 : g ≠ "") (h7k : (Atoi g).2 = some k) :
    NewPGSettings tbl a b c d e f g = .error (.atoi g k) := by
  obtain ⟨ver, h2v, _, _⟩ := ParseFloat_of_mem b h2
  have hk : ¬ (Atoi g).2 = none := by rw [h7k]; exact Option.noConfusion
  unfold NewPGSettings
  rw [setDbType_eq, if_pos h1]
  simp only []
  rw [setDbVersion_of_mem _ b ver h2 h2v]
  simp only []
  rw [setDbPlatform_eq, if_pos h3]
  simp only []
  rw [setDBMemory_of_ok tbl _ d mem h4]
  simp only []
  rw [setDBConnections_eq]
  by_cases he : e = ""
  · rw [if_pos he]
    simp only []
    rw [setDBStorage_eq, if_pos h6]
    simp only []
    rw [setDBCPU_eq, if_neg h7, if_neg hk, h7k]
    rfl
  · rw [if_neg he, if_pos (h5.resolve_left he)]
    simp only []
    rw [setDBStorage_eq, if_pos h6]
    simp only []
    rw [setDBCPU_eq, if_neg h7, if_neg hk, h7k]
    rfl

/-! ## The constructor -/

theorem validatedFields_range (tbl : Char → Char) (a c e f g : String) (ver : Int)
    (mem : DbMemory) (h5 : e = "" ∨ (Atoi e).2 = none) (h7 : g = "" ∨ (Atoi g).2 = none) :
    (validatedFields tbl a ver c mem e f g).dbConnections < 9223372036854775808 ∧
    (validatedFields tbl a ver c mem e f g).dbCPU < 9223372036854775808 := by
  constructor
  · simp only [validatedFields]
    by_cases he : e = ""
    · rw [if_pos he]; decide
    · rw [if_neg he]
      exact (Atoi_ok_range e (h5.resolve_left he)).2.1
  · simp only [validatedFields]
    by_cases hg : g = ""
    · rw [if_pos hg]; decide
    · rw [if_neg hg]
      exact (Atoi_ok_range g (h7.resolve_left hg)).2.1

/-- Inversion of a successful `NewPGSettings`. -/
theorem NewPGSettings_inv (tbl : Char → Char) (a b c d e f g : String) (ps : PGSettings)
    (h : NewPGSettings tbl a b c d e f g = .ok ps) :
    ∃ ver mem, ToLower tbl a ∈ DbTypes ∧ b ∈ DbVersions ∧ ParseFloat b = some ver ∧
      94 ≤ ver ∧ ver ≤ 140 ∧
      ToLower tbl c ∈ DbPlatforms ∧ NewDBMemory tbl d = .ok mem ∧
      (e = "" ∨ (Atoi e).2 = none) ∧ ToLower tbl f ∈ DbStorages ∧
      (g = "" ∨ (Atoi g).2 = none) ∧
      recalculate (validatedFields tbl a ver c mem e f g) = some ps := by
  by_cases h1 : ToLower tbl a ∈ DbTypes
  swap
  · rw [NewPGSettings_bad_type tbl a b c d e f g h1] at h
    exact Except.noConfusion h
  by_cases h2 : b ∈ DbVersions
  swap
  · rw [NewPGSettings_bad_version tbl a b c d e f g h1 h2] at h
    exact Except.noConfusion h
  obtain ⟨ver, h2v, hv1, hv2⟩ := ParseFloat_of_mem b h2
  by_cases h3 : ToLower tbl c ∈ DbPlatforms
  swap
  · rw [NewPGSettings_bad_platform tbl a b c d e f g h1 h2 h3] at h
    exact Except.noConfusion h
  cases h4 : NewDBMemory tbl d with
  | error err =>
    rw [NewPGSettings_bad_memory tbl a b c d e f g err h1 h2 h3 h4] at h
    exact Except.noConfusion h
  | ok mem =>
    by_cases h5 : e = "" ∨ (Atoi e).2 = none
    swap
    · have he : e ≠ "" := fun h0 => h5 (Or.inl h0)
      cases hk : (Atoi e).2 with
      | none => exact absurd (Or.inr hk) h5
      | some k =>
        rw [NewPGSettings_bad_connections tbl a b c d e f g mem k h1 h2 h3 h4 he hk] at h
        exact Except.noConfusion h
    by_cases h6 : ToLower tbl f ∈ DbStorages
    swap
    · rw [NewPGSettings_bad_storage tbl a b c d e f g mem h1 h2 h3 h4 h5 h6] at h
      exact Except.noConfusion h
    by_cases h7 : g = "" ∨ (Atoi g).2 = none
    swap
    · have hg : g ≠ "" := fun h0 => h7 (Or.inl h0)
      cases hk : (Atoi g).2 with
      | none => exact absurd (Or.inr hk) h7
      | some k =>
        rw [NewPGSettings_bad_cpu tbl a b c d e f g mem k h1 h2 h3 h4 h5 h6 hg hk] at h
        exact Except.noConfusion h
    refine ⟨ver, mem, h1, h2, h2v, hv1, hv2, h3, rfl, h5, h6, h7, ?_⟩
    rw [NewPGSettings_of_valid tbl a b c d e f g ver mem h1 h2 h2v h3 h4 h5 h6 h7] at h
    cases hr : recalculate (validatedFields tbl a ver c mem e f g) with
    | none => rw [hr] at h; exact Except.noConfusion h
    | some p =>
      rw [hr] at h
      simp only [Except.ok.injEq] at h
      rw [h]

/-- Valid inputs give a profile. -/
theorem NewPGSettings_some_of_valid (tbl : Char → Char) (a b c d e f g : String)
    (mem : DbMemory) (h1 : ToLower tbl a ∈ DbTypes) (h2 : b ∈ DbVersions)
    (h3 : ToLower tbl c ∈ DbPlatforms)
    (h4 : NewDBMemory tbl d = .ok mem) (h5 : e = "" ∨ (Atoi e).2 = none)
    (h6 : ToLower tbl f ∈ DbStorages) (h7 : g = "" ∨ (Atoi g).2 = none) :
    ∃ ps, NewPGSettings tbl a b c d e f g = .ok ps := by
  obtain ⟨ver, h2v, _, _⟩ := ParseFloat_of_mem b h2
  obtain ⟨r1, r2⟩ := validatedFields_range tbl a c e f g ver mem h5 h7
  obtain ⟨qs, hq⟩ := recalculate_some (validatedFields tbl a ver c mem e f g) r1 r2
  refine ⟨qs, ?_⟩
  rw [NewPGSettings_of_valid tbl a b c d e f g ver mem h1 h2 h2v h3 h4 h5 h6 h7, hq]

/-! ## Entries of the derived tables -/

theorem tdiv_eq_ite (x k : Int) (hk : 0 < k) :
    x.tdiv k = if 0 ≤ x then x / k else -((-x) / k) := by
  split_ifs with h
  · exact Int.tdiv_eq_ediv h (Int.le_of_lt hk)
  · have h2 : 0 ≤ -x := by omega
    have h3 := Int.tdiv_eq_ediv h2 (Int.le_of_lt hk)
    rw [Int.neg_tdiv] at h3
    omega

theorem divInt_eq_tdiv (x k : Int) (h1 : -9223372036854775808 ≤ x)
    (h2 : x < 9223372036854775808) (hk : 0 < k) : divInt x k = x.tdiv k := by
  unfold divInt
  rw [tdiv_eq_ite x k hk]
  split_ifs with h
  · have a := Int.ediv_nonneg h (Int.le_of_lt hk)
    have b := Int.ediv_le_self k h
    apply wrap64_eq_self <;> omega
  · have h0 : 0 ≤ -x := by omega
    have a := Int.ediv_nonneg h0 (Int.le_of_lt hk)
    have b := Int.ediv_le_self k h0
    apply wrap64_eq_self <;> omega

theorem lookup_map_keep {α : Type} (m : List (String × α)) (f : String × α → String × α)
    (hf : ∀ kv, (f kv).1 = kv.1) (k : String) :
    (m.map f).lookup k = (m.lookup k).map (fun v => (f (k, v)).2) := by
  induction m with
  | nil => rfl
  | cons kv rest ih =>
    obtain ⟨a, b⟩ := kv
    have hfa : f (a, b) = (a, (f (a, b)).2) := by
      have := hf (a, b)
      exact Prod.ext this rfl
    rw [List.map_cons, hfa]
    by_cases hk : k = a
    · rw [lookup_cons_eq _ _ _ _ hk, lookup_cons_eq _ _ _ _ hk, hk]
      rfl
    · rw [lookup_cons_ne _ _ _ _ hk, lookup_cons_ne _ _ _ _ hk, ih]

theorem sharedBuffers_get (ps : PGSettings) (t : String) (ht : t ∈ DbTypes) :
    memGet (sharedBuffers ps) t =
      if ps.dbVersion < 100 ∧ ps.dbPlatform = "windows" then
        if divInt ps.totalMemory.inBytes (if t = "desktop" then 16 else 4) > 512 * MB then
          ⟨512 * MB⟩
        else ⟨divInt ps.totalMemory.inBytes (if t = "desktop" then 16 else 4)⟩
      else ⟨divInt ps.totalMemory.inBytes (if t = "desktop" then 16 else 4)⟩ := by
  simp only [DbTypes, List.mem_cons, List.mem_singleton, List.not_mem_nil, or_false] at ht
  unfold sharedBuffers
  simp only [DbMemory.InBytes]
  by_cases hw : ps.dbVersion < 100 ∧ ps.dbPlatform = "windows"
  · rw [if_pos hw, if_pos hw]
    unfold memGet mapGet
    rw [lookup_map_keep _ _ (by intro kv; split_ifs <;> rfl)]
    rcases ht with h | h | h | h | h <;> subst h
    · simp only [if_neg (by decide : ¬ "web" = "desktop")]
      show (if _ then _ else _ : String × DbMemory).2 = _
      split_ifs <;> rfl
    · simp only [if_neg (by decide : ¬ "oltp" = "desktop")]
      show (if _ then _ else _ : String × DbMemory).2 = _
      split_ifs <;> rfl
    · simp only [if_neg (by decide : ¬ "dw" = "desktop")]
      show (if _ then _ else _ : String × DbMemory).2 = _
      split_ifs <;> rfl
    · simp only [if_neg (by decide : ¬ "mixed" = "desktop")]
      show (if _ then _ else _ : String × DbMemory).2 = _
      split_ifs <;> rfl
    · simp only [if_true]
      show (if _ then _ else _ : String × DbMemory).2 = _
      split_ifs <;> rfl
  · rw [if_neg hw, if_neg hw]
    rcases ht with h | h | h | h | h <;> subst h <;> rfl

theorem maintenanceWorkMem_get (ps : PGSettings) (t : String) (ht : t ∈ DbTypes) :
    memGet (maintenanceWorkMem ps) t =
      if divInt ps.totalMemory.inBytes (if t = "dw" then 8 else 16) > 2 * GB then
        if ps.dbPlatform = "windows" then ⟨2 * GB - MB⟩ else ⟨2 * GB⟩
      else ⟨divInt ps.totalMemory.inBytes (if t = "dw" then 8 else 16)⟩ := by
  simp only [DbTypes, List.mem_cons, List.mem_singleton, List.not_mem_nil, or_false] at ht
  unfold maintenanceWorkMem
  simp only [DbMemory.InBytes]
  unfold memGet mapGet
  rw [lookup_map_keep _ _ (by intro kv; split_ifs <;> rfl)]
  rcases ht with h | h | h | h | h <;> subst h
  · simp only [if_neg (by decide : ¬ "web" = "dw")]
    show (if _ then _ else _ : String × DbMemory).2 = _
    split_ifs <;> rfl
  · simp only [if_neg (by decide : ¬ "oltp" = "dw")]
    show (if _ then _ else _ : String × DbMemory).2 = _
    split_ifs <;> rfl
  · simp only [if_true]
    show (if _ then _ else _ : String × DbMemory).2 = _
    split_ifs <;> rfl
  · simp only [if_neg (by decide : ¬ "mixed" = "dw")]
    show (if _ then _ else _ : String × DbMemory).2 = _
    split_ifs <;> rfl
  · simp only [if_neg (by decide : ¬ "desktop" = "dw")]
    show (if _ then _ else _ : String × DbMemory).2 = _
    split_ifs <;> rfl

theorem walBuffers_get (sb : MemValue) (t : String) (ht : t ∈ DbTypes) :
    memGet (walBuffers sb) t =
      walBufferClamp ⟨divInt (mulInt 3 (memGet sb t).inBytes) 100⟩ := by
  simp only [DbTypes, List.mem_cons, List.mem_singleton, List.not_mem_nil, or_false] at ht
  rcases ht with h | h | h | h | h <;> subst h <;> rfl

theorem inBytes_mk (x : Int) : (DbMemory.mk x).inBytes = x := rfl

theorem walBufferClamp_spec (m : DbMemory) :
    32 ≤ (walBufferClamp m).inBytes ∧ (walBufferClamp m).inBytes ≤ 16777216 ∧
    (14680064 < m.inBytes → (walBufferClamp m).inBytes = 16777216) ∧
    ¬ (14680064 < (walBufferClamp m).inBytes ∧ (walBufferClamp m).inBytes < 16777216) := by
  obtain ⟨x⟩ := m
  have e16 : (16 : Int) * MB = 16777216 := by decide
  have e14 : (14 : Int) * MB = 14680064 := by decide
  simp only [walBufferClamp, DbMemory.InBytes, e16, e14, inBytes_mk]
  have hin : ¬ ((16777216 : Int) > 14680064 ∧ (16777216 : Int) < 16777216) := by omega
  have h32 : ¬ ((16777216 : Int) < 32) := by omega
  by_cases h1 : x > 16777216
  · simp only [if_pos h1, inBytes_mk, if_neg hin, if_neg h32]
    refine ⟨by omega, by omega, ?_, by omega⟩
    intro _
    trivial
  · simp only [if_neg h1, inBytes_mk]
    by_cases h2 : x > 14680064 ∧ x < 16777216
    · simp only [if_pos h2, inBytes_mk, if_neg h32]
      refine ⟨by omega, by omega, ?_, by omega⟩
      intro _
      trivial
    · simp only [if_neg h2, inBytes_mk]
      by_cases h3 : x < 32
      · simp only [if_pos h3, inBytes_mk]
        refine ⟨by omega, by omega, ?_, by omega⟩
        intro _
        omega
      · simp only [if_neg h3, inBytes_mk]
        refine ⟨by omega, by omega, ?_, by omega⟩
        intro _
        omega

/-! ## Bounds on the derived memory tables -/

theorem NewPGSettings_tables (tbl : Char → Char) (a b c d e f g : String) (ps : PGSettings)
    (h : NewPGSettings tbl a b c d e f g = .ok ps) :
    -9223372036854775808 ≤ ps.totalMemory.inBytes ∧
    ps.totalMemory.inBytes < 9223372036854775808 ∧
    mapGet [] ps.memSettings "shared_buffers" = sharedBuffers ps ∧
    mapGet [] ps.memSettings "maintenance_work_mem" = maintenanceWorkMem ps ∧
    mapGet [] ps.memSettings "wal_buffers" = walBuffers (sharedBuffers ps) := by
  obtain ⟨ver, mem, _, _, _, _, _, _, h4, _, _, _, hr⟩ := NewPGSettings_inv tbl a b c d e f g ps h
  obtain ⟨f1, f2, f3, f4, f5, f6, f7⟩ := recalculate_fields _ _ hr
  obtain ⟨r1, r2⟩ := NewDBMemory_range tbl d mem h4
  have hm : ps.totalMemory = mem := f7
  have hsb : sharedBuffers ps = sharedBuffers (validatedFields tbl a ver c mem e f g) := by
    simp only [sharedBuffers, f2, f3, f7]
  have hmw : maintenanceWorkMem ps = maintenanceWorkMem (validatedFields tbl a ver c mem e f g) := by
    simp only [maintenanceWorkMem, f3, f7]
  refine ⟨by rw [hm]; exact r1, by rw [hm]; exact r2, ?_, ?_, ?_⟩
  · rw [hsb]; exact recalculate_shared_buffers _ _ hr
  · rw [hmw]; exact recalculate_maintenance_work_mem _ _ hr
  · rw [hsb]; exact recalculate_wal_buffers _ _ hr

/-- C7: in a successfully constructed profile with version below 10 on
windows, the `shared_buffers` entry of each of the five workload types is at
most 512 MiB, and it differs from memory/4 (memory/16 for desktop, truncating
division) only when that quotient exceeds 512 MiB. -/
theorem shared_buffers_windows_cap (tbl : Char → Char) (a b c d e f g : String)
    (ps : PGSettings) (h : NewPGSettings tbl a b c d e f g = .ok ps)
    (hv : ps.dbVersion < 100) (hp : ps.dbPlatform = "windows")
    (t : String) (ht : t ∈ ["web", "oltp", "dw", "mixed", "desktop"]) :
    (memGet (mapGet [] ps.memSettings "shared_buffers") t).inBytes ≤ 512 * 1048576 ∧
    ((memGet (mapGet [] ps.memSettings "shared_buffers") t).inBytes ≠
        Int.tdiv ps.totalMemory.inBytes (if t = "desktop" then 16 else 4) →
      Int.tdiv ps.totalMemory.inBytes (if t = "desktop" then 16 else 4) > 512 * 1048576) := by
  obtain ⟨r1, r2, hsb, _, _⟩ := NewPGSettings_tables tbl a b c d e f g ps h
  have hk : (0 : Int) < (if t = "desktop" then 16 else 4) := by split_ifs <;> decide
  have hd := divInt_eq_tdiv ps.totalMemory.inBytes (if t = "desktop" then 16 else 4) r1 r2 hk
  rw [hsb, sharedBuffers_get ps t ht, if_pos ⟨hv, hp⟩, hd]
  have eM : (512 : Int) * MB = 512 * 1048576 := rfl
  rw [eM]
  generalize Int.tdiv ps.totalMemory.inBytes (if t = "desktop" then 16 else 4) = q
  split_ifs with hq
  · simp only [inBytes_mk]
    exact ⟨le_refl _, fun _ => hq⟩
  · simp only [inBytes_mk]
    exact ⟨by omega, fun hne => absurd rfl hne⟩

/-- C8: in a successfully constructed profile whose platform is not windows,
the `maintenance_work_mem` entry of every workload type is at most 2 GiB. -/
theorem maintenance_work_mem_cap (tbl : Char → Char) (a b c d e f g : String)
    (ps : PGSettings) (h : NewPGSettings tbl a b c d e f g = .ok ps)
    (hp : ps.dbPlatform ≠ "windows")
    (t : String) (ht : t ∈ ["web", "oltp", "dw", "mixed", "desktop"]) :
    (memGet (mapGet [] ps.memSettings "maintenance_work_mem") t).inBytes ≤ 2 * 1073741824 := by
  obtain ⟨_, _, _, hmw, _⟩ := NewPGSettings_tables tbl a b c d e f g ps h
  rw [hmw, maintenanceWorkMem_get ps t ht]
  have eG : (2 : Int) * GB = 2 * 1073741824 := rfl
  rw [eG]
  generalize divInt ps.totalMemory.inBytes (if t = "dw" then 8 else 16) = q
  split_ifs with hq
  · simp only [inBytes_mk]
    omega
  · simp only [inBytes_mk]
    omega

theorem tdiv_four_bounds (x k : Int) (h1 : -9223372036854775808 ≤ x)
    (h2 : x < 9223372036854775808) (hk : k = 4 ∨ k = 16) :
    -2305843009213693952 ≤ x.tdiv k ∧ x.tdiv k ≤ 2305843009213693952 := by
  rcases hk with hk | hk <;> subst hk
  · rw [tdiv_eq_ite x 4 (by decide)]
    split_ifs <;> omega
  · rw [tdiv_eq_ite x 16 (by decide)]
    split_ifs <;> omega

/-- C10: in a successfully constructed profile the `wal_buffers` entry of every
workload type is at least 32 bytes and at most 16 MiB, it is exactly 16 MiB
whenever 3 % of that type's `shared_buffers` (`3 * shared_buffers / 100`,
truncating) exceeds 14 MiB, and it never lies strictly between 14 MiB and
16 MiB. -/
theorem wal_buffers_bounds (tbl : Char → Char) (a b c d e f g : String)
    (ps : PGSettings) (h : NewPGSettings tbl a b c d e f g = .ok ps)
    (t : String) (ht : t ∈ ["web", "oltp", "dw", "mixed", "desktop"]) :
    32 ≤ (memGet (mapGet [] ps.memSettings "wal_buffers") t).inBytes ∧
    (memGet (mapGet [] ps.memSettings "wal_buffers") t).inBytes ≤ 16 * 1048576 ∧
    (Int.tdiv (3 * (memGet (mapGet [] ps.memSettings "shared_buffers") t).inBytes) 100
        > 14 * 1048576 →
      (memGet (mapGet [] ps.memSettings "wal_buffers") t).inBytes = 16 * 1048576) ∧
    ¬ (14 * 1048576 < (memGet (mapGet [] ps.memSettings "wal_buffers") t).inBytes ∧
       (memGet (mapGet [] ps.memSettings "wal_buffers") t).inBytes < 16 * 1048576) := by
  obtain ⟨r1, r2, hsb, _, hwal⟩ := NewPGSettings_tables tbl a b c d e f g ps h
  rw [hwal, hsb, walBuffers_get _ t ht]
  -- the shared_buffers entry is small enough for `3 * sb` not to overflow
  have hk : (0 : Int) < (if t = "desktop" then 16 else 4) := by split_ifs <;> decide
  have hk2 : (if t = "desktop" then (16 : Int) else 4) = 4 ∨
      (if t = "desktop" then (16 : Int) else 4) = 16 := by split_ifs <;> simp
  have hd := divInt_eq_tdiv ps.totalMemory.inBytes (if t = "desktop" then 16 else 4) r1 r2 hk
  have hb := tdiv_four_bounds ps.totalMemory.inBytes _ r1 r2 hk2
  have hrange : -2305843009213693952 ≤ (memGet (sharedBuffers ps) t).inBytes ∧
      (memGet (sharedBuffers ps) t).inBytes ≤ 2305843009213693952 := by
    rw [sharedBuffers_get ps t ht, hd]
    have eM : (512 : Int) * MB = 536870912 := rfl
    rw [eM]
    generalize Int.tdiv ps.totalMemory.inBytes (if t = "desktop" then 16 else 4) = q at hb
    split_ifs <;> simp only [inBytes_mk] <;> omega
  generalize (memGet (sharedBuffers ps) t).inBytes = sb at hrange
  have hmul : mulInt 3 sb = 3 * sb := by
    unfold mulInt
    apply wrap64_eq_self <;> omega
  have hdiv : divInt (3 * sb) 100 = Int.tdiv (3 * sb) 100 :=
    divInt_eq_tdiv (3 * sb) 100 (by omega) (by omega) (by decide)
  rw [hmul, hdiv]
  obtain ⟨c1, c2, c3, c4⟩ := walBufferClamp_spec ⟨Int.tdiv (3 * sb) 100⟩
  simp only [inBytes_mk] at c3
  exact ⟨c1, c2, c3, c4⟩

/-! ## Construction -/

theorem atoi_field_iff (e : String) : (e = "" ∨ (Atoi e).2 = none) ↔ (e = "" ∨ IsInt64Literal e) := by
  rw [Atoi_ok_iff]

/-- C5 (amended): `NewPGSettings` returns a profile exactly when the
lower-cased type is one of web, oltp, dw, mixed, desktop; the version is one of
9.4, 9.5, 9.6, 10, 11, 12, 13, 14; the lower-cased platform is one of linux,
darwin, windows; `NewDBMemory` accepts the memory; connections is empty or a
decimal integer (optional sign, digits) between `-2 ^ 63` and `2 ^ 63 - 1`; the
lower-cased storage is one of ssd, hdd, san; CPU is empty or such an integer.
Otherwise the result is the error of the first invalid field in the order
type, version, platform, memory, connections, storage, CPU. -/
theorem NewPGSettings_ok_iff (tbl : Char → Char) (a b c d e f g : String) :
    ((∃ ps, NewPGSettings tbl a b c d e f g = .ok ps) ↔
      (ToLower tbl a ∈ ["web", "oltp", "dw", "mixed", "desktop"] ∧
       b ∈ ["9.4", "9.5", "9.6", "10", "11", "12", "13", "14"] ∧
       ToLower tbl c ∈ ["linux", "darwin", "windows"] ∧
       (∃ m, NewDBMemory tbl d = .ok m) ∧
       (e = "" ∨ IsInt64Literal e) ∧
       ToLower tbl f ∈ ["ssd", "hdd", "san"] ∧
       (g = "" ∨ IsInt64Literal g))) ∧
    (ToLower tbl a ∉ ["web", "oltp", "dw", "mixed", "desktop"] →
      NewPGSettings tbl a b c d e f g = .error (.invalidType (ToLower tbl a))) ∧
    (ToLower tbl a ∈ ["web", "oltp", "dw", "mixed", "desktop"] →
     b ∉ ["9.4", "9.5", "9.6", "10", "11", "12", "13", "14"] →
      NewPGSettings tbl a b c d e f g = .error (.invalidVersion b)) ∧
    (ToLower tbl a ∈ ["web", "oltp", "dw", "mixed", "desktop"] →
     b ∈ ["9.4", "9.5", "9.6", "10", "11", "12", "13", "14"] →
     ToLower tbl c ∉ ["linux", "darwin", "windows"] →
      NewPGSettings tbl a b c d e f g = .error (.invalidPlatform (ToLower tbl c))) ∧
    (ToLower tbl a ∈ ["web", "oltp", "dw", "mixed", "desktop"] →
     b ∈ ["9.4", "9.5", "9.6", "10", "11", "12", "13", "14"] →
     ToLower tbl c ∈ ["linux", "darwin", "windows"] →
     (¬ ∃ m, NewDBMemory tbl d = .ok m) →
      NewPGSettings tbl a b c d e f g = .error (.parseMemory d)) ∧
    (ToLower tbl a ∈ ["web", "oltp", "dw", "mixed", "desktop"] →
     b ∈ ["9.4", "9.5", "9.6", "10", "11", "12", "13", "14"] →
     ToLower tbl c ∈ ["linux", "darwin", "windows"] →
     (∃ m, NewDBMemory tbl d = .ok m) →
     ¬ (e = "" ∨ IsInt64Literal e) →
      ∃ k, NewPGSettings tbl a b c d e f g = .error (.atoi e k)) ∧
    (ToLower tbl a ∈ ["web", "oltp", "dw", "mixed", "desktop"] →
     b ∈ ["9.4", "9.5", "9.6", "10", "11", "12", "13", "14"] →
     ToLower tbl c ∈ ["linux", "darwin", "windows"] →
     (∃ m, NewDBMemory tbl d = .ok m) →
     (e = "" ∨ IsInt64Literal e) →
     ToLower tbl f ∉ ["ssd", "hdd", "san"] →
      NewPGSettings tbl a b c d e f g = .error (.invalidStorage (ToLower tbl f))) ∧
    (ToLower tbl a ∈ ["web", "oltp", "dw", "mixed", "desktop"] →
     b ∈ ["9.4", "9.5", "9.6", "10", "11", "12", "13", "14"] →
     ToLower tbl c ∈ ["linux", "darwin", "windows"] →
     (∃ m, NewDBMemory tbl d = .ok m) →
     (e = "" ∨ IsInt64Literal e) →
     ToLower tbl f ∈ ["ssd", "hdd", "san"] →
     ¬ (g = "" ∨ IsInt64Literal g) →
      ∃ k, NewPGSettings tbl a b c d e f g = .error (.atoi g k)) := by
  refine ⟨⟨?_, ?_⟩, ?_, ?_, ?_, ?_, ?_, ?_, ?_⟩
  · rintro ⟨ps, h⟩
    obtain ⟨ver, mem, h1, h2, _, _, _, h3, h4, h5, h6, h7, _⟩ :=
      NewPGSettings_inv tbl a b c d e f g ps h
    exact ⟨h1, h2, h3, ⟨mem, h4⟩, (atoi_field_iff e).1 h5, h6, (atoi_field_iff g).1 h7⟩
  · rintro ⟨h1, h2, h3, ⟨mem, h4⟩, h5, h6, h7⟩
    exact NewPGSettings_some_of_valid tbl a b c d e f g mem h1 h2 h3 h4
      ((atoi_field_iff e).2 h5) h6 ((atoi_field_iff g).2 h7)
  · intro h1
    exact NewPGSettings_bad_type tbl a b c d e f g h1
  · intro h1 h2
    exact NewPGSettings_bad_version tbl a b c d e f g h1 h2
  · intro h1 h2 h3
    exact NewPGSettings_bad_platform tbl a b c d e f g h1 h2 h3
  · intro h1 h2 h3 h4
    cases hm : NewDBMemory tbl d with
    | ok m => exact absurd ⟨m, hm⟩ h4
    | error err =>
      have herr : err = .parseMemory d := by
        cases hf : FindSubmatch (ToLower tbl d) with
        | none =>
          rw [NewDBMemory_of_FindSubmatch_none tbl d hf] at hm
          simp only [Except.error.injEq] at hm
          exact hm.symm
        | some gu =>
          obtain ⟨m, hm2⟩ := NewDBMemory_of_FindSubmatch_some tbl d gu.1 gu.2 hf
          rw [hm2] at hm
          exact Except.noConfusion hm
      rw [NewPGSettings_bad_memory tbl a b c d e f g err h1 h2 h3 hm, herr]
  · rintro h1 h2 h3 ⟨mem, h4⟩ h5
    have h5a : ¬ (e = "" ∨ (Atoi e).2 = none) := fun h0 => h5 ((atoi_field_iff e).1 h0)
    have he : e ≠ "" := fun h0 => h5a (Or.inl h0)
    cases hk : (Atoi e).2 with
    | none => exact absurd (Or.inr hk) h5a
    | some k => exact ⟨k, NewPGSettings_bad_connections tbl a b c d e f g mem k h1 h2 h3 h4 he hk⟩
  · rintro h1 h2 h3 ⟨mem, h4⟩ h5 h6
    exact NewPGSettings_bad_storage tbl a b c d e f g mem h1 h2 h3 h4
      ((atoi_field_iff e).2 h5) h6
  · rintro h1 h2 h3 ⟨mem, h4⟩ h5 h6 h7
    have h7a : ¬ (g = "" ∨ (Atoi g).2 = none) := fun h0 => h7 ((atoi_field_iff g).1 h0)
    have hg : g ≠ "" := fun h0 => h7a (Or.inl h0)
    cases hk : (Atoi g).2 with
    | none => exact absurd (Or.inr hk) h7a
    | some k =>
      exact ⟨k, NewPGSettings_bad_cpu tbl a b c d e f g mem k h1 h2 h3 h4
        ((atoi_field_iff e).2 h5) h6 hg hk⟩

/-- C5 as stated fails: every field below is valid in the sense of the claim
(connections `9223372036854775808` is the integer `2 ^ 63`), yet
`NewPGSettings` returns the range error of `strconv.Atoi` for the connections
field. -/
theorem NewPGSettings_ok_iff_counterexample :
    ToLower id "web" ∈ ["web", "oltp", "dw", "mixed", "desktop"] ∧
    "13" ∈ ["9.4", "9.5", "9.6", "10", "11", "12", "13", "14"] ∧
    ToLower id "linux" ∈ ["linux", "darwin", "windows"] ∧
    NewDBMemory id "16GB" = .ok ⟨17179869184⟩ ∧
    decimalInt "9223372036854775808" = some 9223372036854775808 ∧
    ToLower id "ssd" ∈ ["ssd", "hdd", "san"] ∧
    NewPGSettings id "web" "13" "linux" "16GB" "9223372036854775808" "ssd" "" =
      .error (.atoi "9223372036854775808" .ErrRange) := by
  refine ⟨by decide, by decide, by decide, by decide, by decide, by decide, by decide⟩

/-! ## Stored counts -/

theorem decimalInt_nonneg (s : String) (v : Int) (h : decimalInt s = some v)
    (hm : s.data.head? ≠ some '-') : 0 ≤ v := by
  obtain ⟨data⟩ := s
  cases data with
  | nil => simp [decimalInt] at h
  | cons c cs =>
    have hc : c ≠ '-' := by
      intro h0
      apply hm
      rw [h0]
      rfl
    simp only [decimalInt] at h
    generalize (if c = '-' ∨ c = '+' then cs else c :: cs) = body at h
    by_cases hb : body ≠ [] ∧ ∀ d ∈ body, isDigit d = true
    · rw [if_pos hb, if_neg hc] at h
      simp only [Option.some.injEq] at h
      omega
    · rw [if_neg hb] at h
      exact Option.noConfusion h

theorem NewPGSettings_counts (tbl : Char → Char) (a b c d e f g : String) (ps : PGSettings)
    (h : NewPGSettings tbl a b c d e f g = .ok ps) :
    (e = "" → ps.dbConnections = 0) ∧ (e ≠ "" → decimalInt e = some ps.dbConnections) ∧
    (g = "" → ps.dbCPU = 0) ∧ (g ≠ "" → decimalInt g = some ps.dbCPU) := by
  obtain ⟨ver, mem, _, _, _, _, _, _, _, h5, _, h7, hr⟩ := NewPGSettings_inv tbl a b c d e f g ps h
  obtain ⟨_, _, _, f4, _, f6, _⟩ := recalculate_fields _ _ hr
  simp only [validatedFields] at f4 f6
  refine ⟨?_, ?_, ?_, ?_⟩
  · intro he
    rw [f4, if_pos he]
  · intro he
    rw [f4, if_neg he]
    exact (Atoi_ok_range e (h5.resolve_left he)).2.2
  · intro hg
    rw [f6, if_pos hg]
  · intro hg
    rw [f6, if_neg hg]
    exact (Atoi_ok_range g (h7.resolve_left hg)).2.2

/-- C6 (amended): in a successfully constructed profile the stored connection
count is the integer written by the connections string (0 for the empty
string), so it is non-negative whenever that string does not start with `-`;
likewise the stored CPU count and the CPU string. -/
theorem counts_nonneg_without_minus (tbl : Char → Char) (a b c d e f g : String)
    (ps : PGSettings) (h : NewPGSettings tbl a b c d e f g = .ok ps) :
    (e = "" → ps.dbConnections = 0) ∧ (e ≠ "" → decimalInt e = some ps.dbConnections) ∧
    (e.data.head? ≠ some '-' → 0 ≤ ps.dbConnections) ∧
    (g = "" → ps.dbCPU = 0) ∧ (g ≠ "" → decimalInt g = some ps.dbCPU) ∧
    (g.data.head? ≠ some '-' → 0 ≤ ps.dbCPU) := by
  obtain ⟨c1, c2, c3, c4⟩ := NewPGSettings_counts tbl a b c d e f g ps h
  refine ⟨c1, c2, ?_, c3, c4, ?_⟩
  · intro hm
    by_cases he : e = ""
    · rw [c1 he]
    · exact decimalInt_nonneg e _ (c2 he) hm
  · intro hm
    by_cases hg : g = ""
    · rw [c3 hg]
    · exact decimalInt_nonneg g _ (c4 hg) hm

/-- Instance of `counts_nonneg_without_minus`: connections empty, CPU `4`. -/
theorem counts_nonneg_without_minus_witness :
    ("" = "" → linuxProfile.dbConnections = 0) ∧
    ("" ≠ "" → decimalInt "" = some linuxProfile.dbConnections) ∧
    ("".data.head? ≠ some '-' → 0 ≤ linuxProfile.dbConnections) ∧
    ("4" = "" → linuxProfile.dbCPU = 0) ∧ ("4" ≠ "" → decimalInt "4" = some linuxProfile.dbCPU) ∧
    ("4".data.head? ≠ some '-' → 0 ≤ linuxProfile.dbCPU) :=
  counts_nonneg_without_minus id "web" "13" "linux" "16GB" "" "ssd" "4" linuxProfile
    (by decide)

/-- C6 as stated fails: with connections `-5` and CPU `-3` the profile is
constructed and stores the negative counts -5 and -3. -/
theorem counts_nonneg_counterexample :
    NewPGSettings id "web" "13" "linux" "16GB" "-5" "ssd" "-3" = .ok signedProfile ∧
    signedProfile.dbConnections = -5 ∧ signedProfile.dbCPU = -3 := by
  refine ⟨by decide, by decide, by decide⟩

/-! ## Instances -/

/-- Instance of `shared_buffers_windows_cap`: dw, 9.6, windows, 64 GB, where
memory/4 is 16 GiB and the entry is capped. -/
theorem shared_buffers_windows_cap_witness :
    (memGet (mapGet [] windowsProfile.memSettings "shared_buffers") "dw").inBytes
      ≤ 512 * 1048576 ∧
    ((memGet (mapGet [] windowsProfile.memSettings "shared_buffers") "dw").inBytes ≠
        Int.tdiv windowsProfile.totalMemory.inBytes (if "dw" = "desktop" then 16 else 4) →
      Int.tdiv windowsProfile.totalMemory.inBytes (if "dw" = "desktop" then 16 else 4)
        > 512 * 1048576) :=
  shared_buffers_windows_cap id "dw" "9.6" "windows" "64GB" "" "hdd" "" windowsProfile
    (by decide) (by decide) (by decide) "dw" (by decide)

/-- Instance of `maintenance_work_mem_cap`: web, 13, linux, 16 GB. -/
theorem maintenance_work_mem_cap_witness :
    (memGet (mapGet [] linuxProfile.memSettings "maintenance_work_mem") "dw").inBytes
      ≤ 2 * 1073741824 :=
  maintenance_work_mem_cap id "web" "13" "linux" "16GB" "" "ssd" "4" linuxProfile
    (by decide) (by decide) "dw" (by decide)

/-- Instance of `wal_buffers_bounds`: web, 13, linux, 16 GB. -/
theorem wal_buffers_bounds_witness :
    32 ≤ (memGet (mapGet [] linuxProfile.memSettings "wal_buffers") "web").inBytes ∧
    (memGet (mapGet [] linuxProfile.memSettings "wal_buffers") "web").inBytes ≤ 16 * 1048576 ∧
    (Int.tdiv (3 * (memGet (mapGet [] linuxProfile.memSettings "shared_buffers") "web").inBytes)
        100 > 14 * 1048576 →
      (memGet (mapGet [] linuxProfile.memSettings "wal_buffers") "web").inBytes
        = 16 * 1048576) ∧
    ¬ (14 * 1048576 < (memGet (mapGet [] linuxProfile.memSettings "wal_buffers") "web").inBytes ∧
       (memGet (mapGet [] linuxProfile.memSettings "wal_buffers") "web").inBytes
         < 16 * 1048576) :=
  wal_buffers_bounds id "web" "13" "linux" "16GB" "" "ssd" "4" linuxProfile
    (by decide) "web" (by decide)

/-- C9 fails on the code: for web, version 13, windows and 32 GB the profile
is constructed, memory/16 is exactly 2 GiB, the test `> 2 GiB` does not fire,
and the `maintenance_work_mem` entry is 2147483648 bytes, above
2 GiB − 1 MiB = 2146435072. -/
theorem maintenance_work_mem_windows_at_2GiB :
    NewPGSettings id "web" "13" "windows" "32GB" "" "ssd" "" = .ok windows32Profile ∧
    windows32Profile.dbPlatform = "windows" ∧
    (memGet (mapGet [] windows32Profile.memSettings "maintenance_work_mem") "web").inBytes
      = 2147483648 ∧
    ¬ ((memGet (mapGet [] windows32Profile.memSettings "maintenance_work_mem") "web").inBytes
      ≤ 2146435072) := by
  refine ⟨by decide, by decide, by decide, by decide⟩

/-! ## Connections -/

theorem recalculate_str (ps qs : PGSettings) (h : recalculate ps = some qs) (k : String)
    (h0 : k ≠ "checkpoint_segments") (h1 : k ≠ "effective_io_concurrency")
    (h2 : k ≠ "max_worker_processes") (h3 : k ≠ "max_parallel_workers_per_gather")
    (h4 : k ≠ "max_parallel_workers") (h5 : k ≠ "max_parallel_maintenance_workers") :
    mapGet [] qs.strSettings k = mapGet [] (strSettingsBase ps) k := by
  unfold recalculate at h
  obtain ⟨_, _, _, _, _, _, _, a, _⟩ := workMemBlock_fields _ _ h
  rw [a, parallelBlock_str _ k h2 h3 h4 h5, ioConcurrencyBlock_str _ k h1,
    walSizeBlock_str _ k h0]

theorem NewPGSettings_max_connections (tbl : Char → Char) (a b c d e f g : String)
    (ps : PGSettings) (h : NewPGSettings tbl a b c d e f g = .ok ps) :
    mapGet [] ps.strSettings "max_connections" = maxConnections ps := by
  obtain ⟨ver, mem, _, _, _, _, _, _, _, _, _, _, hr⟩ := NewPGSettings_inv tbl a b c d e f g ps h
  obtain ⟨_, _, _, f4, _, _, _⟩ := recalculate_fields _ _ hr
  rw [recalculate_str _ _ hr "max_connections" (by decide) (by decide) (by decide) (by decide)
    (by decide) (by decide)]
  show maxConnections _ = maxConnections ps
  simp only [maxConnections, f4]

/-- C11: in a successfully constructed profile with a positive connection
count `c` the `max_connections` entry of each of the five workload types is
the decimal string of `c`; when the count is not positive the entries are the
defaults 200, 300, 40, 100, 20 for web, oltp, dw, mixed, desktop. -/
theorem max_connections_entries (tbl : Char → Char) (a b c d e f g : String)
    (ps : PGSettings) (h : NewPGSettings tbl a b c d e f g = .ok ps) :
    (0 < ps.dbConnections →
      ∀ t ∈ ["web", "oltp", "dw", "mixed", "desktop"],
        strGet (mapGet [] ps.strSettings "max_connections") t
          = Nat.repr ps.dbConnections.toNat) ∧
    (¬ 0 < ps.dbConnections →
      strGet (mapGet [] ps.strSettings "max_connections") "web" = "200" ∧
      strGet (mapGet [] ps.strSettings "max_connections") "oltp" = "300" ∧
      strGet (mapGet [] ps.strSettings "max_connections") "dw" = "40" ∧
      strGet (mapGet [] ps.strSettings "max_connections") "mixed" = "100" ∧
      strGet (mapGet [] ps.strSettings "max_connections") "desktop" = "20") := by
  rw [NewPGSettings_max_connections tbl a b c d e f g ps h]
  constructor
  · intro hc t ht
    have hc2 : ps.dbConnections > 0 := hc
    simp only [List.mem_cons, List.mem_singleton, List.not_mem_nil, or_false] at ht
    rw [← Itoa_of_nonneg ps.dbConnections (by omega)]
    unfold maxConnections
    simp only [if_pos hc2]
    rcases ht with h | h | h | h | h <;> subst h <;> rfl
  · intro hc
    have hc2 : ¬ ps.dbConnections > 0 := hc
    unfold maxConnections
    simp only [if_neg hc2]
    refine ⟨by decide, by decide, by decide, by decide, by decide⟩

/-! ## Keys of maps -/

theorem mapKeys_map_replace {α : Type} (m : List (String × α)) (k : String) (v : α) :
    mapKeys (m.map (fun kv => if kv.1 == k then (k, v) else kv)) = mapKeys m := by
  unfold mapKeys
  induction m with
  | nil => rfl
  | cons kv rest ih =>
    simp only [List.map_cons, List.cons.injEq]
    refine ⟨?_, ih⟩
    by_cases hk : kv.1 = k
    · have h1 : (kv.1 == k) = true := by simpa using hk
      rw [if_pos h1]
      exact hk.symm
    · have h1 : ¬ (kv.1 == k) = true := by simpa using hk
      rw [if_neg h1]

theorem any_key_iff {α : Type} (m : List (String × α)) (k : String) :
    m.any (fun kv => kv.1 == k) = true ↔ k ∈ mapKeys m := by
  unfold mapKeys
  induction m with
  | nil => simp
  | cons kv rest ih =>
    simp only [List.any_cons, Bool.or_eq_true, beq_iff_eq, List.map_cons, List.mem_cons, ih]
    constructor
    · rintro (h | h)
      · exact Or.inl h.symm
      · exact Or.inr h
    · rintro (h | h)
      · exact Or.inl h.symm
      · exact Or.inr h

theorem mem_mapKeys_mapSet {α : Type} (m : List (String × α)) (k : String) (v : α)
    (x : String) : x ∈ mapKeys (mapSet m k v) ↔ x = k ∨ x ∈ mapKeys m := by
  unfold mapSet
  split_ifs with h
  · rw [mapKeys_map_replace]
    have hk := (any_key_iff m k).1 h
    constructor
    · intro hx; exact Or.inr hx
    · rintro (hx | hx)
      · rw [hx]; exact hk
      · exact hx
  · unfold mapKeys
    simp only [List.map_append, List.map_cons, List.map_nil, List.mem_append,
      List.mem_singleton]
    constructor
    · rintro (hx | hx)
      · exact Or.inr hx
      · exact Or.inl hx
    · rintro (hx | hx)
      · exact Or.inr hx
      · exact Or.inl hx

theorem mem_mapKeys_foldl_mapSet {α : Type} (f : String → α) (l : List String) :
    ∀ (init : List (String × α)) (x : String),
      x ∈ mapKeys (l.foldl (fun m k => mapSet m k (f k)) init) ↔ x ∈ l ∨ x ∈ mapKeys init := by
  induction l with
  | nil => intro init x; simp
  | cons a rest ih =>
    intro init x
    rw [List.foldl_cons, ih, mem_mapKeys_mapSet, List.mem_cons]
    constructor
    · rintro (h | h | h)
      · exact Or.inl (Or.inr h)
      · exact Or.inl (Or.inl h)
      · exact Or.inr h
    · rintro ((h | h) | h)
      · exact Or.inr (Or.inl h)
      · exact Or.inl h
      · exact Or.inr (Or.inr h)

theorem mem_mapSet {α : Type} (m : List (String × α)) (k : String) (v : α)
    (kv : String × α) (h : kv ∈ mapSet m k v) : kv ∈ m ∨ kv = (k, v) := by
  unfold mapSet at h
  split_ifs at h with hany
  · obtain ⟨kv0, hm, he⟩ := List.mem_map.1 h
    split_ifs at he
    · exact Or.inr he.symm
    · rw [← he]; exact Or.inl hm
  · rcases List.mem_append.1 h with h | h
    · exact Or.inl h
    · exact Or.inr (List.mem_singleton.1 h)

theorem mem_foldl_mapSet {α : Type} (f : String → α) (l : List String) :
    ∀ (init : List (String × α)) (kv : String × α),
      kv ∈ l.foldl (fun m k => mapSet m k (f k)) init → kv ∈ init ∨ ∃ k ∈ l, kv = (k, f k) := by
  induction l with
  | nil => intro init kv h; exact Or.inl h
  | cons a rest ih =>
    intro init kv h
    rw [List.foldl_cons] at h
    rcases ih _ kv h with h1 | ⟨k, hk, he⟩
    · rcases mem_mapSet _ _ _ _ h1 with h2 | h2
      · exact Or.inl h2
      · exact Or.inr ⟨a, List.mem_cons_self _ _, h2⟩
    · exact Or.inr ⟨k, List.mem_cons_of_mem _ hk, he⟩

theorem lookup_of_mem_keys {α : Type} (m : List (String × α)) (k : String)
    (h : k ∈ mapKeys m) : ∃ v, m.lookup k = some v ∧ (k, v) ∈ m := by
  induction m with
  | nil => simp [mapKeys] at h
  | cons kv rest ih =>
    obtain ⟨a, b⟩ := kv
    by_cases hk : k = a
    · refine ⟨b, lookup_cons_eq _ _ _ _ hk, ?_⟩
      rw [hk]
      exact List.mem_cons_self _ _
    · have h2 : k ∈ mapKeys rest := by
        simp only [mapKeys, List.map_cons, List.mem_cons] at h
        rcases h with h | h
        · exact absurd h hk
        · exact h
      obtain ⟨v, hv, hm⟩ := ih h2
      exact ⟨v, by rw [lookup_cons_ne _ _ _ _ hk, hv], List.mem_cons_of_mem _ hm⟩

/-! ## End-to-end example -/

/-- Instance of `max_connections_entries`: web, 13, linux, 16 GB, default
connections. -/
theorem max_connections_entries_witness :
    (0 < linuxProfile.dbConnections →
      ∀ t ∈ ["web", "oltp", "dw", "mixed", "desktop"],
        strGet (mapGet [] linuxProfile.strSettings "max_connections") t
          = Nat.repr linuxProfile.dbConnections.toNat) ∧
    (¬ 0 < linuxProfile.dbConnections →
      strGet (mapGet [] linuxProfile.strSettings "max_connections") "web" = "200" ∧
      strGet (mapGet [] linuxProfile.strSettings "max_connections") "oltp" = "300" ∧
      strGet (mapGet [] linuxProfile.strSettings "max_connections") "dw" = "40" ∧
      strGet (mapGet [] linuxProfile.strSettings "max_connections") "mixed" = "100" ∧
      strGet (mapGet [] linuxProfile.strSettings "max_connections") "desktop" = "20") :=
  max_connections_entries id "web" "13" "linux" "16GB" "" "ssd" "4" linuxProfile (by decide)

/-- C17: `NewPGSettings("web", "13", "linux", "16GB", "", "ssd", "4")` succeeds
and on its profile `shared_buffers` is `4GB`, `max_connections` is `200`,
`effective_cache_size` is `12GB`, `max_worker_processes` is `4` and
`max_parallel_workers_per_gather` is `2`. -/
theorem end_to_end_example :
    NewPGSettings id "web" "13" "linux" "16GB" "" "ssd" "4" = .ok linuxProfile ∧
    GetMemSetting linuxProfile "shared_buffers" = .ok "4GB" ∧
    GetStrSetting linuxProfile "max_connections" = .ok "200" ∧
    GetMemSetting linuxProfile "effective_cache_size" = .ok "12GB" ∧
    GetStrSetting linuxProfile "max_worker_processes" = .ok "4" ∧
    GetStrSetting linuxProfile "max_parallel_workers_per_gather" = .ok "2" := by
  refine ⟨by decide, by decide, by decide, by decide, by decide, by decide⟩

/-! ## Keys of the derived tables -/

theorem walSizeBlock_str_keys (p : PGSettings) (x : String) :
    x ∈ mapKeys (walSizeBlock p).strSettings ↔
      (p.dbVersion < 95 ∧ x = "checkpoint_segments") ∨ x ∈ mapKeys p.strSettings := by
  unfold walSizeBlock
  by_cases h : p.dbVersion < 95
  · rw [if_pos h]
    simp only [mem_mapKeys_mapSet, h, true_and]
  · rw [if_neg h]
    simp only [h, false_and, false_or]

theorem walSizeBlock_mem_keys (p : PGSettings) (x : String) :
    x ∈ mapKeys (walSizeBlock p).memSettings ↔
      (¬ p.dbVersion < 95 ∧ (x = "min_wal_size" ∨ x = "max_wal_size")) ∨
        x ∈ mapKeys p.memSettings := by
  unfold walSizeBlock
  by_cases h : p.dbVersion < 95
  · rw [if_pos h]
    simp only [h, not_true_eq_false, false_and, false_or]
  · rw [if_neg h]
    simp only [mem_mapKeys_mapSet, h, not_false_eq_true, true_and]
    constructor
    · rintro (h1 | h1 | h1)
      · exact Or.inl (Or.inr h1)
      · exact Or.inl (Or.inl h1)
      · exact Or.inr h1
    · rintro ((h1 | h1) | h1)
      · exact Or.inr (Or.inl h1)
      · exact Or.inl h1
      · exact Or.inr (Or.inr h1)

theorem ioConcurrencyBlock_str_keys (p : PGSettings) (x : String) :
    x ∈ mapKeys (ioConcurrencyBlock p).strSettings ↔
      (p.dbPlatform = "linux" ∧ x = "effective_io_concurrency") ∨ x ∈ mapKeys p.strSettings := by
  unfold ioConcurrencyBlock
  by_cases h : p.dbPlatform = "linux"
  · rw [if_pos h]
    simp only [mem_mapKeys_mapSet, h, true_and]
  · rw [if_neg h]
    simp only [h, false_and, false_or]

theorem parallelBlock_str_keys (p : PGSettings) (x : String) :
    x ∈ mapKeys (parallelBlock p).strSettings ↔
      (p.dbVersion > 95 ∧ p.dbCPU > 2 ∧
        (x = "max_worker_processes" ∨
         (p.dbVersion ≥ 96 ∧ x = "max_parallel_workers_per_gather") ∨
         (p.dbVersion ≥ 100 ∧ x = "max_parallel_workers") ∨
         (p.dbVersion ≥ 110 ∧ x = "max_parallel_maintenance_workers"))) ∨
      x ∈ mapKeys p.strSettings := by
  unfold parallelBlock
  by_cases h : p.dbVersion > 95 ∧ p.dbCPU > 2
  · rw [if_pos h]
    simp only []
    by_cases h96 : p.dbVersion ≥ 96 <;> by_cases h100 : p.dbVersion ≥ 100 <;>
      by_cases h110 : p.dbVersion ≥ 110 <;>
      simp only [h96, h100, h110, if_true, if_false, mem_mapKeys_mapSet, h.1, h.2, true_and,
        false_and, false_or, or_false] <;> tauto
  · rw [if_neg h]
    constructor
    · intro hx; exact Or.inr hx
    · rintro (⟨h1, h2, _⟩ | hx)
      · exact absurd ⟨h1, h2⟩ h
      · exact hx

theorem workMemBlock_mem_keys (p q : PGSettings) (h : workMemBlock p = some q) (x : String) :
    x ∈ mapKeys q.memSettings ↔ (p.dbVersion > 95 ∧ x = "work_mem") ∨ x ∈ mapKeys p.memSettings := by
  unfold workMemBlock at h
  by_cases hv : p.dbVersion > 95
  · rw [if_pos hv] at h
    cases hl : workMemLoop p DbTypes (parallelForWorkMemDefault p) [] with
    | none => rw [hl] at h; exact Option.noConfusion h
    | some wm =>
      rw [hl] at h
      simp only [Option.some.injEq] at h
      subst h
      simp only [mem_mapKeys_mapSet, hv, true_and]
  · rw [if_neg hv] at h
    simp only [Option.some.injEq] at h
    subst h
    simp only [hv, false_and, false_or]

theorem strSettingsBase_keys (ps : PGSettings) (x : String) :
    x ∈ mapKeys (strSettingsBase ps) ↔
      x ∈ ["max_connections", "checkpoint_completion_target", "default_statistics_target",
           "random_page_cost"] := Iff.rfl

theorem memSettingsBase_keys (ps : PGSettings) (x : String) :
    x ∈ mapKeys (memSettingsBase ps) ↔
      x ∈ ["shared_buffers", "effective_cache_size", "maintenance_work_mem", "wal_buffers"] :=
  Iff.rfl

/-- Keys of the scalar-valued table after `recalculate`. -/
theorem recalculate_str_keys (ps qs : PGSettings) (h : recalculate ps = some qs) (x : String) :
    x ∈ mapKeys qs.strSettings ↔
      x ∈ ["max_connections", "checkpoint_completion_target", "default_statistics_target",
           "random_page_cost"] ∨
      (ps.dbVersion < 95 ∧ x = "checkpoint_segments") ∨
      (ps.dbPlatform = "linux" ∧ x = "effective_io_concurrency") ∨
      (ps.dbVersion > 95 ∧ ps.dbCPU > 2 ∧
        (x = "max_worker_processes" ∨
         (ps.dbVersion ≥ 96 ∧ x = "max_parallel_workers_per_gather") ∨
         (ps.dbVersion ≥ 100 ∧ x = "max_parallel_workers") ∨
         (ps.dbVersion ≥ 110 ∧ x = "max_parallel_maintenance_workers"))) := by
  unfold recalculate at h
  obtain ⟨_, _, _, _, _, _, _, a, _⟩ := workMemBlock_fields _ _ h
  have hw := walSizeBlock_fields
    { ps with memSettings := memSettingsBase ps, strSettings := strSettingsBase ps }
  have hwk := walSizeBlock_str_keys
    { ps with memSettings := memSettingsBase ps, strSettings := strSettingsBase ps } x
  rw [a]
  clear h a
  generalize walSizeBlock
    { ps with memSettings := memSettingsBase ps, strSettings := strSettingsBase ps } = p1
    at hw hwk ⊢
  have hi := ioConcurrencyBlock_fields p1
  have hik := ioConcurrencyBlock_str_keys p1 x
  generalize ioConcurrencyBlock p1 = p2 at hi hik ⊢
  rw [parallelBlock_str_keys, hik, hwk, strSettingsBase_keys]
  obtain ⟨_, w2, w3, _, _, w6, _⟩ := hw
  obtain ⟨_, i2, i3, _, _, i6, _, _⟩ := hi
  rw [i2, i6, w2, w6, w3]
  simp only []
  constructor
  · rintro (h | h | h | h)
    · exact Or.inr (Or.inr (Or.inr h))
    · exact Or.inr (Or.inr (Or.inl h))
    · exact Or.inr (Or.inl h)
    · exact Or.inl h
  · rintro (h | h | h | h)
    · exact Or.inr (Or.inr (Or.inr h))
    · exact Or.inr (Or.inr (Or.inl h))
    · exact Or.inr (Or.inl h)
    · exact Or.inl h

/-- Keys of the memory-valued table after `recalculate`. -/
theorem recalculate_mem_keys (ps qs : PGSettings) (h : recalculate ps = some qs) (x : String) :
    x ∈ mapKeys qs.memSettings ↔
      x ∈ ["shared_buffers", "effective_cache_size", "maintenance_work_mem", "wal_buffers"] ∨
      (¬ ps.dbVersion < 95 ∧ (x = "min_wal_size" ∨ x = "max_wal_size")) ∨
      (ps.dbVersion > 95 ∧ x = "work_mem") := by
  unfold recalculate at h
  have hk := workMemBlock_mem_keys _ _ h x
  have hw := walSizeBlock_fields
    { ps with memSettings := memSettingsBase ps, strSettings := strSettingsBase ps }
  have hwk := walSizeBlock_mem_keys
    { ps with memSettings := memSettingsBase ps, strSettings := strSettingsBase ps } x
  clear h
  generalize walSizeBlock
    { ps with memSettings := memSettingsBase ps, strSettings := strSettingsBase ps } = p1
    at hw hwk hk
  have hi := ioConcurrencyBlock_fields p1
  generalize ioConcurrencyBlock p1 = p2 at hi hk
  have hp := parallelBlock_fields p2
  generalize parallelBlock p2 = p3 at hp hk
  obtain ⟨_, w2, _, _, _, _, _⟩ := hw
  obtain ⟨_, i2, _, _, _, _, _, im⟩ := hi
  obtain ⟨_, p2v, _, _, _, _, _, pm⟩ := hp
  rw [hk, pm, im, hwk, memSettingsBase_keys, p2v, i2, w2]
  simp only []
  constructor
  · rintro (h | h | h)
    · exact Or.inr (Or.inr h)
    · exact Or.inr (Or.inl h)
    · exact Or.inl h
  · rintro (h | h | h)
    · exact Or.inr (Or.inr h)
    · exact Or.inr (Or.inl h)
    · exact Or.inl h

/-! ## Keys of the settings -/

theorem GetSettings_keys (ps : PGSettings) (x : String) :
    x ∈ mapKeys (GetSettings ps) ↔ x ∈ mapKeys ps.memSettings ∨ x ∈ mapKeys ps.strSettings := by
  unfold GetSettings
  simp only []
  rw [mem_mapKeys_foldl_mapSet, mem_mapKeys_foldl_mapSet]
  constructor
  · rintro (h | h | h)
    · exact Or.inr h
    · exact Or.inl h
    · simp [mapKeys] at h
  · rintro (h | h)
    · exact Or.inr (Or.inl h)
    · exact Or.inl h

theorem NewPGSettings_keys (tbl : Char → Char) (a b c d e f g : String) (ps : PGSettings)
    (h : NewPGSettings tbl a b c d e f g = .ok ps) (x : String) :
    (x ∈ mapKeys ps.strSettings ↔
      x ∈ ["max_connections", "checkpoint_completion_target", "default_statistics_target",
           "random_page_cost"] ∨
      (ps.dbVersion < 95 ∧ x = "checkpoint_segments") ∨
      (ps.dbPlatform = "linux" ∧ x = "effective_io_concurrency") ∨
      (ps.dbVersion > 95 ∧ ps.dbCPU > 2 ∧
        (x = "max_worker_processes" ∨
         (ps.dbVersion ≥ 96 ∧ x = "max_parallel_workers_per_gather") ∨
         (ps.dbVersion ≥ 100 ∧ x = "max_parallel_workers") ∨
         (ps.dbVersion ≥ 110 ∧ x = "max_parallel_maintenance_workers")))) ∧
    (x ∈ mapKeys ps.memSettings ↔
      x ∈ ["shared_buffers", "effective_cache_size", "maintenance_work_mem", "wal_buffers"] ∨
      (¬ ps.dbVersion < 95 ∧ (x = "min_wal_size" ∨ x = "max_wal_size")) ∨
      (ps.dbVersion > 95 ∧ x = "work_mem")) := by
  obtain ⟨ver, mem, _, _, _, _, _, _, _, _, _, _, hr⟩ := NewPGSettings_inv tbl a b c d e f g ps h
  obtain ⟨_, f2, f3, _, _, f6, _⟩ := recalculate_fields _ _ hr
  rw [f2, f3, f6]
  exact ⟨recalculate_str_keys _ _ hr x, recalculate_mem_keys _ _ hr x⟩

/-- C14: the key set of `GetSettings()` of a successfully constructed profile is
the eight always-present names, plus `checkpoint_segments` iff version < 9.5,
`min_wal_size` and `max_wal_size` iff version ≥ 9.5, `effective_io_concurrency`
iff platform = linux, `max_worker_processes` iff version > 9.5 and CPU > 2,
`max_parallel_workers_per_gather` iff version ≥ 9.6 and CPU > 2,
`max_parallel_workers` iff version ≥ 10 and CPU > 2,
`max_parallel_maintenance_workers` iff version ≥ 11 and CPU > 2, and `work_mem`
iff version > 9.5 (versions in tenths). -/
theorem GetSettings_key_set (tbl : Char → Char) (a b c d e f g : String) (ps : PGSettings)
    (h : NewPGSettings tbl a b c d e f g = .ok ps) (name : String) :
    name ∈ mapKeys (GetSettings ps) ↔
      name ∈ ["shared_buffers", "effective_cache_size", "maintenance_work_mem", "wal_buffers",
              "max_connections", "checkpoint_completion_target", "default_statistics_target",
              "random_page_cost"] ∨
      (name = "checkpoint_segments" ∧ ps.dbVersion < 95) ∨
      ((name = "min_wal_size" ∨ name = "max_wal_size") ∧ ps.dbVersion ≥ 95) ∨
      (name = "effective_io_concurrency" ∧ ps.dbPlatform = "linux") ∨
      (name = "max_worker_processes" ∧ ps.dbVersion > 95 ∧ ps.dbCPU > 2) ∨
      (name = "max_parallel_workers_per_gather" ∧ ps.dbVersion ≥ 96 ∧ ps.dbCPU > 2) ∨
      (name = "max_parallel_workers" ∧ ps.dbVersion ≥ 100 ∧ ps.dbCPU > 2) ∨
      (name = "max_parallel_maintenance_workers" ∧ ps.dbVersion ≥ 110 ∧ ps.dbCPU > 2) ∨
      (name = "work_mem" ∧ ps.dbVersion > 95) := by
  obtain ⟨hs, hm⟩ := NewPGSettings_keys tbl a b c d e f g ps h name
  rw [GetSettings_keys, hs, hm]
  simp only [List.mem_cons, List.mem_singleton, List.not_mem_nil, or_false]
  constructor
  · rintro ((h1 | ⟨h1, h2⟩ | ⟨h1, h2⟩) | (h1 | ⟨h1, h2⟩ | ⟨h1, h2⟩ | ⟨h1, h2, h3⟩))
    · rcases h1 with h1 | h1 | h1 | h1 <;> simp [h1]
    · right; right; left
      exact ⟨h2, by omega⟩
    · right; right; right; right; right; right; right; right
      exact ⟨h2, h1⟩
    · rcases h1 with h1 | h1 | h1 | h1 <;> simp [h1]
    · right; left
      exact ⟨h2, h1⟩
    · right; right; right; left
      exact ⟨h2, h1⟩
    · rcases h3 with h3 | ⟨h3, h4⟩ | ⟨h3, h4⟩ | ⟨h3, h4⟩
      · right; right; right; right; left
        exact ⟨h3, h1, h2⟩
      · right; right; right; right; right; left
        exact ⟨h4, h3, h2⟩
      · right; right; right; right; right; right; left
        exact ⟨h4, h3, h2⟩
      · right; right; right; right; right; right; right; left
        exact ⟨h4, h3, h2⟩
  · rintro (h1 | ⟨h1, h2⟩ | ⟨h1, h2⟩ | ⟨h1, h2⟩ | ⟨h1, h2, h3⟩ | ⟨h1, h2, h3⟩ | ⟨h1, h2, h3⟩ |
      ⟨h1, h2, h3⟩ | ⟨h1, h2⟩)
    · rcases h1 with h1 | h1 | h1 | h1 | h1 | h1 | h1 | h1 <;> simp [h1]
    · exact Or.inr (Or.inr (Or.inl ⟨h2, h1⟩))
    · exact Or.inl (Or.inr (Or.inl ⟨by omega, h1⟩))
    · exact Or.inr (Or.inr (Or.inr (Or.inl ⟨h2, h1⟩)))
    · exact Or.inr (Or.inr (Or.inr (Or.inr ⟨h2, h3, Or.inl h1⟩)))
    · exact Or.inr (Or.inr (Or.inr (Or.inr ⟨by omega, h3, Or.inr (Or.inl ⟨h2, h1⟩)⟩)))
    · exact Or.inr (Or.inr (Or.inr (Or.inr ⟨by omega, h3, Or.inr (Or.inr (Or.inl ⟨h2, h1⟩))⟩)))
    · exact Or.inr (Or.inr (Or.inr (Or.inr ⟨by omega, h3, Or.inr (Or.inr (Or.inr ⟨h2, h1⟩))⟩)))
    · exact Or.inl (Or.inr (Or.inr ⟨h2, h1⟩))

/-! ## Accessors -/

theorem ParseFloat_values (b : String) (ver : Int) (h : b ∈ DbVersions)
    (hv : ParseFloat b = some ver) : ver ∈ [94, 95, 96, 100, 110, 120, 130, 140] := by
  simp only [DbVersions, List.mem_cons, List.mem_singleton, List.not_mem_nil, or_false] at h
  rcases h with h | h | h | h | h | h | h | h <;> subst h
  · have hk : ParseFloat "9.4" = some 94 := by decide
    rw [hk] at hv; cases hv; decide
  · have hk : ParseFloat "9.5" = some 95 := by decide
    rw [hk] at hv; cases hv; decide
  · have hk : ParseFloat "9.6" = some 96 := by decide
    rw [hk] at hv; cases hv; decide
  · have hk : ParseFloat "10" = some 100 := by decide
    rw [hk] at hv; cases hv; decide
  · have hk : ParseFloat "11" = some 110 := by decide
    rw [hk] at hv; cases hv; decide
  · have hk : ParseFloat "12" = some 120 := by decide
    rw [hk] at hv; cases hv; decide
  · have hk : ParseFloat "13" = some 130 := by decide
    rw [hk] at hv; cases hv; decide
  · have hk : ParseFloat "14" = some 140 := by decide
    rw [hk] at hv; cases hv; decide

/-- Fields of a successfully constructed profile. -/
theorem NewPGSettings_profile (tbl : Char → Char) (a b c d e f g : String) (ps : PGSettings)
    (h : NewPGSettings tbl a b c d e f g = .ok ps) :
    ps.dbType ∈ DbTypes ∧ ps.dbVersion ∈ [94, 95, 96, 100, 110, 120, 130, 140] ∧
    ps.dbPlatform ∈ DbPlatforms ∧ ps.dbStorage ∈ DbStorages ∧
    ps.dbConnections < 9223372036854775808 ∧ ps.dbCPU < 9223372036854775808 ∧
    ∃ p0 : PGSettings, recalculate p0 = some ps ∧ p0.dbType = ps.dbType ∧
      p0.dbVersion = ps.dbVersion ∧ p0.dbPlatform = ps.dbPlatform ∧
      p0.dbConnections = ps.dbConnections ∧ p0.dbStorage = ps.dbStorage ∧
      p0.dbCPU = ps.dbCPU ∧ p0.totalMemory = ps.totalMemory := by
  obtain ⟨ver, mem, h1, h2, h2v, _, _, h3, h4, h5, h6, h7, hr⟩ :=
    NewPGSettings_inv tbl a b c d e f g ps h
  obtain ⟨f1, f2, f3, f4, f5, f6, f7⟩ := recalculate_fields _ _ hr
  obtain ⟨r1, r2⟩ := validatedFields_range tbl a c e f g ver mem h5 h7
  refine ⟨?_, ?_, ?_, ?_, ?_, ?_, validatedFields tbl a ver c mem e f g, hr,
    f1.symm, f2.symm, f3.symm, f4.symm, f5.symm, f6.symm, f7.symm⟩
  · rw [f1]; exact h1
  · rw [f2]; exact ParseFloat_values b ver h2 h2v
  · rw [f3]; exact h3
  · rw [f5]; exact h6
  · rw [f4]; exact r1
  · rw [f6]; exact r2

theorem Itoa_ne_empty (i : Int) : Itoa i ≠ "" := by
  unfold Itoa
  split_ifs
  · intro h
    have := congrArg String.data h
    simp at this
  · intro h
    exact (repr_spec i.toNat).2.1 (congrArg String.data h)

theorem append_ne_empty (s t : String) (h : s ≠ "") : s ++ t ≠ "" := by
  intro h0
  apply h
  have := congrArg String.data h0
  simp only [String.data_append] at this
  have h2 : s.data = [] := (List.append_eq_nil.1 this).1
  exact String.ext h2

theorem Get_ne_empty (m : DbMemory) : m.Get ≠ "" := by
  unfold DbMemory.Get
  split_ifs
  · exact append_ne_empty _ _ (Itoa_ne_empty _)
  · exact append_ne_empty _ _ (Itoa_ne_empty _)
  · exact append_ne_empty _ _ (Itoa_ne_empty _)
  · exact Itoa_ne_empty _

theorem any_keys_eq_true {α : Type} (m : List (String × α)) (name : String) :
    (mapKeys m).any (fun k => k == name) = true ↔ name ∈ mapKeys m :=
  any_beq_iff_mem (mapKeys m) name

theorem GetMemSetting_of_key (ps : PGSettings) (name : String)
    (h : name ∈ mapKeys ps.memSettings) :
    ∃ v, GetMemSetting ps name = .ok v ∧ v ≠ "" := by
  unfold GetMemSetting
  rw [if_pos ((any_keys_eq_true _ _).2 h)]
  simp only []
  rw [if_pos (Get_ne_empty _)]
  exact ⟨_, rfl, Get_ne_empty _⟩

theorem GetMemSetting_of_not_key (ps : PGSettings) (name : String)
    (h : name ∉ mapKeys ps.memSettings) :
    GetMemSetting ps name = .error (.invalidSetting name) := by
  unfold GetMemSetting
  rw [if_neg (fun h0 => h ((any_keys_eq_true _ _).1 h0))]

theorem GetStrSetting_of_not_key (ps : PGSettings) (name : String)
    (h : name ∉ mapKeys ps.strSettings) :
    GetStrSetting ps name = .error (.invalidSetting name) := by
  unfold GetStrSetting
  rw [if_neg (fun h0 => h ((any_keys_eq_true _ _).1 h0))]

theorem GetStrSetting_of_key (ps : PGSettings) (name : String)
    (h : name ∈ mapKeys ps.strSettings)
    (hg : strGet (mapGet [] ps.strSettings name) ps.dbType ≠ "" ∨
      strGet (mapGet [] ps.strSettings name) ps.dbStorage ≠ "") :
    ∃ v, GetStrSetting ps name = .ok v ∧ v ≠ "" := by
  unfold GetStrSetting
  rw [if_pos ((any_keys_eq_true _ _).2 h)]
  simp only []
  by_cases h1 : strGet (mapGet [] ps.strSettings name) ps.dbType ≠ ""
  · rw [if_pos h1]
    exact ⟨_, rfl, h1⟩
  · rw [if_neg h1]
    have h2 := hg.resolve_left h1
    rw [if_pos h2]
    exact ⟨_, rfl, h2⟩

/-! ## Answers of the accessors -/

theorem mapGet_of_mem_keys {α : Type} (z : α) (m : List (String × α)) (k : String)
    (h : k ∈ mapKeys m) : (k, mapGet z m k) ∈ m := by
  obtain ⟨v, hv, hm⟩ := lookup_of_mem_keys m k h
  unfold mapGet
  rw [hv]
  exact hm

theorem mapSet_answers (ty st : String) (m : List (String × StrValue)) (k : String)
    (v : StrValue)
    (hm : ∀ kv ∈ m, strGet kv.2 ty ≠ "" ∨ strGet kv.2 st ≠ "")
    (hv : strGet v ty ≠ "" ∨ strGet v st ≠ "") :
    ∀ kv ∈ mapSet m k v, strGet kv.2 ty ≠ "" ∨ strGet kv.2 st ≠ "" := by
  intro kv hkv
  rcases mem_mapSet m k v kv hkv with h | h
  · exact hm kv h
  · rw [h]; exact hv

theorem fillTypes_answers (x ty st : String) (hx : x ≠ "") (ht : ty ∈ DbTypes) :
    strGet (fillTypes (fun _ => x)) ty ≠ "" ∨ strGet (fillTypes (fun _ => x)) st ≠ "" := by
  left
  rw [strGet_fillTypes x ty ht]
  exact hx

theorem strSettingsBase_answers (ps : PGSettings) (ty st : String) (ht : ty ∈ DbTypes)
    (hs : st ∈ DbStorages) :
    ∀ kv ∈ strSettingsBase ps, strGet kv.2 ty ≠ "" ∨ strGet kv.2 st ≠ "" := by
  intro kv hkv
  simp only [strSettingsBase, List.mem_cons, List.mem_singleton, List.not_mem_nil,
    or_false] at hkv
  rcases hkv with h | h | h | h <;> rw [h]
  · left
    obtain ⟨c, _, _, hc⟩ := maxConnections_get ps ty ht
    simp only []
    rw [hc]
    exact Itoa_ne_empty c
  · left
    simp only [DbTypes, List.mem_cons, List.mem_singleton, List.not_mem_nil, or_false] at ht
    rcases ht with h | h | h | h | h <;> subst h <;> decide
  · left
    simp only [DbTypes, List.mem_cons, List.mem_singleton, List.not_mem_nil, or_false] at ht
    rcases ht with h | h | h | h | h <;> subst h <;> decide
  · right
    simp only [DbStorages, List.mem_cons, List.mem_singleton, List.not_mem_nil, or_false] at hs
    rcases hs with h | h | h <;> subst h <;> decide

theorem walSizeBlock_answers (p : PGSettings) (ty st : String) (ht : ty ∈ DbTypes)
    (hp : ∀ kv ∈ p.strSettings, strGet kv.2 ty ≠ "" ∨ strGet kv.2 st ≠ "") :
    ∀ kv ∈ (walSizeBlock p).strSettings, strGet kv.2 ty ≠ "" ∨ strGet kv.2 st ≠ "" := by
  unfold walSizeBlock
  by_cases h : p.dbVersion < 95
  · rw [if_pos h]
    simp only []
    apply mapSet_answers ty st _ _ _ hp
    left
    simp only [DbTypes, List.mem_cons, List.mem_singleton, List.not_mem_nil, or_false] at ht
    rcases ht with h | h | h | h | h <;> subst h <;> decide
  · rw [if_neg h]
    exact hp

theorem ioConcurrencyBlock_answers (p : PGSettings) (ty st : String) (hs : st ∈ DbStorages)
    (hp : ∀ kv ∈ p.strSettings, strGet kv.2 ty ≠ "" ∨ strGet kv.2 st ≠ "") :
    ∀ kv ∈ (ioConcurrencyBlock p).strSettings, strGet kv.2 ty ≠ "" ∨ strGet kv.2 st ≠ "" := by
  unfold ioConcurrencyBlock
  by_cases h : p.dbPlatform = "linux"
  · rw [if_pos h]
    simp only []
    apply mapSet_answers ty st _ _ _ hp
    right
    simp only [DbStorages, List.mem_cons, List.mem_singleton, List.not_mem_nil, or_false] at hs
    rcases hs with h | h | h <;> subst h <;> decide
  · rw [if_neg h]
    exact hp

theorem parallelBlock_answers (p : PGSettings) (ty st : String) (ht : ty ∈ DbTypes)
    (hp : ∀ kv ∈ p.strSettings, strGet kv.2 ty ≠ "" ∨ strGet kv.2 st ≠ "") :
    ∀ kv ∈ (parallelBlock p).strSettings, strGet kv.2 ty ≠ "" ∨ strGet kv.2 st ≠ "" := by
  unfold parallelBlock
  by_cases h : p.dbVersion > 95 ∧ p.dbCPU > 2
  · rw [if_pos h]
    simp only []
    have a1 := mapSet_answers ty st _ "max_worker_processes"
      (fillTypes (fun _ => Itoa p.dbCPU)) hp
      (fillTypes_answers _ ty st (Itoa_ne_empty _) ht)
    have hg : (if p.dbType ≠ "dw" ∧ ceilHalfFloat p.dbCPU > 4 then Itoa 4
        else Itoa (ceilHalfFloat p.dbCPU)) ≠ "" := by
      split_ifs
      · exact Itoa_ne_empty _
      · exact Itoa_ne_empty _
    by_cases h96 : p.dbVersion ≥ 96
    · rw [if_pos h96]
      have a2 := mapSet_answers ty st _ "max_parallel_workers_per_gather"
        (fillTypes (fun _ => if p.dbType ≠ "dw" ∧ ceilHalfFloat p.dbCPU > 4 then Itoa 4
          else Itoa (ceilHalfFloat p.dbCPU))) a1
        (fillTypes_answers _ ty st hg ht)
      by_cases h100 : p.dbVersion ≥ 100
      · rw [if_pos h100]
        have a3 := mapSet_answers ty st _ "max_parallel_workers"
          (fillTypes (fun _ => Itoa p.dbCPU)) a2
          (fillTypes_answers _ ty st (Itoa_ne_empty _) ht)
        by_cases h110 : p.dbVersion ≥ 110
        · rw [if_pos h110]
          exact mapSet_answers ty st _ _ _ a3 (fillTypes_answers _ ty st (Itoa_ne_empty _) ht)
        · rw [if_neg h110]
          exact a3
      · rw [if_neg h100]
        by_cases h110 : p.dbVersion ≥ 110
        · exact absurd (by omega : p.dbVersion ≥ 100) h100
        · rw [if_neg h110]
          exact a2
    · rw [if_neg h96]
      have h100 : ¬ p.dbVersion ≥ 100 := by omega
      have h110 : ¬ p.dbVersion ≥ 110 := by omega
      rw [if_neg h100, if_neg h110]
      exact a1
  · rw [if_neg h]
    exact hp

/-- Every table of the scalar-valued derived tables has a non-empty entry for
the workload type or for the storage class of the profile. -/
theorem recalculate_answers (ps qs : PGSettings) (h : recalculate ps = some qs)
    (ht : ps.dbType ∈ DbTypes) (hs : ps.dbStorage ∈ DbStorages) :
    ∀ kv ∈ qs.strSettings, strGet kv.2 qs.dbType ≠ "" ∨ strGet kv.2 qs.dbStorage ≠ "" := by
  obtain ⟨f1, _, _, _, f5, _, _⟩ := recalculate_fields ps qs h
  rw [f1, f5]
  unfold recalculate at h
  obtain ⟨_, _, _, _, _, _, _, a, _⟩ := workMemBlock_fields _ _ h
  rw [a]
  clear h a
  have h1 := walSizeBlock_answers
    { ps with memSettings := memSettingsBase ps, strSettings := strSettingsBase ps }
    ps.dbType ps.dbStorage ht (strSettingsBase_answers ps ps.dbType ps.dbStorage ht hs)
  generalize walSizeBlock
    { ps with memSettings := memSettingsBase ps, strSettings := strSettingsBase ps } = p1
    at h1 ⊢
  have h2 := ioConcurrencyBlock_answers p1 ps.dbType ps.dbStorage hs h1
  generalize ioConcurrencyBlock p1 = p2 at h2 ⊢
  exact parallelBlock_answers p2 ps.dbType ps.dbStorage ht h2

theorem NewPGSettings_answers (tbl : Char → Char) (a b c d e f g : String) (ps : PGSettings)
    (h : NewPGSettings tbl a b c d e f g = .ok ps) (name : String)
    (hk : name ∈ mapKeys ps.strSettings) :
    strGet (mapGet [] ps.strSettings name) ps.dbType ≠ "" ∨
      strGet (mapGet [] ps.strSettings name) ps.dbStorage ≠ "" := by
  obtain ⟨h1, _, _, h4, _, _, p0, hr, g1, _, _, _, g5, _, _⟩ :=
    NewPGSettings_profile tbl a b c d e f g ps h
  have := recalculate_answers p0 ps hr (by rw [g1]; exact h1) (by rw [g5]; exact h4)
  exact this _ (mapGet_of_mem_keys [] ps.strSettings name hk)

theorem GetStrSetting_ok_iff (tbl : Char → Char) (a b c d e f g : String) (ps : PGSettings)
    (h : NewPGSettings tbl a b c d e f g = .ok ps) (name : String) :
    (name ∈ mapKeys ps.strSettings → ∃ v, GetStrSetting ps name = .ok v ∧ v ≠ "") ∧
    (name ∉ mapKeys ps.strSettings →
      GetStrSetting ps name = .error (.invalidSetting name)) :=
  ⟨fun hk => GetStrSetting_of_key ps name hk (NewPGSettings_answers tbl a b c d e f g ps h name hk),
   GetStrSetting_of_not_key ps name⟩

theorem GetSettings_values (tbl : Char → Char) (a b c d e f g : String) (ps : PGSettings)
    (h : NewPGSettings tbl a b c d e f g = .ok ps) :
    ∀ kv ∈ GetSettings ps, kv.2 ≠ "" := by
  intro kv hkv
  unfold GetSettings at hkv
  simp only [] at hkv
  rcases mem_foldl_mapSet _ _ _ kv hkv with h1 | ⟨k, hk, he⟩
  · rcases mem_foldl_mapSet _ _ _ kv h1 with h2 | ⟨k, hk, he⟩
    · simp at h2
    · obtain ⟨v, hv, hne⟩ := GetMemSetting_of_key ps k hk
      rw [he, hv]
      exact hne
  · obtain ⟨v, hv, hne⟩ :=
      GetStrSetting_of_key ps k hk (NewPGSettings_answers tbl a b c d e f g ps h k hk)
    rw [he, hv]
    exact hne

/-- C15: on a successfully constructed profile `GetStrSetting(name)` fails
exactly when `name` is not a key of the scalar-valued derived table and
`GetMemSetting(name)` fails exactly when `name` is not a key of the
memory-valued derived table (a failure is the invalid-setting error, a success
a non-empty string); every key of `GetSettings()` is a key of one of the two
tables, `nonexistent_key` is not among them, and no value of `GetSettings()` is
the empty string. -/
theorem accessors_error_iff (tbl : Char → Char) (a b c d e f g : String) (ps : PGSettings)
    (h : NewPGSettings tbl a b c d e f g = .ok ps) :
    (∀ name, (∃ err, GetStrSetting ps name = .error err) ↔ name ∉ mapKeys ps.strSettings) ∧
    (∀ name, name ∉ mapKeys ps.strSettings →
      GetStrSetting ps name = .error (.invalidSetting name)) ∧
    (∀ name, (∃ err, GetMemSetting ps name = .error err) ↔ name ∉ mapKeys ps.memSettings) ∧
    (∀ name, name ∉ mapKeys ps.memSettings →
      GetMemSetting ps name = .error (.invalidSetting name)) ∧
    (∀ name ∈ mapKeys (GetSettings ps),
      name ∈ mapKeys ps.memSettings ∨ name ∈ mapKeys ps.strSettings) ∧
    "nonexistent_key" ∉ mapKeys (GetSettings ps) ∧
    (∃ err, GetStrSetting ps "nonexistent_key" = .error err) ∧
    (∀ kv ∈ GetSettings ps, kv.2 ≠ "") := by
  have hstr : ∀ name, (∃ err, GetStrSetting ps name = .error err) ↔
      name ∉ mapKeys ps.strSettings := by
    intro name
    constructor
    · rintro ⟨err, he⟩ hk
      obtain ⟨v, hv, _⟩ :=
        GetStrSetting_of_key ps name hk (NewPGSettings_answers tbl a b c d e f g ps h name hk)
      rw [hv] at he
      exact Except.noConfusion he
    · intro hk
      exact ⟨_, GetStrSetting_of_not_key ps name hk⟩
  have hmem : ∀ name, (∃ err, GetMemSetting ps name = .error err) ↔
      name ∉ mapKeys ps.memSettings := by
    intro name
    constructor
    · rintro ⟨err, he⟩ hk
      obtain ⟨v, hv, _⟩ := GetMemSetting_of_key ps name hk
      rw [hv] at he
      exact Except.noConfusion he
    · intro hk
      exact ⟨_, GetMemSetting_of_not_key ps name hk⟩
  have hne : "nonexistent_key" ∉ mapKeys (GetSettings ps) := by
    intro hk
    obtain ⟨hs, hm⟩ := NewPGSettings_keys tbl a b c d e f g ps h "nonexistent_key"
    rcases (GetSettings_keys ps _).1 hk with h1 | h1
    · have := hm.1 h1
      revert this
      simp
    · have := hs.1 h1
      revert this
      simp
  have hns : "nonexistent_key" ∉ mapKeys ps.strSettings := fun hk =>
    hne ((GetSettings_keys ps _).2 (Or.inr hk))
  exact ⟨hstr, fun name => GetStrSetting_of_not_key ps name, hmem,
    fun name => GetMemSetting_of_not_key ps name,
    fun name hk => (GetSettings_keys ps name).1 hk, hne, (hstr _).2 hns,
    GetSettings_values tbl a b c d e f g ps h⟩

/-! ## Storage-keyed answers -/

/-- Instance of `accessors_error_iff`: web, 13, linux, 16 GB, ssd, 4 CPUs. -/
theorem accessors_error_iff_witness :
    NewPGSettings id "web" "13" "linux" "16GB" "" "ssd" "4" = .ok linuxProfile ∧
    ((∀ name, (∃ err, GetStrSetting linuxProfile name = .error err) ↔
      name ∉ mapKeys linuxProfile.strSettings) ∧
    (∀ name, name ∉ mapKeys linuxProfile.strSettings →
      GetStrSetting linuxProfile name = .error (.invalidSetting name)) ∧
    (∀ name, (∃ err, GetMemSetting linuxProfile name = .error err) ↔
      name ∉ mapKeys linuxProfile.memSettings) ∧
    (∀ name, name ∉ mapKeys linuxProfile.memSettings →
      GetMemSetting linuxProfile name = .error (.invalidSetting name)) ∧
    (∀ name ∈ mapKeys (GetSettings linuxProfile),
      name ∈ mapKeys linuxProfile.memSettings ∨ name ∈ mapKeys linuxProfile.strSettings) ∧
    "nonexistent_key" ∉ mapKeys (GetSettings linuxProfile) ∧
    (∃ err, GetStrSetting linuxProfile "nonexistent_key" = .error err) ∧
    (∀ kv ∈ GetSettings linuxProfile, kv.2 ≠ "")) :=
  ⟨by decide,
   accessors_error_iff id "web" "13" "linux" "16GB" "" "ssd" "4" linuxProfile (by decide)⟩

/-- Instance of `GetSettings_key_set`: `work_mem` on web, 13, linux, 16 GB. -/
theorem GetSettings_key_set_witness :
    NewPGSettings id "web" "13" "linux" "16GB" "" "ssd" "4" = .ok linuxProfile ∧
    ("work_mem" ∈ mapKeys (GetSettings linuxProfile) ↔
      "work_mem" ∈ ["shared_buffers", "effective_cache_size", "maintenance_work_mem",
              "wal_buffers", "max_connections", "checkpoint_completion_target",
              "default_statistics_target", "random_page_cost"] ∨
      ("work_mem" = "checkpoint_segments" ∧ linuxProfile.dbVersion < 95) ∨
      (("work_mem" = "min_wal_size" ∨ "work_mem" = "max_wal_size") ∧
        linuxProfile.dbVersion ≥ 95) ∨
      ("work_mem" = "effective_io_concurrency" ∧ linuxProfile.dbPlatform = "linux") ∨
      ("work_mem" = "max_worker_processes" ∧ linuxProfile.dbVersion > 95 ∧
        linuxProfile.dbCPU > 2) ∨
      ("work_mem" = "max_parallel_workers_per_gather" ∧ linuxProfile.dbVersion ≥ 96 ∧
        linuxProfile.dbCPU > 2) ∨
      ("work_mem" = "max_parallel_workers" ∧ linuxProfile.dbVersion ≥ 100 ∧
        linuxProfile.dbCPU > 2) ∨
      ("work_mem" = "max_parallel_maintenance_workers" ∧ linuxProfile.dbVersion ≥ 110 ∧
        linuxProfile.dbCPU > 2) ∨
      ("work_mem" = "work_mem" ∧ linuxProfile.dbVersion > 95)) :=
  ⟨by decide,
   GetSettings_key_set id "web" "13" "linux" "16GB" "" "ssd" "4" linuxProfile (by decide)
     "work_mem"⟩

theorem NewPGSettings_random_page_cost (tbl : Char → Char) (a b c d e f g : String)
    (ps : PGSettings) (h : NewPGSettings tbl a b c d e f g = .ok ps) :
    mapGet [] ps.strSettings "random_page_cost" = randomPageCost := by
  obtain ⟨ver, mem, _, _, _, _, _, _, _, _, _, _, hr⟩ := NewPGSettings_inv tbl a b c d e f g ps h
  rw [recalculate_str _ _ hr "random_page_cost" (by decide) (by decide) (by decide) (by decide)
    (by decide) (by decide)]
  rfl

theorem GetStrSetting_random_page_cost (tbl : Char → Char) (a b c d e f g : String)
    (ps : PGSettings) (h : NewPGSettings tbl a b c d e f g = .ok ps) :
    GetStrSetting ps "random_page_cost" = .ok (strGet randomPageCost ps.dbStorage) ∧
    strGet randomPageCost ps.dbStorage ≠ "" := by
  obtain ⟨h1, _, _, h4, _⟩ := NewPGSettings_profile tbl a b c d e f g ps h
  have hk : "random_page_cost" ∈ mapKeys ps.strSettings :=
    (NewPGSettings_keys tbl a b c d e f g ps h "random_page_cost").1.2 (Or.inl (by simp))
  have ht : strGet randomPageCost ps.dbType = "" := by
    simp only [DbTypes, List.mem_cons, List.mem_singleton, List.not_mem_nil, or_false] at h1
    rcases h1 with h | h | h | h | h <;> rw [h] <;> decide
  have hs : strGet randomPageCost ps.dbStorage ≠ "" := by
    simp only [DbStorages, List.mem_cons, List.mem_singleton, List.not_mem_nil, or_false] at h4
    rcases h4 with h | h | h <;> rw [h] <;> decide
  refine ⟨?_, hs⟩
  unfold GetStrSetting
  rw [if_pos ((any_keys_eq_true _ _).2 hk)]
  simp only []
  rw [NewPGSettings_random_page_cost tbl a b c d e f g ps h]
  rw [if_neg (fun hne => hne ht), if_pos hs]

/-- C16: on a successfully constructed profile, whatever its workload type,
`GetStrSetting("random_page_cost")` succeeds with `4` when the storage class is
hdd and with `1.1` when it is ssd or san, and the storage class is one of the
three; the profile of desktop, 9.6, windows, 512MB, hdd with connections and
CPU empty gives `4`, with `shared_buffers` equal to `32MB`. -/
theorem random_page_cost_by_storage (tbl : Char → Char) (a b c d e f g : String)
    (ps : PGSettings) (h : NewPGSettings tbl a b c d e f g = .ok ps) :
    (ps.dbStorage = "hdd" → GetStrSetting ps "random_page_cost" = .ok "4") ∧
    (ps.dbStorage = "ssd" ∨ ps.dbStorage = "san" →
      GetStrSetting ps "random_page_cost" = .ok "1.1") ∧
    (ps.dbStorage = "hdd" ∨ ps.dbStorage = "ssd" ∨ ps.dbStorage = "san") ∧
    NewPGSettings id "desktop" "9.6" "windows" "512MB" "" "hdd" "" = .ok desktopProfile ∧
    GetStrSetting desktopProfile "random_page_cost" = .ok "4" ∧
    GetMemSetting desktopProfile "shared_buffers" = .ok "32MB" := by
  obtain ⟨hg, _⟩ := GetStrSetting_random_page_cost tbl a b c d e f g ps h
  obtain ⟨_, _, _, h4, _⟩ := NewPGSettings_profile tbl a b c d e f g ps h
  refine ⟨?_, ?_, ?_, by decide, by decide, by decide⟩
  · intro hs
    rw [hg, hs]
    rfl
  · rintro (hs | hs)
    · rw [hg, hs]; rfl
    · rw [hg, hs]; rfl
  · simp only [DbStorages, List.mem_cons, List.mem_singleton, List.not_mem_nil, or_false] at h4
    rcases h4 with h | h | h
    · exact Or.inr (Or.inl h)
    · exact Or.inl h
    · exact Or.inr (Or.inr h)

/-- Instance of `random_page_cost_by_storage`: oltp, 12, darwin, 8 GB, san. -/
theorem random_page_cost_by_storage_witness :
    NewPGSettings id "oltp" "12" "darwin" "8GB" "" "san" "" = .ok sanProfile ∧
    sanProfile.dbStorage = "san" ∧
    GetStrSetting sanProfile "random_page_cost" = .ok "1.1" :=
  ⟨by decide, by decide,
   (random_page_cost_by_storage id "oltp" "12" "darwin" "8GB" "" "san" "" sanProfile
     (by decide)).2.1 (Or.inr (by decide))⟩

/-! ## Default parallelism divisor -/

theorem parallelForWorkMemDefault_values (ps : PGSettings)
    (h : ps.dbVersion ∈ [94, 95, 96, 100, 110, 120, 130, 140]) :
    (ps.dbVersion < 100 → parallelForWorkMemDefault ps = 1) ∧
    (¬ ps.dbVersion < 100 → parallelForWorkMemDefault ps = 2) := by
  unfold parallelForWorkMemDefault
  simp only [List.mem_cons, List.mem_singleton, List.not_mem_nil, or_false] at h
  rcases h with h | h | h | h | h | h | h | h <;> rw [h] <;> decide

theorem parallelForWorkMemDefault_pos (ps : PGSettings)
    (h : ps.dbVersion ∈ [94, 95, 96, 100, 110, 120, 130, 140]) :
    0 < parallelForWorkMemDefault ps := by
  obtain ⟨h1, h2⟩ := parallelForWorkMemDefault_values ps h
  by_cases hv : ps.dbVersion < 100
  · rw [h1 hv]; decide
  · rw [h2 hv]; decide

theorem default_divisor_agrees (v : String) (hv : v ∈ DbVersions) (ps : PGSettings)
    (hp : ParseFloat v = some ps.dbVersion) :
    parallelForWorkMemDefault ps = exactDefaultDivisor v ∧
    (Atoi (strGet (mapGet [] DbDefaultValues (Itoa (ps.dbVersion / 10)))
        "max_parallel_workers_per_gather")).1 =
      (Atoi (strGet (mapGet [] DbDefaultValues v) "max_parallel_workers_per_gather")).1 ∧
    (ps.dbVersion < 100 →
      mapGet [] DbDefaultValues (Itoa (ps.dbVersion / 10)) = [] ∧
      parallelForWorkMemDefault ps = 1) := by
  unfold parallelForWorkMemDefault
  simp only [DbVersions, List.mem_cons, List.mem_singleton, List.not_mem_nil, or_false] at hv
  rcases hv with h | h | h | h | h | h | h | h <;> subst h
  · have hk : ParseFloat "9.4" = some 94 := by decide
    rw [hk] at hp
    rw [← Option.some.inj hp]
    decide
  · have hk : ParseFloat "9.5" = some 95 := by decide
    rw [hk] at hp
    rw [← Option.some.inj hp]
    decide
  · have hk : ParseFloat "9.6" = some 96 := by decide
    rw [hk] at hp
    rw [← Option.some.inj hp]
    decide
  · have hk : ParseFloat "10" = some 100 := by decide
    rw [hk] at hp
    rw [← Option.some.inj hp]
    decide
  · have hk : ParseFloat "11" = some 110 := by decide
    rw [hk] at hp
    rw [← Option.some.inj hp]
    decide
  · have hk : ParseFloat "12" = some 120 := by decide
    rw [hk] at hp
    rw [← Option.some.inj hp]
    decide
  · have hk : ParseFloat "13" = some 130 := by decide
    rw [hk] at hp
    rw [← Option.some.inj hp]
    decide
  · have hk : ParseFloat "14" = some 140 := by decide
    rw [hk] at hp
    rw [← Option.some.inj hp]
    decide

/-- C19, as amended: for every supported version string and every profile
holding its parsed value, the default parallelism divisor that `recalculate`
obtains through the truncated integer key equals the divisor obtained under the
exact version string, and so do the two raw table values before a missing or
zero default is mapped to 1; below version 10 the truncated key is absent from
the table and the divisor is 1. -/
theorem default_divisor_truncated_key (v : String) (hv : v ∈ DbVersions) (ps : PGSettings)
    (hp : ParseFloat v = some ps.dbVersion) :
    parallelForWorkMemDefault ps = exactDefaultDivisor v ∧
    (Atoi (strGet (mapGet [] DbDefaultValues (Itoa (ps.dbVersion / 10)))
        "max_parallel_workers_per_gather")).1 =
      (Atoi (strGet (mapGet [] DbDefaultValues v) "max_parallel_workers_per_gather")).1 ∧
    (ps.dbVersion < 100 →
      mapGet [] DbDefaultValues (Itoa (ps.dbVersion / 10)) = [] ∧
      parallelForWorkMemDefault ps = 1) :=
  default_divisor_agrees v hv ps hp

/-- Instance of `default_divisor_truncated_key`: version 9.6 on the desktop
example profile. -/
theorem default_divisor_truncated_key_witness :
    "9.6" ∈ DbVersions ∧ ParseFloat "9.6" = some desktopProfile.dbVersion ∧
    parallelForWorkMemDefault desktopProfile = exactDefaultDivisor "9.6" ∧
    (Atoi (strGet (mapGet [] DbDefaultValues (Itoa (desktopProfile.dbVersion / 10)))
        "max_parallel_workers_per_gather")).1 =
      (Atoi (strGet (mapGet [] DbDefaultValues "9.6") "max_parallel_workers_per_gather")).1 ∧
    (desktopProfile.dbVersion < 100 →
      mapGet [] DbDefaultValues (Itoa (desktopProfile.dbVersion / 10)) = [] ∧
      parallelForWorkMemDefault desktopProfile = 1) :=
  ⟨by decide, by decide,
   default_divisor_truncated_key "9.6" (by decide) desktopProfile (by decide)⟩

/-- C19 refuted: no supported version below 10 at which `work_mem` is derived
(version > 9.5) has a default parallelism divisor through the truncated
integer key that differs from the divisor under the exact version string. -/
theorem default_divisor_truncated_key_counterexample :
    ¬ ∃ v ∈ DbVersions, ∃ ps : PGSettings, ParseFloat v = some ps.dbVersion ∧
        ps.dbVersion < 100 ∧ ps.dbVersion > 95 ∧
        parallelForWorkMemDefault ps ≠ exactDefaultDivisor v := by
  rintro ⟨v, hv, ps, hp, _, _, hne⟩
  exact hne (default_divisor_agrees v hv ps hp).1

/-! ## Workers per gather -/

theorem recalculate_gather (ps qs : PGSettings) (h : recalculate ps = some qs) :
    mapGet [] qs.strSettings "max_parallel_workers_per_gather" =
      if ps.dbVersion > 95 ∧ ps.dbCPU > 2 ∧ ps.dbVersion ≥ 96 then
        fillTypes (fun _ =>
          if ps.dbType ≠ "dw" ∧ ceilHalfFloat ps.dbCPU > 4 then Itoa 4
          else Itoa (ceilHalfFloat ps.dbCPU))
      else [] := by
  unfold recalculate at h
  obtain ⟨_, _, _, _, _, _, _, a, _⟩ := workMemBlock_fields _ _ h
  rw [a, parallelBlock_gather]
  clear h a
  have hw := walSizeBlock_fields
    { ps with memSettings := memSettingsBase ps, strSettings := strSettingsBase ps }
  have hws := walSizeBlock_str
    { ps with memSettings := memSettingsBase ps, strSettings := strSettingsBase ps }
    "max_parallel_workers_per_gather" (by decide)
  generalize walSizeBlock
    { ps with memSettings := memSettingsBase ps, strSettings := strSettingsBase ps } = p1
    at hw hws ⊢
  have hi := ioConcurrencyBlock_fields p1
  have his := ioConcurrencyBlock_str p1 "max_parallel_workers_per_gather" (by decide)
  generalize ioConcurrencyBlock p1 = p2 at hi his ⊢
  obtain ⟨w1, w2, _, _, _, w6, _⟩ := hw
  obtain ⟨i1, i2, _, _, _, i6, _, _⟩ := hi
  rw [i1, i2, i6, w1, w2, w6, his, hws]
  rfl

theorem NewPGSettings_gather (tbl : Char → Char) (a b c d e f g : String) (ps : PGSettings)
    (h : NewPGSettings tbl a b c d e f g = .ok ps) :
    mapGet [] ps.strSettings "max_parallel_workers_per_gather" =
      if ps.dbVersion > 95 ∧ ps.dbCPU > 2 ∧ ps.dbVersion ≥ 96 then
        fillTypes (fun _ =>
          if ps.dbType ≠ "dw" ∧ ceilHalfFloat ps.dbCPU > 4 then Itoa 4
          else Itoa (ceilHalfFloat ps.dbCPU))
      else [] := by
  obtain ⟨_, _, _, _, _, _, p0, hr, g1, g2, _, _, _, g6, _⟩ :=
    NewPGSettings_profile tbl a b c d e f g ps h
  rw [recalculate_gather p0 ps hr, g1, g2, g6]

theorem float64OfNat_large (n : Nat) (h1 : 9007199254740992 ≤ n)
    (h2 : n < 9223372036854775808) : 9 ≤ float64OfNat n := by
  rcases excessBits_spec n (excessBits n) h2 rfl with ⟨_, h0⟩ | ⟨ha, hb, _⟩
  · omega
  · unfold float64OfNat
    simp only []
    generalize excessBits n = e at ha hb
    interval_cases e <;> simp only [Nat.reducePow] <;> split_ifs <;> omega

theorem ceilHalfFloat_exact (n : Int) (h0 : 0 ≤ n) (h1 : n ≤ 9007199254740992) :
    ceilHalfFloat n = (n + 1) / 2 := by
  unfold ceilHalfFloat float64OfInt
  rw [if_neg (by omega)]
  by_cases h : n < 9007199254740992
  · rw [float64OfNat_small n.toNat (by omega)]
    rw [Int.toNat_of_nonneg h0]
  · have hn : n = 9007199254740992 := by omega
    rw [hn]
    decide

theorem ceilHalfFloat_gt_four (n : Int) (h0 : 0 ≤ n) (h1 : n < 9223372036854775808) :
    ceilHalfFloat n > 4 ↔ (n + 1) / 2 > 4 := by
  by_cases h : n ≤ 9007199254740992
  · rw [ceilHalfFloat_exact n h0 h]
  · have h9 := float64OfNat_large n.toNat (by omega) (by omega)
    have hc : ceilHalfFloat n > 4 := by
      unfold ceilHalfFloat float64OfInt
      rw [if_neg (by omega)]
      omega
    constructor
    · intro _; omega
    · intro _; exact hc

theorem GetStrSetting_gather (tbl : Char → Char) (a b c d e f g : String) (ps : PGSettings)
    (h : NewPGSettings tbl a b c d e f g = .ok ps)
    (hv : ps.dbVersion ≥ 96) (hn : ps.dbCPU > 2) :
    GetStrSetting ps "max_parallel_workers_per_gather" =
      .ok (if ps.dbType ≠ "dw" ∧ ceilHalfFloat ps.dbCPU > 4 then Itoa 4
           else Itoa (ceilHalfFloat ps.dbCPU)) := by
  obtain ⟨h1, _⟩ := NewPGSettings_profile tbl a b c d e f g ps h
  have hk : "max_parallel_workers_per_gather" ∈ mapKeys ps.strSettings :=
    (NewPGSettings_keys tbl a b c d e f g ps h "max_parallel_workers_per_gather").1.2
      (Or.inr (Or.inr (Or.inr ⟨by omega, hn, Or.inr (Or.inl ⟨hv, rfl⟩)⟩)))
  have hg := NewPGSettings_gather tbl a b c d e f g ps h
  have hc : ps.dbVersion > 95 ∧ ps.dbCPU > 2 ∧ ps.dbVersion ≥ 96 := ⟨by omega, hn, hv⟩
  rw [if_pos hc] at hg
  have hne : (if ps.dbType ≠ "dw" ∧ ceilHalfFloat ps.dbCPU > 4 then Itoa 4
      else Itoa (ceilHalfFloat ps.dbCPU)) ≠ "" := by
    split_ifs
    · exact Itoa_ne_empty _
    · exact Itoa_ne_empty _
  unfold GetStrSetting
  rw [if_pos ((any_keys_eq_true _ _).2 hk)]
  simp only []
  rw [hg, strGet_fillTypes _ ps.dbType h1, if_pos hne]

/-- C13, as amended: on a successfully constructed profile with version ≥ 9.6
and CPU count `n > 2`, `GetStrSetting("max_parallel_workers_per_gather")`
succeeds; for every workload type other than dw it returns the decimal string
of `min(ceil(n/2), 4)`; for dw it returns the decimal string of
`ceil(float64(n)/2)`, which is `ceil(n/2)` whenever `n ≤ 2 ^ 53`. -/
theorem max_parallel_workers_per_gather_value (tbl : Char → Char) (a b c d e f g : String)
    (ps : PGSettings) (h : NewPGSettings tbl a b c d e f g = .ok ps)
    (hv : ps.dbVersion ≥ 96) (hn : ps.dbCPU > 2) :
    (ps.dbType ≠ "dw" →
      GetStrSetting ps "max_parallel_workers_per_gather" =
        .ok (Itoa (min ((ps.dbCPU + 1) / 2) 4))) ∧
    (ps.dbType = "dw" →
      GetStrSetting ps "max_parallel_workers_per_gather" = .ok (Itoa (ceilHalfFloat ps.dbCPU))) ∧
    (ps.dbType = "dw" → ps.dbCPU ≤ 9007199254740992 →
      GetStrSetting ps "max_parallel_workers_per_gather" = .ok (Itoa ((ps.dbCPU + 1) / 2))) := by
  obtain ⟨_, _, _, _, _, hcpu, _⟩ := NewPGSettings_profile tbl a b c d e f g ps h
  have hg := GetStrSetting_gather tbl a b c d e f g ps h hv hn
  refine ⟨?_, ?_, ?_⟩
  · intro ht
    rw [hg]
    have h4 := ceilHalfFloat_gt_four ps.dbCPU (by omega) hcpu
    by_cases hc : ceilHalfFloat ps.dbCPU > 4
    · rw [if_pos ⟨ht, hc⟩]
      have := h4.1 hc
      rw [min_eq_right (by omega)]
    · have hc2 : ¬ (ps.dbType ≠ "dw" ∧ ceilHalfFloat ps.dbCPU > 4) := fun hh => hc hh.2
      rw [if_neg hc2]
      have hle : ¬ (ps.dbCPU + 1) / 2 > 4 := fun hh => hc (h4.2 hh)
      have hsmall : ps.dbCPU ≤ 9007199254740992 := by omega
      rw [ceilHalfFloat_exact ps.dbCPU (by omega) hsmall, min_eq_left (by omega)]
  · intro ht
    rw [hg]
    have hc2 : ¬ (ps.dbType ≠ "dw" ∧ ceilHalfFloat ps.dbCPU > 4) := fun hh => hh.1 ht
    rw [if_neg hc2]
  · intro ht hs
    rw [hg]
    have hc2 : ¬ (ps.dbType ≠ "dw" ∧ ceilHalfFloat ps.dbCPU > 4) := fun hh => hh.1 ht
    rw [if_neg hc2, ceilHalfFloat_exact ps.dbCPU (by omega) hs]

/-- Instance of `max_parallel_workers_per_gather_value`: web, 13, linux, 4
CPUs. -/
theorem max_parallel_workers_per_gather_value_witness :
    NewPGSettings id "web" "13" "linux" "16GB" "" "ssd" "4" = .ok linuxProfile ∧
    linuxProfile.dbVersion ≥ 96 ∧ linuxProfile.dbCPU > 2 ∧
    (linuxProfile.dbType ≠ "dw" →
      GetStrSetting linuxProfile "max_parallel_workers_per_gather" =
        .ok (Itoa (min ((linuxProfile.dbCPU + 1) / 2) 4))) ∧
    (linuxProfile.dbType = "dw" →
      GetStrSetting linuxProfile "max_parallel_workers_per_gather" =
        .ok (Itoa (ceilHalfFloat linuxProfile.dbCPU))) ∧
    (linuxProfile.dbType = "dw" → linuxProfile.dbCPU ≤ 9007199254740992 →
      GetStrSetting linuxProfile "max_parallel_workers_per_gather" =
        .ok (Itoa ((linuxProfile.dbCPU + 1) / 2))) :=
  ⟨by decide, by decide, by decide,
   max_parallel_workers_per_gather_value id "web" "13" "linux" "16GB" "" "ssd" "4"
     linuxProfile (by decide) (by decide) (by decide)⟩

/-- C13 refuted for dw: with `2 ^ 53 + 1` CPUs (dw, 13, linux, 16GB) the
setting is `4503599627370496`, whereas `ceil(n/2)` is `4503599627370497`. -/
theorem max_parallel_workers_per_gather_counterexample :
    NewPGSettings id "dw" "13" "linux" "16GB" "" "ssd" "9007199254740993"
      = .ok manyCpuProfile ∧
    manyCpuProfile.dbType = "dw" ∧ manyCpuProfile.dbVersion ≥ 96 ∧
    manyCpuProfile.dbCPU = 9007199254740993 ∧
    GetStrSetting manyCpuProfile "max_parallel_workers_per_gather" = .ok "4503599627370496" ∧
    Itoa ((manyCpuProfile.dbCPU + 1) / 2) = "4503599627370497" ∧
    GetStrSetting manyCpuProfile "max_parallel_workers_per_gather" ≠
      .ok (Itoa ((manyCpuProfile.dbCPU + 1) / 2)) := by
  refine ⟨by decide, by decide, by decide, by decide, by decide, by decide, by decide⟩

/-! ## The work_mem loop -/

theorem divChecked_some (a b w : Int) (h : divChecked a b = some w) :
    b ≠ 0 ∧ w = divInt a b := by
  unfold divChecked at h
  by_cases hb : b = 0
  · rw [if_pos hb] at h
    exact Option.noConfusion h
  · rw [if_neg hb] at h
    exact ⟨hb, (Option.some.inj h).symm⟩

/-- The `work_mem` loop reads the profile only through the scalar-valued
tables, the `shared_buffers` table and the memory. -/
theorem workMemLoop_congr (p q : PGSettings) (hs : p.strSettings = q.strSettings)
    (hm : mapGet [] p.memSettings "shared_buffers" = mapGet [] q.memSettings "shared_buffers")
    (ht : p.totalMemory = q.totalMemory) :
    ∀ (types : List String) (par : Int) (acc : MemValue),
      workMemLoop p types par acc = workMemLoop q types par acc := by
  intro types
  induction types with
  | nil => intro par acc; rfl
  | cons t rest ih =>
    intro par acc
    simp only [workMemLoop, hs, hm, ht, ih]

theorem workMemTable_get (w : Int) (t : String) (ht : t ∈ DbTypes) :
    memGet
      [ ("web", ⟨mulInt (divInt w KB) KB⟩),
        ("oltp", ⟨mulInt (divInt w KB) KB⟩),
        ("dw", ⟨mulInt (divInt (divInt w 2) KB) KB⟩),
        ("mixed", ⟨mulInt (divInt (divInt w 2) KB) KB⟩),
        ("desktop", ⟨mulInt (divInt (divInt w 6) KB) KB⟩) ] t =
      ⟨mulInt (divInt (if t = "desktop" then divInt w 6
        else if t = "dw" ∨ t = "mixed" then divInt w 2 else w) KB) KB⟩ := by
  simp only [DbTypes, List.mem_cons, List.mem_singleton, List.not_mem_nil, or_false] at ht
  rcases ht with h | h | h | h | h <;> subst h <;> rfl

/-- The table that the `work_mem` loop builds: for each workload type it visits,
both divisors are non-zero and the entry is `workMemBase` divided by the
per-type divisor and truncated to whole kibibytes. -/
theorem workMemLoop_entries (ps : PGSettings)
    (hU : (∀ t ∈ DbTypes,
        strGet (mapGet [] ps.strSettings "max_parallel_workers_per_gather") t = "") ∨
      (∀ t ∈ DbTypes,
        strGet (mapGet [] ps.strSettings "max_parallel_workers_per_gather") t ≠ "")) :
    ∀ (types : List String), types.Nodup → (∀ t ∈ types, t ∈ DbTypes) →
      ∀ (par : Int) (acc wm : MemValue),
      (par = parallelForWorkMemDefault ps ∨
        ∀ t ∈ DbTypes,
          strGet (mapGet [] ps.strSettings "max_parallel_workers_per_gather") t ≠ "") →
      workMemLoop ps types par acc = some wm →
      (∀ t ∈ types, mulInt (maxConnectionsValue ps t) 3 ≠ 0 ∧ parallelismDivisor ps t ≠ 0 ∧
        memGet wm t = ⟨mulInt (divInt (if t = "desktop" then divInt (workMemBase ps t) 6
          else if t = "dw" ∨ t = "mixed" then divInt (workMemBase ps t) 2
          else workMemBase ps t) KB) KB⟩) ∧
      (∀ t, t ∉ types → memGet wm t = memGet acc t) := by
  intro types
  induction types with
  | nil =>
    intro _ _ par acc wm _ h
    simp only [workMemLoop, Option.some.injEq] at h
    subst h
    exact ⟨fun t ht => absurd ht (List.not_mem_nil t), fun _ _ => rfl⟩
  | cons t rest ih =>
    intro hnd hts par acc wm hJ h
    have ht : t ∈ DbTypes := hts t (List.mem_cons_self _ _)
    have hrest : ∀ u ∈ rest, u ∈ DbTypes := fun u hu => hts u (List.mem_cons_of_mem _ hu)
    obtain ⟨htn, hnd2⟩ := List.nodup_cons.1 hnd
    have hpar : (if strGet (mapGet [] ps.strSettings "max_parallel_workers_per_gather") t ≠ ""
        then (Atoi (strGet (mapGet [] ps.strSettings "max_parallel_workers_per_gather") t)).1
        else par) = parallelismDivisor ps t := by
      unfold parallelismDivisor
      by_cases hg : strGet (mapGet [] ps.strSettings "max_parallel_workers_per_gather") t ≠ ""
      · rw [if_pos hg, if_pos hg]
      · rw [if_neg hg, if_neg hg]
        rcases hJ with hJ | hJ
        · exact hJ
        · exact absurd (hJ t ht) hg
    have hJ2 : parallelismDivisor ps t = parallelForWorkMemDefault ps ∨
        ∀ t ∈ DbTypes,
          strGet (mapGet [] ps.strSettings "max_parallel_workers_per_gather") t ≠ "" := by
      rcases hU with hU | hU
      · left
        unfold parallelismDivisor
        rw [if_neg (fun hne => hne (hU t ht))]
      · exact Or.inr hU
    unfold workMemLoop at h
    simp only [] at h
    rw [hpar] at h
    change (match divChecked (subInt ps.totalMemory.InBytes
        (memGet (mapGet [] ps.memSettings "shared_buffers") t).InBytes)
        (mulInt (maxConnectionsValue ps t) 3) with
      | none => none
      | some w1 =>
        match divChecked w1 (parallelismDivisor ps t) with
        | none => none
        | some workMem =>
          workMemLoop ps rest (parallelismDivisor ps t)
            (mapSet acc t (memGet
              [ ("web", ⟨mulInt (divInt workMem KB) KB⟩),
                ("oltp", ⟨mulInt (divInt workMem KB) KB⟩),
                ("dw", ⟨mulInt (divInt (divInt workMem 2) KB) KB⟩),
                ("mixed", ⟨mulInt (divInt (divInt workMem 2) KB) KB⟩),
                ("desktop", ⟨mulInt (divInt (divInt workMem 6) KB) KB⟩) ] t))) = some wm at h
    cases h1 : divChecked (subInt ps.totalMemory.InBytes
        (memGet (mapGet [] ps.memSettings "shared_buffers") t).InBytes)
        (mulInt (maxConnectionsValue ps t) 3) with
    | none => rw [h1] at h; exact Option.noConfusion h
    | some w1 =>
      rw [h1] at h
      simp only [] at h
      obtain ⟨d1, e1⟩ := divChecked_some _ _ _ h1
      cases h2 : divChecked w1 (parallelismDivisor ps t) with
      | none => rw [h2] at h; exact Option.noConfusion h
      | some workMem =>
        rw [h2] at h
        simp only [] at h
        obtain ⟨d2, e2⟩ := divChecked_some _ _ _ h2
        have hw : workMem = workMemBase ps t := by
          rw [e2, e1]
          rfl
        rw [workMemTable_get workMem t ht, hw] at h
        obtain ⟨ih1, ih2⟩ := ih hnd2 hrest _ _ wm hJ2 h
        constructor
        · intro u hu
          rcases List.mem_cons.1 hu with hu | hu
          · subst hu
            refine ⟨d1, d2, ?_⟩
            rw [ih2 u htn]
            exact mapGet_mapSet_self _ _ _ _
          · exact ih1 u hu
        · intro u hu
          have hne : u ≠ t := fun he => hu (he ▸ List.mem_cons_self _ _)
          have hur : u ∉ rest := fun he => hu (List.mem_cons_of_mem _ he)
          rw [ih2 u hur]
          exact mapGet_mapSet_ne _ _ _ _ _ hne

theorem workMemBlock_work_mem (p q : PGSettings) (h : workMemBlock p = some q)
    (hv : p.dbVersion > 95) :
    ∃ wm, workMemLoop p DbTypes (parallelForWorkMemDefault p) [] = some wm ∧
      q.memSettings = mapSet p.memSettings "work_mem" wm := by
  unfold workMemBlock at h
  rw [if_pos hv] at h
  cases hl : workMemLoop p DbTypes (parallelForWorkMemDefault p) [] with
  | none => rw [hl] at h; exact Option.noConfusion h
  | some wm =>
    rw [hl] at h
    simp only [Option.some.injEq] at h
    subst h
    exact ⟨wm, rfl, rfl⟩

/-- The `work_mem` table of a recalculated profile is the table that the loop
builds from the recalculated profile itself. -/
theorem recalculate_work_mem (ps qs : PGSettings) (h : recalculate ps = some qs)
    (hv : ps.dbVersion > 95) :
    ∃ wm, workMemLoop qs DbTypes (parallelForWorkMemDefault qs) [] = some wm ∧
      mapGet [] qs.memSettings "work_mem" = wm := by
  unfold recalculate at h
  have hf := workMemBlock_fields _ _ h
  have hw := walSizeBlock_fields
    { ps with memSettings := memSettingsBase ps, strSettings := strSettingsBase ps }
  generalize walSizeBlock
    { ps with memSettings := memSettingsBase ps, strSettings := strSettingsBase ps } = p1
    at hw hf h
  have hi := ioConcurrencyBlock_fields p1
  generalize ioConcurrencyBlock p1 = p2 at hi hf h
  have hp := parallelBlock_fields p2
  generalize parallelBlock p2 = p3 at hp hf h
  obtain ⟨_, w2, _⟩ := hw
  obtain ⟨_, i2, _⟩ := hi
  obtain ⟨_, p2v, _⟩ := hp
  have hv3 : p3.dbVersion > 95 := by rw [p2v, i2, w2]; exact hv
  obtain ⟨wm, hl, hm⟩ := workMemBlock_work_mem p3 qs h hv3
  obtain ⟨_, f2, _, _, _, _, f7, fs, fm⟩ := hf
  refine ⟨wm, ?_, ?_⟩
  · have hd : parallelForWorkMemDefault qs = parallelForWorkMemDefault p3 := by
      unfold parallelForWorkMemDefault
      rw [f2]
    rw [hd, workMemLoop_congr qs p3 fs (fm "shared_buffers" (by decide)) f7]
    exact hl
  · rw [hm]
    exact mapGet_mapSet_self _ _ _ _

theorem NewPGSettings_gather_uniform (tbl : Char → Char) (a b c d e f g : String)
    (ps : PGSettings) (h : NewPGSettings tbl a b c d e f g = .ok ps) :
    (∀ t ∈ DbTypes,
        strGet (mapGet [] ps.strSettings "max_parallel_workers_per_gather") t = "") ∨
      (∀ t ∈ DbTypes,
        strGet (mapGet [] ps.strSettings "max_parallel_workers_per_gather") t ≠ "") := by
  rw [NewPGSettings_gather tbl a b c d e f g ps h]
  by_cases hc : ps.dbVersion > 95 ∧ ps.dbCPU > 2 ∧ ps.dbVersion ≥ 96
  · right
    intro t ht
    rw [if_pos hc, strGet_fillTypes _ t ht]
    split_ifs
    · exact Itoa_ne_empty _
    · exact Itoa_ne_empty _
  · left
    intro t _
    rw [if_neg hc]
    rfl

/-- The `work_mem` table of a constructed profile with version > 9.5. -/
theorem NewPGSettings_work_mem (tbl : Char → Char) (a b c d e f g : String)
    (ps : PGSettings) (h : NewPGSettings tbl a b c d e f g = .ok ps)
    (hv : ps.dbVersion > 95) (t : String) (ht : t ∈ DbTypes) :
    mulInt (maxConnectionsValue ps t) 3 ≠ 0 ∧ parallelismDivisor ps t ≠ 0 ∧
    memGet (mapGet [] ps.memSettings "work_mem") t =
      ⟨mulInt (divInt (if t = "desktop" then divInt (workMemBase ps t) 6
        else if t = "dw" ∨ t = "mixed" then divInt (workMemBase ps t) 2
        else workMemBase ps t) KB) KB⟩ := by
  obtain ⟨_, _, _, _, _, _, p0, hr, _, g2, _⟩ := NewPGSettings_profile tbl a b c d e f g ps h
  obtain ⟨wm, hl, hm⟩ := recalculate_work_mem p0 ps hr (by rw [g2]; exact hv)
  rw [hm]
  have hnd : DbTypes.Nodup := by decide
  exact (workMemLoop_entries ps (NewPGSettings_gather_uniform tbl a b c d e f g ps h)
    DbTypes hnd (fun _ hh => hh) _ [] wm (Or.inl rfl) hl).1 t ht

theorem tdiv_pos_range (x k : Int) (h1 : -9223372036854775808 ≤ x)
    (h2 : x < 9223372036854775808) (hk : 0 < k) :
    -9223372036854775808 ≤ x.tdiv k ∧ x.tdiv k < 9223372036854775808 ∧
    (0 ≤ x → 0 ≤ x.tdiv k ∧ x.tdiv k ≤ x) ∧ (x < 0 → x ≤ x.tdiv k ∧ x.tdiv k ≤ 0) := by
  rw [tdiv_eq_ite x k hk]
  by_cases hx : 0 ≤ x
  · rw [if_pos hx]
    have a := Int.ediv_nonneg hx (le_of_lt hk)
    have b : x / k ≤ x := Int.ediv_le_self k hx
    refine ⟨by omega, by omega, fun _ => ⟨a, b⟩, fun hh => absurd hx (by omega)⟩
  · rw [if_neg hx]
    have a := Int.ediv_nonneg (by omega : 0 ≤ -x) (le_of_lt hk)
    have b : -x / k ≤ -x := Int.ediv_le_self k (by omega)
    refine ⟨by omega, by omega, fun hh => absurd hh hx, fun _ => ⟨by omega, by omega⟩⟩

theorem truncate_KB (x : Int) (h1 : -9223372036854775808 ≤ x) (h2 : x < 9223372036854775808) :
    mulInt (divInt x KB) KB = x.tdiv 1024 * 1024 := by
  have hk : (0 : Int) < 1024 := by decide
  show mulInt (divInt x 1024) 1024 = x.tdiv 1024 * 1024
  rw [divInt_eq_tdiv x 1024 h1 h2 hk]
  unfold mulInt
  apply wrap64_eq_self
  · rw [tdiv_eq_ite x 1024 hk]
    split_ifs <;> omega
  · rw [tdiv_eq_ite x 1024 hk]
    split_ifs <;> omega

theorem workMemBase_range (ps : PGSettings) (t : String) :
    -9223372036854775808 ≤ workMemBase ps t ∧ workMemBase ps t < 9223372036854775808 := by
  unfold workMemBase divInt
  exact ⟨wrap64_lower _, wrap64_upper _⟩

theorem workMemEntry_exact (w : Int) (h1 : -9223372036854775808 ≤ w)
    (h2 : w < 9223372036854775808) (t : String) :
    mulInt (divInt (if t = "desktop" then divInt w 6
      else if t = "dw" ∨ t = "mixed" then divInt w 2 else w) KB) KB =
    Int.tdiv (Int.tdiv w (workMemTypeDivisor t)) 1024 * 1024 := by
  unfold workMemTypeDivisor
  by_cases hd : t = "desktop"
  · rw [if_pos hd, if_pos hd, divInt_eq_tdiv w 6 h1 h2 (by decide)]
    obtain ⟨r1, r2, _, _⟩ := tdiv_pos_range w 6 h1 h2 (by decide)
    exact truncate_KB _ r1 r2
  · rw [if_neg hd, if_neg hd]
    by_cases hm : t = "dw" ∨ t = "mixed"
    · rw [if_pos hm, if_pos hm, divInt_eq_tdiv w 2 h1 h2 (by decide)]
      obtain ⟨r1, r2, _, _⟩ := tdiv_pos_range w 2 h1 h2 (by decide)
      exact truncate_KB _ r1 r2
    · rw [if_neg hm, if_neg hm, Int.tdiv_one]
      exact truncate_KB _ h1 h2

theorem NewPGSettings_maxConnectionsValue (tbl : Char → Char) (a b c d e f g : String)
    (ps : PGSettings) (h : NewPGSettings tbl a b c d e f g = .ok ps)
    (t : String) (ht : t ∈ DbTypes) :
    0 < maxConnectionsValue ps t ∧ maxConnectionsValue ps t < 9223372036854775808 ∧
    (maxConnectionsValue ps t = ps.dbConnections ∨ maxConnectionsValue ps t ≤ 300) := by
  obtain ⟨_, _, _, _, hc, _⟩ := NewPGSettings_profile tbl a b c d e f g ps h
  unfold maxConnectionsValue
  rw [NewPGSettings_max_connections tbl a b c d e f g ps h]
  obtain ⟨n, n0, n1, n2⟩ := maxConnections_get ps t ht
  have nr : n < 9223372036854775808 := by
    rcases n1 with n1 | n1
    · rw [n1]; exact hc
    · omega
  rw [n2, Atoi_Itoa n (by omega) nr]
  exact ⟨n0, nr, n1⟩

theorem NewPGSettings_parallelismDivisor (tbl : Char → Char) (a b c d e f g : String)
    (ps : PGSettings) (h : NewPGSettings tbl a b c d e f g = .ok ps)
    (t : String) (ht : t ∈ DbTypes) : 0 < parallelismDivisor ps t := by
  obtain ⟨_, hver, _, _, _, hcpu, _⟩ := NewPGSettings_profile tbl a b c d e f g ps h
  unfold parallelismDivisor
  rw [NewPGSettings_gather tbl a b c d e f g ps h]
  by_cases hc : ps.dbVersion > 95 ∧ ps.dbCPU > 2 ∧ ps.dbVersion ≥ 96
  · rw [if_pos hc, strGet_fillTypes _ t ht]
    obtain ⟨w1, w2⟩ := ceilHalfFloat_bounds ps.dbCPU hc.2.1 hcpu
    have hne : (if ps.dbType ≠ "dw" ∧ ceilHalfFloat ps.dbCPU > 4 then Itoa 4
        else Itoa (ceilHalfFloat ps.dbCPU)) ≠ "" := by
      split_ifs
      · exact Itoa_ne_empty _
      · exact Itoa_ne_empty _
    rw [if_pos hne]
    by_cases hx : ps.dbType ≠ "dw" ∧ ceilHalfFloat ps.dbCPU > 4
    · rw [if_pos hx, Atoi_Itoa 4 (by decide) (by decide)]
      decide
    · rw [if_neg hx, Atoi_Itoa _ (by omega) w2]
      show 0 < ceilHalfFloat ps.dbCPU
      omega
  · rw [if_neg hc]
    have he : ¬ strGet ([] : StrValue) t ≠ "" := fun hh => hh rfl
    rw [if_neg he]
    exact parallelForWorkMemDefault_pos ps hver

theorem sharedBuffers_sub (ps : PGSettings) (t : String) (ht : t ∈ DbTypes)
    (h1 : -9223372036854775808 ≤ ps.totalMemory.inBytes)
    (h2 : ps.totalMemory.inBytes < 9223372036854775808) :
    subInt ps.totalMemory.InBytes (memGet (sharedBuffers ps) t).InBytes =
      ps.totalMemory.inBytes - (memGet (sharedBuffers ps) t).inBytes := by
  have hk : (0 : Int) < (if t = "desktop" then 16 else 4) := by split_ifs <;> decide
  obtain ⟨r1, r2, r3, r4⟩ := tdiv_pos_range ps.totalMemory.inBytes _ h1 h2 hk
  have hS : ((memGet (sharedBuffers ps) t).inBytes =
        Int.tdiv ps.totalMemory.inBytes (if t = "desktop" then 16 else 4)) ∨
      ((memGet (sharedBuffers ps) t).inBytes = 536870912 ∧
        536870912 < Int.tdiv ps.totalMemory.inBytes (if t = "desktop" then 16 else 4)) := by
    rw [sharedBuffers_get ps t ht, divInt_eq_tdiv _ _ h1 h2 hk]
    have hMB : 512 * MB = 536870912 := by decide
    rw [hMB]
    by_cases hw : ps.dbVersion < 100 ∧ ps.dbPlatform = "windows"
    · rw [if_pos hw]
      by_cases hcap : Int.tdiv ps.totalMemory.inBytes (if t = "desktop" then 16 else 4)
          > 536870912
      · rw [if_pos hcap]
        exact Or.inr ⟨rfl, hcap⟩
      · rw [if_neg hcap]
        exact Or.inl rfl
    · rw [if_neg hw]
      exact Or.inl rfl
  show subInt ps.totalMemory.inBytes (memGet (sharedBuffers ps) t).inBytes = _
  unfold subInt
  apply wrap64_eq_self
  · rcases hS with hS | ⟨hS, hgt⟩
    · rw [hS]
      by_cases hx : 0 ≤ ps.totalMemory.inBytes
      · have := r3 hx
        omega
      · have := r4 (by omega)
        omega
    · rw [hS]
      by_cases hx : 0 ≤ ps.totalMemory.inBytes
      · have := r3 hx
        omega
      · have := r4 (by omega)
        omega
  · rcases hS with hS | ⟨hS, hgt⟩
    · rw [hS]
      by_cases hx : 0 ≤ ps.totalMemory.inBytes
      · have := r3 hx
        omega
      · have := r4 (by omega)
        omega
    · rw [hS]
      omega

/-- Without wrap-around of `max_connections * 3` the value `workMemBase` is the
exact twofold truncating quotient. -/
theorem NewPGSettings_workMemBase (tbl : Char → Char) (a b c d e f g : String)
    (ps : PGSettings) (h : NewPGSettings tbl a b c d e f g = .ok ps)
    (t : String) (ht : t ∈ DbTypes)
    (hm : maxConnectionsValue ps t * 3 < 9223372036854775808) :
    workMemBase ps t =
      Int.tdiv
        (Int.tdiv
          (ps.totalMemory.inBytes - (memGet (mapGet [] ps.memSettings "shared_buffers") t).inBytes)
          (maxConnectionsValue ps t * 3))
        (parallelismDivisor ps t) := by
  obtain ⟨m1, m2, hsb, _, _⟩ := NewPGSettings_tables tbl a b c d e f g ps h
  obtain ⟨c0, _, _⟩ := NewPGSettings_maxConnectionsValue tbl a b c d e f g ps h t ht
  have hp := NewPGSettings_parallelismDivisor tbl a b c d e f g ps h t ht
  have hsub := sharedBuffers_sub ps t ht m1 m2
  have hr1 : -9223372036854775808 ≤
      ps.totalMemory.inBytes - (memGet (sharedBuffers ps) t).inBytes := by
    rw [← hsub]
    exact wrap64_lower _
  have hr2 : ps.totalMemory.inBytes - (memGet (sharedBuffers ps) t).inBytes
      < 9223372036854775808 := by
    rw [← hsub]
    exact wrap64_upper _
  unfold workMemBase
  rw [hsb, hsub]
  have hmul : mulInt (maxConnectionsValue ps t) 3 = maxConnectionsValue ps t * 3 := by
    unfold mulInt
    exact wrap64_eq_self _ (by omega) hm
  rw [hmul]
  have hk : 0 < maxConnectionsValue ps t * 3 := by omega
  rw [divInt_eq_tdiv _ _ hr1 hr2 hk]
  obtain ⟨q1, q2, _, _⟩ := tdiv_pos_range _ _ hr1 hr2 hk
  rw [divInt_eq_tdiv _ _ q1 q2 hp]

/-! ## The work_mem value and its divisors -/

theorem GetMemSetting_work_mem (tbl : Char → Char) (a b c d e f g : String)
    (ps : PGSettings) (h : NewPGSettings tbl a b c d e f g = .ok ps)
    (hv : ps.dbVersion > 95) :
    GetMemSetting ps "work_mem" =
      .ok (memGet (mapGet [] ps.memSettings "work_mem") ps.dbType).Get := by
  have hk : "work_mem" ∈ mapKeys ps.memSettings :=
    (NewPGSettings_keys tbl a b c d e f g ps h "work_mem").2.2 (Or.inr (Or.inr ⟨hv, rfl⟩))
  unfold GetMemSetting
  rw [if_pos ((any_keys_eq_true _ _).2 hk)]
  simp only []
  rw [if_pos (Get_ne_empty _)]

theorem work_mem_entry (tbl : Char → Char) (a b c d e f g : String)
    (ps : PGSettings) (h : NewPGSettings tbl a b c d e f g = .ok ps)
    (hv : ps.dbVersion > 95) (t : String) (ht : t ∈ DbTypes) :
    memGet (mapGet [] ps.memSettings "work_mem") t =
      ⟨Int.tdiv (Int.tdiv (workMemBase ps t) (workMemTypeDivisor t)) 1024 * 1024⟩ := by
  obtain ⟨_, _, he⟩ := NewPGSettings_work_mem tbl a b c d e f g ps h hv t ht
  obtain ⟨r1, r2⟩ := workMemBase_range ps t
  rw [he, workMemEntry_exact _ r1 r2 t]

/-- C12, as amended: on a successfully constructed profile with version > 9.5
the `work_mem` entry of every workload type `t` is `((B / d) / 1024) * 1024`
with truncating division, where `B = workMemBase ps t` is `(memory - that
type's shared_buffers) / (that type's max_connections * 3) /
parallelism_divisor` (exactly so when `max_connections * 3` is below `2 ^ 63`)
and `d` is 1 for web and oltp, 2 for dw and mixed, 6 for desktop: the per-type
division comes first and the truncation to whole kibibytes afterwards.
`GetMemSetting("work_mem")` returns the rendering of the entry of the current
workload type. -/
theorem work_mem_value (tbl : Char → Char) (a b c d e f g : String)
    (ps : PGSettings) (h : NewPGSettings tbl a b c d e f g = .ok ps)
    (hv : ps.dbVersion > 95) :
    (∀ t ∈ DbTypes,
      (memGet (mapGet [] ps.memSettings "work_mem") t).inBytes =
        Int.tdiv (Int.tdiv (workMemBase ps t) (workMemTypeDivisor t)) 1024 * 1024 ∧
      (maxConnectionsValue ps t * 3 < 9223372036854775808 →
        workMemBase ps t =
          Int.tdiv
            (Int.tdiv
              (ps.totalMemory.inBytes -
                (memGet (mapGet [] ps.memSettings "shared_buffers") t).inBytes)
              (maxConnectionsValue ps t * 3))
            (parallelismDivisor ps t))) ∧
    ps.dbType ∈ DbTypes ∧
    GetMemSetting ps "work_mem" =
      .ok (DbMemory.mk (Int.tdiv (Int.tdiv (workMemBase ps ps.dbType)
        (workMemTypeDivisor ps.dbType)) 1024 * 1024)).Get := by
  obtain ⟨hty, _⟩ := NewPGSettings_profile tbl a b c d e f g ps h
  refine ⟨?_, hty, ?_⟩
  · intro t ht
    refine ⟨?_, NewPGSettings_workMemBase tbl a b c d e f g ps h t ht⟩
    rw [work_mem_entry tbl a b c d e f g ps h hv t ht]
  · rw [GetMemSetting_work_mem tbl a b c d e f g ps h hv,
      work_mem_entry tbl a b c d e f g ps h hv ps.dbType hty]

/-- Instance of `work_mem_value`: dw, 13, linux, 2 GB. -/
theorem work_mem_value_witness :
    NewPGSettings id "dw" "13" "linux" "2GB" "" "ssd" "" = .ok dwProfile ∧
    dwProfile.dbVersion > 95 ∧
    ((∀ t ∈ DbTypes,
      (memGet (mapGet [] dwProfile.memSettings "work_mem") t).inBytes =
        Int.tdiv (Int.tdiv (workMemBase dwProfile t) (workMemTypeDivisor t)) 1024 * 1024 ∧
      (maxConnectionsValue dwProfile t * 3 < 9223372036854775808 →
        workMemBase dwProfile t =
          Int.tdiv
            (Int.tdiv
              (dwProfile.totalMemory.inBytes -
                (memGet (mapGet [] dwProfile.memSettings "shared_buffers") t).inBytes)
              (maxConnectionsValue dwProfile t * 3))
            (parallelismDivisor dwProfile t))) ∧
    dwProfile.dbType ∈ DbTypes ∧
    GetMemSetting dwProfile "work_mem" =
      .ok (DbMemory.mk (Int.tdiv (Int.tdiv (workMemBase dwProfile dwProfile.dbType)
        (workMemTypeDivisor dwProfile.dbType)) 1024 * 1024)).Get) :=
  ⟨by decide, by decide,
   work_mem_value id "dw" "13" "linux" "2GB" "" "ssd" "" dwProfile (by decide) (by decide)⟩

/-- C12 refuted: for dw, 13, linux, 2GB the value `B` is 6710886 and the
`work_mem` entry of dw is 3354624 (`3276KB`), whereas truncating `B` to whole
kibibytes first and dividing by 2 afterwards gives 3355136. -/
theorem work_mem_value_counterexample :
    NewPGSettings id "dw" "13" "linux" "2GB" "" "ssd" "" = .ok dwProfile ∧
    dwProfile.dbVersion > 95 ∧ dwProfile.dbType = "dw" ∧
    workMemBase dwProfile "dw" = 6710886 ∧
    workMemTypeDivisor "dw" = 2 ∧
    (memGet (mapGet [] dwProfile.memSettings "work_mem") "dw").inBytes = 3354624 ∧
    GetMemSetting dwProfile "work_mem" = .ok "3276KB" ∧
    Int.tdiv (Int.tdiv (workMemBase dwProfile "dw") 1024 * 1024) (workMemTypeDivisor "dw")
      = 3355136 ∧
    (memGet (mapGet [] dwProfile.memSettings "work_mem") "dw").inBytes ≠
      Int.tdiv (Int.tdiv (workMemBase dwProfile "dw") 1024 * 1024) (workMemTypeDivisor "dw") := by
  refine ⟨by decide, by decide, by decide, by decide, by decide, by decide, by decide,
    by decide, by decide⟩

/-- C20, as amended: on a successfully constructed profile with version > 9.5,
for each of the five workload types neither division of the `work_mem`
computation is by zero (both succeed and give `workMemBase`); the parallelism
divisor is strictly positive, the `max_connections` value is strictly positive,
and `max_connections * 3` is strictly positive whenever it is below `2 ^ 63`,
that is whenever the 64-bit product does not wrap around. -/
theorem work_mem_divisors (tbl : Char → Char) (a b c d e f g : String)
    (ps : PGSettings) (h : NewPGSettings tbl a b c d e f g = .ok ps)
    (hv : ps.dbVersion > 95) (t : String) (ht : t ∈ DbTypes) :
    mulInt (maxConnectionsValue ps t) 3 ≠ 0 ∧
    0 < parallelismDivisor ps t ∧
    0 < maxConnectionsValue ps t ∧
    (maxConnectionsValue ps t * 3 < 9223372036854775808 →
      0 < mulInt (maxConnectionsValue ps t) 3) ∧
    (∃ w, divChecked
        (subInt ps.totalMemory.InBytes
          (memGet (mapGet [] ps.memSettings "shared_buffers") t).InBytes)
        (mulInt (maxConnectionsValue ps t) 3) = some w ∧
      divChecked w (parallelismDivisor ps t) = some (workMemBase ps t)) := by
  obtain ⟨d1, _, _⟩ := NewPGSettings_work_mem tbl a b c d e f g ps h hv t ht
  obtain ⟨c0, _, _⟩ := NewPGSettings_maxConnectionsValue tbl a b c d e f g ps h t ht
  have hp := NewPGSettings_parallelismDivisor tbl a b c d e f g ps h t ht
  refine ⟨d1, hp, c0, ?_, ?_⟩
  · intro hm
    unfold mulInt
    rw [wrap64_eq_self _ (by omega) hm]
    omega
  · refine ⟨divInt
      (subInt ps.totalMemory.InBytes
        (memGet (mapGet [] ps.memSettings "shared_buffers") t).InBytes)
      (mulInt (maxConnectionsValue ps t) 3), ?_, ?_⟩
    · unfold divChecked
      rw [if_neg d1]
    · unfold divChecked
      rw [if_neg (by omega : parallelismDivisor ps t ≠ 0)]
      rfl

/-- Instance of `work_mem_divisors`: web on web, 13, linux, 16 GB, 4 CPUs. -/
theorem work_mem_divisors_witness :
    NewPGSettings id "web" "13" "linux" "16GB" "" "ssd" "4" = .ok linuxProfile ∧
    linuxProfile.dbVersion > 95 ∧ "web" ∈ DbTypes ∧
    (mulInt (maxConnectionsValue linuxProfile "web") 3 ≠ 0 ∧
    0 < parallelismDivisor linuxProfile "web" ∧
    0 < maxConnectionsValue linuxProfile "web" ∧
    (maxConnectionsValue linuxProfile "web" * 3 < 9223372036854775808 →
      0 < mulInt (maxConnectionsValue linuxProfile "web") 3) ∧
    (∃ w, divChecked
        (subInt linuxProfile.totalMemory.InBytes
          (memGet (mapGet [] linuxProfile.memSettings "shared_buffers") "web").InBytes)
        (mulInt (maxConnectionsValue linuxProfile "web") 3) = some w ∧
      divChecked w (parallelismDivisor linuxProfile "web") =
        some (workMemBase linuxProfile "web"))) :=
  ⟨by decide, by decide, by decide,
   work_mem_divisors id "web" "13" "linux" "16GB" "" "ssd" "4" linuxProfile (by decide)
     (by decide) "web" (by decide)⟩

/-- C20 refuted: with 3074457345618258603 connections (web, 13, linux, 16GB)
the divisor `max_connections * 3` of every workload type wraps around to
-9223372036854775807, which is not strictly positive. -/
theorem work_mem_divisors_counterexample :
    NewPGSettings id "web" "13" "linux" "16GB" "3074457345618258603" "ssd" ""
      = .ok manyConnectionsProfile ∧
    manyConnectionsProfile.dbVersion > 95 ∧
    maxConnectionsValue manyConnectionsProfile "web" = 3074457345618258603 ∧
    mulInt (maxConnectionsValue manyConnectionsProfile "web") 3 = -9223372036854775807 ∧
    ¬ 0 < mulInt (maxConnectionsValue manyConnectionsProfile "web") 3 := by
  refine ⟨by decide, by decide, by decide, by decide, by decide⟩

/-! ## Setters and recalculation -/

/-- Method `recalculate` reads only the seven profile fields, never the old
tables. -/
theorem recalculate_congr (ps qs : PGSettings) (h1 : ps.dbType = qs.dbType)
    (h2 : ps.dbVersion = qs.dbVersion) (h3 : ps.dbPlatform = qs.dbPlatform)
    (h4 : ps.dbConnections = qs.dbConnections) (h5 : ps.dbStorage = qs.dbStorage)
    (h6 : ps.dbCPU = qs.dbCPU) (h7 : ps.totalMemory = qs.totalMemory) :
    recalculate ps = recalculate qs := by
  cases ps
  cases qs
  simp only at h1 h2 h3 h4 h5 h6 h7
  subst h1 h2 h3 h4 h5 h6 h7
  rfl

/-- A recalculated profile is a fixed point of `recalculate`. -/
theorem recalculate_idem (ps qs : PGSettings) (h : recalculate ps = some qs) :
    recalculate qs = some qs := by
  obtain ⟨f1, f2, f3, f4, f5, f6, f7⟩ := recalculate_fields ps qs h
  rw [recalculate_congr qs ps f1 f2 f3 f4 f5 f6 f7]
  exact h

theorem SetDbType_recalculated (tbl : Char → Char) (ps qs : PGSettings) (x : String)
    (h : SetDbType tbl ps x = .ok qs) : recalculate qs = some qs := by
  unfold SetDbType at h
  cases h1 : setDbType tbl ps x with
  | error err => rw [h1] at h; exact Except.noConfusion h
  | ok p1 =>
    rw [h1] at h
    simp only [] at h
    cases h2 : recalculate p1 with
    | none => rw [h2] at h; exact Except.noConfusion h
    | some p2 =>
      rw [h2] at h
      simp only [Except.ok.injEq] at h
      subst h
      exact recalculate_idem p1 p2 h2

theorem SetDbVersion_recalculated (ps qs : PGSettings) (x : String)
    (h : SetDbVersion ps x = .ok qs) : recalculate qs = some qs := by
  unfold SetDbVersion at h
  cases h1 : setDbVersion ps x with
  | error err => rw [h1] at h; exact Except.noConfusion h
  | ok p1 =>
    rw [h1] at h
    simp only [] at h
    cases h2 : recalculate p1 with
    | none => rw [h2] at h; exact Except.noConfusion h
    | some p2 =>
      rw [h2] at h
      simp only [Except.ok.injEq] at h
      subst h
      exact recalculate_idem p1 p2 h2

/-- C18 fails for the setters that do not call `recalculate`: on the profile of
web, 13, linux, 16GB, ssd, 4 CPUs, `SetDBMemory("32GB")` succeeds and leaves
`shared_buffers` at `4GB` where a recalculation of the resulting profile gives
`8GB`, and `SetDbPlatform("windows")` succeeds and leaves
`effective_io_concurrency` at `200` where a recalculation derives no such
setting; after either call the tables differ from the recalculated ones,
whereas after `SetDbType("dw")` and `SetDbVersion("9.4")` they are the
recalculated ones, and so they are after `SetDBStorage("hdd")`, the tables not
depending on the storage class. -/
theorem setters_without_recalculation :
    NewPGSettings id "web" "13" "linux" "16GB" "" "ssd" "4" = .ok linuxProfile ∧
    SetDBMemory id linuxProfile "32GB" = .ok memorySetProfile ∧
    GetMemSetting memorySetProfile "shared_buffers" = .ok "4GB" ∧
    (recalculate memorySetProfile).map (fun q => GetMemSetting q "shared_buffers")
      = some (.ok "8GB") ∧
    (recalculate memorySetProfile).map (fun q => q.memSettings)
      ≠ some memorySetProfile.memSettings ∧
    SetDbPlatform id linuxProfile "windows" = .ok platformSetProfile ∧
    GetStrSetting platformSetProfile "effective_io_concurrency" = .ok "200" ∧
    (recalculate platformSetProfile).map (fun q => GetStrSetting q "effective_io_concurrency")
      = some (.error (.invalidSetting "effective_io_concurrency")) ∧
    (recalculate platformSetProfile).map (fun q => q.strSettings)
      ≠ some platformSetProfile.strSettings ∧
    (SetDbType id linuxProfile "dw").toOption.bind recalculate
      = (SetDbType id linuxProfile "dw").toOption ∧
    (SetDbType id linuxProfile "dw").toOption.isSome = true ∧
    (SetDbVersion linuxProfile "9.4").toOption.bind recalculate
      = (SetDbVersion linuxProfile "9.4").toOption ∧
    (SetDbVersion linuxProfile "9.4").toOption.isSome = true ∧
    SetDBStorage id linuxProfile "hdd" = .ok storageSetProfile ∧
    (recalculate storageSetProfile).map (fun q => q.memSettings)
      = some storageSetProfile.memSettings ∧
    (recalculate storageSetProfile).map (fun q => q.strSettings)
      = some storageSetProfile.strSettings := by
  refine ⟨by decide, by decide, by decide, by decide, ?_⟩
  refine ⟨by decide, by decide, by decide, by decide, ?_⟩
  refine ⟨by decide, by decide, by decide, by decide, ?_⟩
  exact ⟨by decide, by decide, by decide, by decide⟩

end Pgotune
